import Mathlib

/-!
Verification of the scene-graph / physics-synchronization core of the Fyrox
engine (crate `fyrox`, modules `scene::graph`, `scene::graph::physics`,
`scene::variable`, `scene::rigidbody`, `scene::collider`).

The development is a shallow embedding: every Rust function relevant to the
claims is translated into an executable Lean definition.  Machine floats
(`f32`) never influence any claim checked here, so float-valued fields are
represented by exact stand-in scalars (`Int`) or by opaque symbolic stubs;
only flags, handles, list structure and control flow — which the claims are
about — are modelled precisely.
-/

namespace Fyrox

/-- Stand-in for `Vector3<f32>`.  The claims never compute with the
coordinates, so exact integer components are used. -/
structure Vec3 where
  x : Int
  y : Int
  z : Int
deriving DecidableEq, Repr

/-- Generational-index handle, `Handle<Node> { index: u32, generation: u32 }`
(fyrox-core `pool.rs`; the pool itself is not under `src/`, so the handle
layout follows the spec: `Handle::NONE` is the sentinel `u32::MAX` with
generation `0`). -/
structure Handle where
  index : Nat
  generation : Nat
deriving DecidableEq, Repr

/-- Modelled from the spec: `Handle::NONE` is the sentinel index value
`u32::MAX` / generation 0, always invalid. -/
def Handle.NONE : Handle := ⟨4294967295, 0⟩

/-- Mirrors `Handle::is_some` (handle differs from the NONE sentinel). -/
def Handle.isSome (h : Handle) : Bool := h ≠ Handle.NONE

/-- The flag bits of `scene/variable.rs`: `VariableFlags` with `MODIFIED`
and `NEED_SYNC` bits (the deserialization-compatibility bit
`DONT_MARK_AS_MODIFIED_IF_MISSING` plays no role in the claims and is
omitted). -/
structure VariableFlags where
  modified : Bool
  needSync : Bool
deriving DecidableEq, Repr

/-- Mirrors `VariableFlags::NONE`. -/
def VariableFlags.NONE : VariableFlags := ⟨false, false⟩

/-- Mirrors the single bit `VariableFlags::MODIFIED`. -/
def VariableFlags.MODIFIED : VariableFlags := ⟨true, false⟩

/-- Mirrors the single bit `VariableFlags::NEED_SYNC`. -/
def VariableFlags.NEED_SYNC : VariableFlags := ⟨false, true⟩

/-- Bitwise union of two flag sets (`|` on the bitflags type). -/
def VariableFlags.union (a b : VariableFlags) : VariableFlags :=
  ⟨a.modified || b.modified, a.needSync || b.needSync⟩

/-- The wrapper `TemplateVariable<T>` of `scene/variable.rs`: a value plus
its `VariableFlags` cell. -/
structure TemplateVariable (α : Type) where
  value : α
  flags : VariableFlags
deriving DecidableEq, Repr

namespace TemplateVariable

/-- `TemplateVariable::new`: fresh non-modified variable. -/
def new (v : α) : TemplateVariable α := ⟨v, VariableFlags.NONE⟩

/-- `TemplateVariable::mark_modified` (private): inserts
`MODIFIED | NEED_SYNC` into the flag cell. -/
def mark_modified (t : TemplateVariable α) : TemplateVariable α :=
  { t with flags := t.flags.union (VariableFlags.MODIFIED.union VariableFlags.NEED_SYNC) }

/-- `TemplateVariable::set`: replaces the value and raises both flags via
`mark_modified`.  (The Rust function also returns the previous value; the
returned old value is irrelevant to the claims.) -/
def set (t : TemplateVariable α) (v : α) : TemplateVariable α :=
  { t.mark_modified with value := v }

/-- `TemplateVariable::set_with_flags`: replaces value and the whole flag
cell. -/
def set_with_flags (t : TemplateVariable α) (v : α) (flags : VariableFlags) :
    TemplateVariable α :=
  { t with value := v, flags := flags }

/-- `TemplateVariable::set_silent`: replaces the value only, flags
untouched. -/
def set_silent (t : TemplateVariable α) (v : α) : TemplateVariable α :=
  { t with value := v }

/-- `TemplateVariable::need_sync`. -/
def need_sync (t : TemplateVariable α) : Bool := t.flags.needSync

/-- `TemplateVariable::try_sync_model`: when `NEED_SYNC` is set, the flag is
dropped first and the wrapped value is handed to the setter closure.  The
Rust setter is a side-effecting closure; here the function returns the
variable with its updated flag cell together with `some value` exactly when
the setter was invoked. -/
def try_sync_model (t : TemplateVariable α) : TemplateVariable α × Option α :=
  if t.need_sync then
    ({ t with flags := { t.flags with needSync := false } }, some t.value)
  else
    (t, none)

end TemplateVariable

/-- `scene/rigidbody.rs` `RigidBodyType`. -/
inductive RigidBodyType
  | Dynamic
  | Static
  | KinematicPositionBased
  | KinematicVelocityBased
deriving DecidableEq, Repr

/-- `scene/rigidbody.rs` `ApplyAction`: queued imperative actions drained by
the sync routine. -/
inductive ApplyAction
  | Force (force : Vec3)
  | Torque (torque : Vec3)
  | ForceAtPoint (force : Vec3) (point : Vec3)
  | Impulse (impulse : Vec3)
  | TorqueImpulse (impulse : Vec3)
  | ImpulseAtPoint (impulse : Vec3) (point : Vec3)
  | WakeUp
deriving DecidableEq, Repr

/-- Symbolic stand-in for a world-space isometry (`Isometry3<f32>`); its
float content never matters to a claim, so it is kept as an opaque token. -/
inductive IsometryStub
  | fromGlobalTransform (token : Nat)
deriving DecidableEq, Repr

/-- The mutable state of one native (rapier) rigid body, reduced to the
fields the embedded sync routines read or write.  Fields the engine only
ever writes through setters that no claim observes are represented
faithfully enough to record the write. -/
structure NativeRigidBody where
  bodyType : RigidBodyType
  position : IsometryStub
  linvel : Vec3
  angvel : Vec3
  mass : Int
  linearDamping : Int
  angularDamping : Int
  ccdEnabled : Bool
  canSleepActivation : Bool
  translationLocked : Bool
  rotationLocked : Bool × Bool × Bool
  dominanceGroup : Int
  gravityScale : Int
  sleeping : Bool
deriving DecidableEq, Repr

/-- Identifies which native setter a `try_sync_model` call invoked inside
`PhysicsWorld::sync_to_rigid_body_node`; the event trace is the
call-counting stub of the claim. -/
inductive RBSetter
  | bodyType
  | linVel
  | angVel
  | mass
  | linDamping
  | angDamping
  | ccdEnabled
  | canSleep
  | translationLocked
  | xRotationLocked
  | yRotationLocked
  | zRotationLocked
  | dominance
  | gravityScale
deriving DecidableEq, Repr

/-- One observable native mutation performed by the sync routine: either a
property setter invocation or a drained queued action. -/
inductive SyncEvent
  | setter (s : RBSetter)
  | action (a : ApplyAction)
deriving DecidableEq, Repr

/-- Symbolic stand-in for the base node's local transform content, which the
physics pull-back overwrites with values derived by float matrix algebra
from the parent's global transform and the native body's position. -/
inductive LocalPoseStub
  | initial (token : Nat)
  | pulledBack (parentTransform : IsometryStub) (nativePosition : IsometryStub)
deriving DecidableEq, Repr

/-- Engine-side `scene::rigidbody::RigidBody` node payload: the fourteen
`TemplateVariable`s, the sleeping flag, the `native` cell
(`none` models `RigidBodyHandle::invalid()`), the action queue and the
cached local transform of the base node (as a stub, written by the
pull-back). -/
structure RigidBodyState where
  lin_vel : TemplateVariable Vec3
  ang_vel : TemplateVariable Vec3
  lin_damping : TemplateVariable Int
  ang_damping : TemplateVariable Int
  body_type : TemplateVariable RigidBodyType
  mass : TemplateVariable Int
  x_rotation_locked : TemplateVariable Bool
  y_rotation_locked : TemplateVariable Bool
  z_rotation_locked : TemplateVariable Bool
  translation_locked : TemplateVariable Bool
  ccd_enabled : TemplateVariable Bool
  can_sleep : TemplateVariable Bool
  dominance : TemplateVariable Int
  gravity_scale : TemplateVariable Int
  sleeping : Bool
  native : Option Nat
  actions : List ApplyAction
  local_pose : LocalPoseStub
  global_transform_iso : IsometryStub
deriving DecidableEq, Repr

/-- `RigidBody::set_mass`: the public mutator, delegating to
`TemplateVariable::set`. -/
def RigidBodyState.set_mass (rb : RigidBodyState) (m : Int) : RigidBodyState :=
  { rb with mass := rb.mass.set m }

/-- `RigidBody::set_lin_vel`. -/
def RigidBodyState.set_lin_vel (rb : RigidBodyState) (v : Vec3) : RigidBodyState :=
  { rb with lin_vel := rb.lin_vel.set v }

/-- `RigidBody::need_sync_model`: disjunction of all fourteen variables'
`NEED_SYNC` flags. -/
def RigidBodyState.need_sync_model (rb : RigidBodyState) : Bool :=
  rb.lin_vel.need_sync || rb.ang_vel.need_sync
    || rb.lin_damping.need_sync || rb.ang_damping.need_sync
    || rb.body_type.need_sync || rb.mass.need_sync
    || rb.x_rotation_locked.need_sync || rb.y_rotation_locked.need_sync
    || rb.z_rotation_locked.need_sync || rb.translation_locked.need_sync
    || rb.ccd_enabled.need_sync || rb.can_sleep.need_sync
    || rb.dominance.need_sync || rb.gravity_scale.need_sync

/-- Modelled from the spec: fyrox-core's `BiDirHashMap<NativeHandle,
Handle<Node>>` (not under `src/`), reduced to the operations the physics
world uses: keyed insertion, removal by key, and value lookup.  Keys are the
native-handle numbers. -/
structure BiDirMap where
  entries : List (Nat × Handle)
deriving DecidableEq, Repr

/-- Key membership in the bidirectional map. -/
def BiDirMap.containsKey (m : BiDirMap) (k : Nat) : Bool :=
  m.entries.any (fun e => e.1 = k)

/-- `BiDirHashMap::insert` keyed by native handle. -/
def BiDirMap.insert (m : BiDirMap) (k : Nat) (v : Handle) : BiDirMap :=
  ⟨(k, v) :: m.entries⟩

/-- `BiDirHashMap::remove_by_key`: removes the entry and returns its value,
or `none` when the key is absent. -/
def BiDirMap.remove_by_key (m : BiDirMap) (k : Nat) : Option (Handle × BiDirMap) :=
  match m.entries.find? (fun e => e.1 = k) with
  | some e => some (e.2, ⟨m.entries.filter (fun e2 => e2.1 ≠ k)⟩)
  | none => none

/-- `BiDirHashMap::value_of`. -/
def BiDirMap.value_of (m : BiDirMap) (k : Nat) : Option Handle :=
  (m.entries.find? (fun e => e.1 = k)).map (·.2)

/-- Lookup in a native object set represented as an association list keyed
by native-handle number (rapier arenas reduced to the operations the
embedded code performs). -/
def setLookup (s : List (Nat × β)) (k : Nat) : Option β :=
  (s.find? (fun e => e.1 = k)).map (·.2)

/-- Pointwise update of a native object set at a key. -/
def setUpdate (s : List (Nat × β)) (k : Nat) (v : β) : List (Nat × β) :=
  s.map (fun e => if e.1 = k then (k, v) else e)

/-- Placeholder for engine-side joint parameters (`scene::joint::JointParams`);
their float payload is irrelevant to every claim, the token keeps distinct
parameter values distinguishable. -/
inductive JointParamsStub
  | params (token : Nat)
deriving DecidableEq, Repr

/-- `InteractionGroups` (membership and filter bit masks). -/
structure InteractionGroupsStub where
  memberships : Nat
  filter : Nat
deriving DecidableEq, Repr

/-- `CoefficientCombineRule` of `scene/graph/physics.rs`. -/
inductive CombineRule
  | Average
  | Min
  | Multiply
  | Max
deriving DecidableEq, Repr

/-- The declarative `ColliderShape` enum (`scene::collider`; the 3D
`collider.rs` is not under `src/`, but the full constructor list and each
variant's payload are fixed by the exhaustive match of
`collider_shape_into_native_shape` in `scene/graph/physics.rs`, which is).
Float extents are exact stand-ins; `GeometrySource` is a node handle. -/
inductive ColliderShape
  | ball (radius : Int)
  | cylinder (halfHeight : Int) (radius : Int)
  | cone (halfHeight : Int) (radius : Int)
  | cuboid (halfExtents : Vec3)
  | capsule (pointA : Vec3) (pointB : Vec3) (radius : Int)
  | segment (pointA : Vec3) (pointB : Vec3)
  | triangle (a : Vec3) (b : Vec3) (c : Vec3)
  | trimesh (sources : List Handle)
  | heightfield (geometrySource : Handle)
  | polyhedron (geometrySource : Handle)
deriving DecidableEq, Repr

/-- Symbolic stand-in for the `Matrix4<f32>` values threaded through shape
conversion; `isoInvGlobal h` stands for
`isometric_global_transform(nodes, h).try_inverse().unwrap()`. -/
inductive M4Stub
  | isoInvGlobal (h : Handle)
deriving DecidableEq, Repr

/-- One vertex of a baked native trimesh: either the degenerate origin
point of the fallback shape, or a mesh-buffer vertex transformed by the
owner-relative transform (the float transform application of
`make_trimesh` is abstracted into the constructor). -/
inductive TrimeshVertex
  | zeroPoint
  | corner (ownerInv : M4Stub) (tri : Nat) (k : Nat)
deriving DecidableEq, Repr

/-- A native (rapier) shape as produced by `collider_shape_into_native_shape`. -/
inductive NativeShape
  | ball (radius : Int)
  | cylinder (halfHeight : Int) (radius : Int)
  | cone (halfHeight : Int) (radius : Int)
  | cuboid (halfExtents : Vec3)
  | capsule (pointA : Vec3) (pointB : Vec3) (radius : Int)
  | segment (pointA : Vec3) (pointB : Vec3)
  | triangle (a : Vec3) (b : Vec3) (c : Vec3)
  | trimesh (vertices : List TrimeshVertex) (indices : List (Nat × Nat × Nat))
  | heightfield (dataToken : Nat)
  | convexDecomposition (ownerInv : M4Stub) (tris : List Nat)
deriving DecidableEq, Repr

/-- Local pose a collider builder receives
(`collider_node.local_transform()` position and rotation). -/
structure ColliderPoseStub where
  position : Vec3
  rotationToken : Nat
deriving DecidableEq, Repr

/-- One native (rapier) collider: the parent body it is attached to
(`insert_with_parent`) plus the builder-supplied state. -/
structure NativeCollider where
  parentBody : Option Nat
  shape : NativeShape
  position : ColliderPoseStub
  friction : Int
  restitution : Int
  collisionGroups : InteractionGroupsStub
  solverGroups : InteractionGroupsStub
  frictionCombineRule : CombineRule
  restitutionCombineRule : CombineRule
  sensor : Bool
  density : Option Int
deriving DecidableEq, Repr

/-- One native (rapier) impulse joint as created by
`ImpulseJointSet::insert(body1, body2, data)`.  rapier stores the two body
handles verbatim — it does not validate them — so possibly-invalid handles
(`none`) are representable. -/
structure NativeJoint where
  body1 : Option Nat
  body2 : Option Nat
  data : JointParamsStub
deriving DecidableEq, Repr

/-- The `PhysicsWorld` of `scene/graph/physics.rs` reduced to the state the
claims observe: the enabled flag, the three native object sets and their
bidirectional maps, plus fresh-handle counters standing in for rapier's
generational arena allocation. -/
structure PhysicsWorldM where
  enabled : Bool
  nextBody : Nat
  bodySet : List (Nat × NativeRigidBody)
  bodyMap : BiDirMap
  nextCollider : Nat
  colliderSet : List (Nat × NativeCollider)
  colliderMap : BiDirMap
  nextJoint : Nat
  jointSet : List (Nat × NativeJoint)
  jointMap : BiDirMap
deriving DecidableEq, Repr

namespace PhysicsWorldM

/-- `PhysicsWorld::new` (container content; pipeline machinery is stateless
for the claims). -/
def new : PhysicsWorldM :=
  { enabled := true
    nextBody := 0, bodySet := [], bodyMap := ⟨[]⟩
    nextCollider := 0, colliderSet := [], colliderMap := ⟨[]⟩
    nextJoint := 0, jointSet := [], jointMap := ⟨[]⟩ }

/-- `PhysicsWorld::add_body`: inserts into the rapier body set and records
the native-to-node mapping. -/
def add_body (w : PhysicsWorldM) (owner : Handle) (body : NativeRigidBody) :
    PhysicsWorldM × Nat :=
  let handle := w.nextBody
  ({ w with
      nextBody := handle + 1
      bodySet := w.bodySet ++ [(handle, body)]
      bodyMap := w.bodyMap.insert handle owner }, handle)

/-- `PhysicsWorld::remove_body`.  The `assert!` on the map removal panics
(`none`) when the handle has no map entry — in particular when it is
`RigidBodyHandle::invalid()` (`none` here).  `RigidBodySet::remove` is
called with `remove_attached_colliders = true`, so rapier also removes
every collider attached to this body from the collider set (but knows
nothing about the engine-side collider map). -/
def remove_body (w : PhysicsWorldM) (handle : Option Nat) : Option PhysicsWorldM :=
  match handle with
  | none => none
  | some k =>
    match w.bodyMap.remove_by_key k with
    | none => none
    | some (_, map2) =>
      some { w with
        bodyMap := map2
        bodySet := w.bodySet.filter (fun e => e.1 ≠ k)
        colliderSet := w.colliderSet.filter (fun e => e.2.parentBody ≠ some k) }

/-- `PhysicsWorld::add_collider`: `insert_with_parent` attaches the native
collider to the given native body, then the map entry is recorded. -/
def add_collider (w : PhysicsWorldM) (owner : Handle) (parentBody : Nat)
    (collider : NativeCollider) : PhysicsWorldM × Nat :=
  let handle := w.nextCollider
  ({ w with
      nextCollider := handle + 1
      colliderSet :=
        w.colliderSet ++ [(handle, { collider with parentBody := some parentBody })]
      colliderMap := w.colliderMap.insert handle owner }, handle)

/-- `PhysicsWorld::remove_collider`: only when the native collider is still
present in the rapier set is it removed and the map entry dropped (with an
`assert!` that the entry existed, which panics — `none` — if it did not);
otherwise the map is left untouched and `false` is returned. -/
def remove_collider (w : PhysicsWorldM) (handle : Option Nat) :
    Option (PhysicsWorldM × Bool) :=
  match handle with
  | none => some (w, false)
  | some k =>
    if (setLookup w.colliderSet k).isSome then
      match w.colliderMap.remove_by_key k with
      | none => none
      | some (_, map2) =>
        some ({ w with
          colliderSet := w.colliderSet.filter (fun e => e.1 ≠ k)
          colliderMap := map2 }, true)
    else
      some (w, false)

/-- `PhysicsWorld::add_joint`: `ImpulseJointSet::insert` stores the two
native body handles without validating them. -/
def add_joint (w : PhysicsWorldM) (owner : Handle) (body1 body2 : Option Nat)
    (joint : JointParamsStub) : PhysicsWorldM × Nat :=
  let handle := w.nextJoint
  ({ w with
      nextJoint := handle + 1
      jointSet := w.jointSet ++ [(handle, ⟨body1, body2, joint⟩)]
      jointMap := w.jointMap.insert handle owner }, handle)

/-- `PhysicsWorld::remove_joint` (asserts the map entry exists). -/
def remove_joint (w : PhysicsWorldM) (handle : Option Nat) : Option PhysicsWorldM :=
  match handle with
  | none => none
  | some k =>
    match w.jointMap.remove_by_key k with
    | none => none
    | some (_, map2) =>
      some { w with
        jointMap := map2
        jointSet := w.jointSet.filter (fun e => e.1 ≠ k) }

end PhysicsWorldM

/-- One `try_sync_model(setter)` step of `sync_to_rigid_body_node`: threads
the native body, emits the trace event exactly when the setter fired. -/
def syncStep (t : TemplateVariable α) (ev : RBSetter)
    (apply : α → NativeRigidBody → NativeRigidBody) (nb : NativeRigidBody) :
    TemplateVariable α × NativeRigidBody × List SyncEvent :=
  match t.try_sync_model with
  | (t2, some v) => (t2, apply v nb, [SyncEvent.setter ev])
  | (t2, none) => (t2, nb, [])

/-- Effect of draining one queued `ApplyAction` on the native body.  Force
and impulse accumulators live inside the backend and are observed by no
claim; `wake_up(false)` clears the sleeping state. -/
def applyActionNative (a : ApplyAction) (nb : NativeRigidBody) : NativeRigidBody :=
  match a with
  | ApplyAction.WakeUp => { nb with sleeping := false }
  | _ => nb

/-- Drains the action queue (`while let Some(action) = actions.pop_front()`),
applying each to the native body and recording each native call. -/
def drainActions (acts : List ApplyAction) (nb : NativeRigidBody) :
    NativeRigidBody × List SyncEvent :=
  match acts with
  | [] => (nb, [])
  | a :: rest =>
    let nb2 := applyActionNative a nb
    let (nb3, evs) := drainActions rest nb2
    (nb3, SyncEvent.action a :: evs)

/-- `RigidBodyBuilder` chain of the creation branch of
`sync_to_rigid_body_node`: a fresh native body built from the node's
declared state. -/
def buildNativeRigidBody (rb : RigidBodyState) : NativeRigidBody :=
  { bodyType := rb.body_type.value
    position := rb.global_transform_iso
    linvel := rb.lin_vel.value
    angvel := rb.ang_vel.value
    mass := rb.mass.value
    linearDamping := rb.lin_damping.value
    angularDamping := rb.ang_damping.value
    ccdEnabled := rb.ccd_enabled.value
    canSleepActivation := rb.can_sleep.value
    translationLocked := rb.translation_locked.value
    rotationLocked :=
      (rb.x_rotation_locked.value, rb.y_rotation_locked.value, rb.z_rotation_locked.value)
    dominanceGroup := rb.dominance.value
    gravityScale := rb.gravity_scale.value
    sleeping := rb.sleeping }

/-- `PhysicsWorld::sync_to_rigid_body_node` (`scene/graph/physics.rs`
lines 1254-1394).  Returns the updated world, the updated node state (flag
cells and the `native` cell mutate through interior mutability in Rust) and
the trace of native mutations performed. -/
def sync_to_rigid_body_node (w : PhysicsWorldM) (handle : Handle)
    (rb : RigidBodyState) : PhysicsWorldM × RigidBodyState × List SyncEvent :=
  match rb.native with
  | some k =>
    if rb.need_sync_model || !rb.actions.isEmpty then
      match setLookup w.bodySet k with
      | some nb =>
        let (bodyTypeV, nb, e1) := syncStep rb.body_type RBSetter.bodyType
          (fun v b => { b with bodyType := v }) nb
        let (linVelV, nb, e2) := syncStep rb.lin_vel RBSetter.linVel
          (fun v b => { b with linvel := v }) nb
        let (angVelV, nb, e3) := syncStep rb.ang_vel RBSetter.angVel
          (fun v b => { b with angvel := v }) nb
        let (massV, nb, e4) := syncStep rb.mass RBSetter.mass
          (fun v b => { b with mass := v }) nb
        let (linDampingV, nb, e5) := syncStep rb.lin_damping RBSetter.linDamping
          (fun v b => { b with linearDamping := v }) nb
        let (angDampingV, nb, e6) := syncStep rb.ang_damping RBSetter.angDamping
          (fun v b => { b with angularDamping := v }) nb
        let (ccdV, nb, e7) := syncStep rb.ccd_enabled RBSetter.ccdEnabled
          (fun v b => { b with ccdEnabled := v }) nb
        let (canSleepV, nb, e8) := syncStep rb.can_sleep RBSetter.canSleep
          (fun v b =>
            { b with canSleepActivation := v, sleeping := v && b.sleeping }) nb
        let (translationLockedV, nb, e9) := syncStep rb.translation_locked
          RBSetter.translationLocked
          (fun v b => { b with translationLocked := v }) nb
        let (xLockedV, nb, e10) := syncStep rb.x_rotation_locked RBSetter.xRotationLocked
          (fun v b => { b with rotationLocked :=
            (v, b.rotationLocked.2.1, b.rotationLocked.2.2) }) nb
        let (yLockedV, nb, e11) := syncStep rb.y_rotation_locked RBSetter.yRotationLocked
          (fun v b => { b with rotationLocked :=
            (b.rotationLocked.1, v, b.rotationLocked.2.2) }) nb
        let (zLockedV, nb, e12) := syncStep rb.z_rotation_locked RBSetter.zRotationLocked
          (fun v b => { b with rotationLocked :=
            (b.rotationLocked.1, b.rotationLocked.2.1, v) }) nb
        let (dominanceV, nb, e13) := syncStep rb.dominance RBSetter.dominance
          (fun v b => { b with dominanceGroup := v }) nb
        let (gravityScaleV, nb, e14) := syncStep rb.gravity_scale RBSetter.gravityScale
          (fun v b => { b with gravityScale := v }) nb
        let (nb, eActs) := drainActions rb.actions nb
        let rb2 : RigidBodyState :=
          { rb with
              body_type := bodyTypeV, lin_vel := linVelV, ang_vel := angVelV
              mass := massV, lin_damping := linDampingV, ang_damping := angDampingV
              ccd_enabled := ccdV, can_sleep := canSleepV
              translation_locked := translationLockedV
              x_rotation_locked := xLockedV, y_rotation_locked := yLockedV
              z_rotation_locked := zLockedV, dominance := dominanceV
              gravity_scale := gravityScaleV
              actions := [] }
        ({ w with bodySet := setUpdate w.bodySet k nb }, rb2,
          e1 ++ e2 ++ e3 ++ e4 ++ e5 ++ e6 ++ e7 ++ e8 ++ e9 ++ e10 ++ e11
            ++ e12 ++ e13 ++ e14 ++ eActs)
      | none => (w, rb, [])
    else
      (w, rb, [])
  | none =>
    let (w2, k) := w.add_body handle (buildNativeRigidBody rb)
    (w2, { rb with native := some k }, [])

/-- `PhysicsWorld::sync_rigid_body_node` (`scene/graph/physics.rs` lines
1218-1252): the after-step pull-back of simulated state into a dynamic
rigid-body node. -/
def sync_rigid_body_node (w : PhysicsWorldM) (rb : RigidBodyState)
    (parentTransform : IsometryStub) : RigidBodyState :=
  if w.enabled then
    match rb.native.bind (setLookup w.bodySet) with
    | some nb =>
      if nb.bodyType = RigidBodyType.Dynamic then
        { rb with
            local_pose := LocalPoseStub.pulledBack parentTransform nb.position
            lin_vel := rb.lin_vel.set_with_flags nb.linvel VariableFlags.MODIFIED
            ang_vel := rb.ang_vel.set_with_flags nb.angvel VariableFlags.MODIFIED
            sleeping := nb.sleeping }
      else rb
    | none => rb
  else rb

/-- Engine-side `scene::collider::Collider` node payload.  The 3D
`collider.rs` is not under `src/`; the struct is modelled from its
structurally identical 2D twin `scene/dim2/collider.rs` (which is under
`src/`) extended with the `density` variable, exactly the fields
`sync_to_collider_node` in `scene/graph/physics.rs` reads. -/
structure ColliderState where
  shape : TemplateVariable ColliderShape
  friction : TemplateVariable Int
  density : TemplateVariable (Option Int)
  restitution : TemplateVariable Int
  is_sensor : TemplateVariable Bool
  collision_groups : TemplateVariable InteractionGroupsStub
  solver_groups : TemplateVariable InteractionGroupsStub
  friction_combine_rule : TemplateVariable CombineRule
  restitution_combine_rule : TemplateVariable CombineRule
  native : Option Nat
deriving DecidableEq, Repr

/-- `Collider::needs_sync_model`: disjunction of the nine variables'
`NEED_SYNC` flags (mirrors `dim2/collider.rs`, plus `density` as used by
the 3D sync routine). -/
def ColliderState.needs_sync_model (c : ColliderState) : Bool :=
  c.shape.need_sync || c.friction.need_sync || c.density.need_sync
    || c.restitution.need_sync || c.is_sensor.need_sync
    || c.collision_groups.need_sync || c.solver_groups.need_sync
    || c.friction_combine_rule.need_sync || c.restitution_combine_rule.need_sync

/-- Modelled from the spec: the `Joint` node payload
(`Joint { params, body1, body2, native: Cell<JointHandle> }`); `joint.rs`
is not under `src/`, but `sync_to_joint_node` in `scene/graph/physics.rs`
fixes the fields and their `TemplateVariable` wrapping. -/
structure JointState where
  params : TemplateVariable JointParamsStub
  body1 : TemplateVariable Handle
  body2 : TemplateVariable Handle
  native : Option Nat
deriving DecidableEq, Repr

/-- A `Mesh` node payload reduced to what shape conversion walks: the
triangles of its surfaces' geometry buffers (opaque tokens — their vertex
data is float-only and observed by no claim, while their count decides the
degenerate-trimesh fallback). -/
structure MeshState where
  triangles : List Nat
deriving DecidableEq, Repr

/-- A `Terrain` node payload reduced to an opaque height-field token
(`make_heightfield` bakes the chunk height maps; no claim observes the
baked floats). -/
structure TerrainState where
  heightfieldToken : Nat
deriving DecidableEq, Repr

/-- The discriminated node payload (`Node` is a closed polymorphic entity;
the kinds not participating in any claim are collapsed into `pivot`). -/
inductive Payload
  | pivot
  | rigidBody (rb : RigidBodyState)
  | collider (c : ColliderState)
  | joint (j : JointState)
  | mesh (m : MeshState)
  | terrain (t : TerrainState)
deriving DecidableEq, Repr

/-- A graph node: the `Base` hierarchy and transform fields every node kind
embeds, plus the payload variant. -/
structure NodeM where
  parent : Handle
  children : List Handle
  selfHandle : Handle
  localPosition : Vec3
  localRotationToken : Nat
  transformModified : Bool
  payload : Payload
deriving DecidableEq, Repr

/-- `cast::<RigidBody>()` on a node. -/
def NodeM.castRigidBody (n : NodeM) : Option RigidBodyState :=
  match n.payload with
  | Payload.rigidBody rb => some rb
  | _ => none

/-- `cast::<Mesh>()` on a node. -/
def NodeM.castMesh (n : NodeM) : Option MeshState :=
  match n.payload with
  | Payload.mesh m => some m
  | _ => none

/-- `cast::<Terrain>()` on a node. -/
def NodeM.castTerrain (n : NodeM) : Option TerrainState :=
  match n.payload with
  | Payload.terrain t => some t
  | _ => none

/-- Modelled from the spec: the state of one pool slot (fyrox-core's
`Pool` record is not under `src/`).  A slot is occupied, vacant (free for
reuse by `spawn`), or reserved by an outstanding ticket (not reusable, same
generation kept for `put_back`). -/
inductive SlotState
  | occupied (n : NodeM)
  | vacant
  | reserved
deriving DecidableEq, Repr

/-- Modelled from the spec: one generational pool slot. -/
structure Slot where
  generation : Nat
  state : SlotState
deriving DecidableEq, Repr

/-- Modelled from the spec: the generational-index arena `Pool<Node>`
(spec section 4.1); handles are `(index, generation)` pairs, lookup is
valid only while the slot generation matches and the slot is occupied. -/
structure Pool where
  slots : List Slot
deriving DecidableEq, Repr

/-- Replaces the element at an index, when present. -/
def listModify (xs : List α) (i : Nat) (f : α → α) : List α :=
  match xs, i with
  | [], _ => []
  | x :: rest, 0 => f x :: rest
  | x :: rest, j + 1 => x :: listModify rest j f

namespace Pool

/-- `Pool::try_borrow`: `Some` only for a live handle (index in range,
matching generation, occupied slot). -/
def lookup (p : Pool) (h : Handle) : Option NodeM :=
  match p.slots[h.index]? with
  | some s =>
    if s.generation = h.generation then
      match s.state with
      | SlotState.occupied n => some n
      | _ => none
    else none
  | none => none

/-- Overwrites the node stored at a (previously looked-up) live handle. -/
def update (p : Pool) (h : Handle) (n : NodeM) : Pool :=
  ⟨listModify p.slots h.index (fun s => { s with state := SlotState.occupied n })⟩

/-- Index of the first vacant slot, if any. -/
def firstFree (slots : List Slot) : Option Nat :=
  match slots with
  | [] => none
  | s :: rest =>
    match s.state with
    | SlotState.vacant => some 0
    | _ => (firstFree rest).map (· + 1)

/-- Modelled from the spec: `Pool::spawn` stores the value in a free slot
(keeping that slot's already-bumped generation) or appends a fresh slot
with generation 1, and returns the value's handle. -/
def spawn (p : Pool) (n : NodeM) : Pool × Handle :=
  match firstFree p.slots with
  | some i =>
    let gen := match p.slots[i]? with
      | some s => s.generation
      | none => 1
    (⟨listModify p.slots i (fun s => { s with state := SlotState.occupied n })⟩, ⟨i, gen⟩)
  | none => (⟨p.slots ++ [⟨1, SlotState.occupied n⟩]⟩, ⟨p.slots.length, 1⟩)

/-- Modelled from the spec: `Pool::free` removes a single slot's value and
bumps its generation immediately (the handle is dead afterwards); panics
(`none`) on an invalid handle. -/
def free (p : Pool) (h : Handle) : Option (Pool × NodeM) :=
  match p.lookup h with
  | some n =>
    some (⟨listModify p.slots h.index
      (fun s => ⟨s.generation + 1, SlotState.vacant⟩)⟩, n)
  | none => none

/-- Modelled from the spec: `Pool::take_reserve` removes the value but
reserves the slot (generation NOT bumped), returning the ticket (the slot
index) and the value; panics (`none`) on an invalid handle. -/
def take_reserve (p : Pool) (h : Handle) : Option (Pool × Nat × NodeM) :=
  match p.lookup h with
  | some n =>
    some (⟨listModify p.slots h.index
      (fun s => { s with state := SlotState.reserved })⟩, h.index, n)
  | none => none

/-- Modelled from the spec: `Pool::put_back` re-occupies the reserved slot
named by the ticket with the value, yielding the identical handle (same
index, unchanged generation). -/
def put_back (p : Pool) (ticket : Nat) (n : NodeM) : Option (Pool × Handle) :=
  match p.slots[ticket]? with
  | some s =>
    match s.state with
    | SlotState.reserved =>
      some (⟨listModify p.slots ticket
        (fun s2 => { s2 with state := SlotState.occupied n })⟩, ⟨ticket, s.generation⟩)
    | _ => none
  | none => none

/-- Modelled from the spec: `Pool::forget_ticket` bumps the generation of
the reserved slot, permanently retiring the old handle. -/
def forget_ticket (p : Pool) (ticket : Nat) : Pool :=
  ⟨listModify p.slots ticket (fun s => ⟨s.generation + 1, SlotState.vacant⟩)⟩

/-- `Pool::get_capacity`. -/
def get_capacity (p : Pool) : Nat := p.slots.length

/-- `Pool::alive_count`: number of occupied slots. -/
def alive_count (p : Pool) : Nat :=
  p.slots.countP (fun s => match s.state with
    | SlotState.occupied _ => true
    | _ => false)

end Pool

/-- `make_trimesh` (`scene/graph/physics.rs` lines 383-477): walks the
geometry sources, keeps those that resolve (`try_borrow`) to `Mesh` nodes,
and gathers every triangle of their surfaces (the per-vertex transform
application and the `RawMeshBuilder` vertex dedup are float-only and are
abstracted; the gathered triangle count is preserved exactly).  When the
result has no triangles, a warning is logged and the degenerate
single-point trimesh `([Point3::new(0,0,0)], [[0,0,0]])` is substituted.
`gatherTriangles` is the source walk of `make_trimesh`, named so the
theorems can speak about sources that yield zero triangles. -/
def gatherTriangles (sources : List Handle) (nodes : Pool) : List Nat :=
  sources.flatMap (fun s =>
    match (nodes.lookup s).bind NodeM.castMesh with
    | some m => m.triangles
    | none => [])

/-- See `gatherTriangles` for the description of `make_trimesh`. -/
def make_trimesh (ownerInv : M4Stub) (_owner : Handle) (sources : List Handle)
    (nodes : Pool) : NativeShape :=
  let tris : List Nat := gatherTriangles sources nodes
  if tris.isEmpty then
    NativeShape.trimesh [TrimeshVertex.zeroPoint] [(0, 0, 0)]
  else
    NativeShape.trimesh
      (tris.flatMap (fun t =>
        [TrimeshVertex.corner ownerInv t 0, TrimeshVertex.corner ownerInv t 1,
          TrimeshVertex.corner ownerInv t 2]))
      ((List.range tris.length).map (fun i => (3 * i, 3 * i + 1, 3 * i + 2)))

/-- `make_heightfield`: bakes the terrain's chunk height maps into a native
height-field shape (the baked float matrix is an opaque token). -/
def make_heightfield (t : TerrainState) : NativeShape :=
  NativeShape.heightfield t.heightfieldToken

/-- `make_polyhedron_shape`: convex decomposition of the mesh's triangles
relative to the owner (floats abstracted). -/
def make_polyhedron_shape (ownerInv : M4Stub) (m : MeshState) : NativeShape :=
  NativeShape.convexDecomposition ownerInv m.triangles

/-- `collider_shape_into_native_shape` (`scene/graph/physics.rs` lines
602-653): pure conversion of a declarative shape into a native shape.
Trimesh with an EMPTY source list yields `None`; Heightfield and Polyhedron
yield `None` when their geometry source does not resolve to the required
node kind. -/
def collider_shape_into_native_shape (shape : ColliderShape)
    (ownerInvGlobalTransform : M4Stub) (ownerCollider : Handle) (pool : Pool) :
    Option NativeShape :=
  match shape with
  | ColliderShape.ball radius => some (NativeShape.ball radius)
  | ColliderShape.cylinder halfHeight radius =>
    some (NativeShape.cylinder halfHeight radius)
  | ColliderShape.cone halfHeight radius => some (NativeShape.cone halfHeight radius)
  | ColliderShape.cuboid halfExtents => some (NativeShape.cuboid halfExtents)
  | ColliderShape.capsule pointA pointB radius =>
    some (NativeShape.capsule pointA pointB radius)
  | ColliderShape.segment pointA pointB => some (NativeShape.segment pointA pointB)
  | ColliderShape.triangle a b c => some (NativeShape.triangle a b c)
  | ColliderShape.trimesh sources =>
    if sources.isEmpty then
      none
    else
      some (make_trimesh ownerInvGlobalTransform ownerCollider sources pool)
  | ColliderShape.heightfield geometrySource =>
    ((pool.lookup geometrySource).bind NodeM.castTerrain).map make_heightfield
  | ColliderShape.polyhedron geometrySource =>
    ((pool.lookup geometrySource).bind NodeM.castMesh).map
      (make_polyhedron_shape ownerInvGlobalTransform)

/-- `convert_joint_params`: engine joint parameters to a native
`GenericJoint` (pure float/axis geometry, abstracted to the identity on the
parameter token). -/
def convert_joint_params (p : JointParamsStub) : JointParamsStub := p

/-- `PhysicsWorld::sync_to_collider_node` (`scene/graph/physics.rs` lines
1396-1513).  `selfNode` is the collider's own graph node (its `Base`:
parent handle, local transform, `transform_modified` cell); `c` is the
collider payload.  Returns the updated world and payload. -/
def sync_to_collider_node (w : PhysicsWorldM) (nodes : Pool) (handle : Handle)
    (selfNode : NodeM) (c : ColliderState) : PhysicsWorldM × ColliderState :=
  let anythingChanged := selfNode.transformModified || c.needs_sync_model
  match c.native with
  | some k =>
    if anythingChanged then
      match setLookup w.colliderSet k with
      | some native =>
        let native :=
          if selfNode.transformModified then
            { native with position :=
                ⟨selfNode.localPosition, selfNode.localRotationToken⟩ }
          else native
        let (shapeV, native) :=
          match c.shape.try_sync_model with
          | (t2, some v) =>
            match collider_shape_into_native_shape v
                (M4Stub.isoInvGlobal handle) handle nodes with
            | some shape => (t2, { native with shape := shape })
            | none => (t2, native)
          | (t2, none) => (t2, native)
        let (restitutionV, native) :=
          match c.restitution.try_sync_model with
          | (t2, some v) => (t2, { native with restitution := v })
          | (t2, none) => (t2, native)
        let (collisionGroupsV, native) :=
          match c.collision_groups.try_sync_model with
          | (t2, some v) => (t2, { native with collisionGroups := v })
          | (t2, none) => (t2, native)
        let (solverGroupsV, native) :=
          match c.solver_groups.try_sync_model with
          | (t2, some v) => (t2, { native with solverGroups := v })
          | (t2, none) => (t2, native)
        let (frictionV, native) :=
          match c.friction.try_sync_model with
          | (t2, some v) => (t2, { native with friction := v })
          | (t2, none) => (t2, native)
        let (isSensorV, native) :=
          match c.is_sensor.try_sync_model with
          | (t2, some v) => (t2, { native with sensor := v })
          | (t2, none) => (t2, native)
        let (frictionCombineV, native) :=
          match c.friction_combine_rule.try_sync_model with
          | (t2, some v) => (t2, { native with frictionCombineRule := v })
          | (t2, none) => (t2, native)
        let (restitutionCombineV, native) :=
          match c.restitution_combine_rule.try_sync_model with
          | (t2, some v) => (t2, { native with restitutionCombineRule := v })
          | (t2, none) => (t2, native)
        ({ w with colliderSet := setUpdate w.colliderSet k native },
          { c with
              shape := shapeV, restitution := restitutionV
              collision_groups := collisionGroupsV, solver_groups := solverGroupsV
              friction := frictionV, is_sensor := isSensorV
              friction_combine_rule := frictionCombineV
              restitution_combine_rule := restitutionCombineV })
      | none => (w, c)
    else (w, c)
  | none =>
    match (nodes.lookup selfNode.parent).bind NodeM.castRigidBody with
    | some parentBody =>
      match parentBody.native with
      | some rigidBodyNative =>
        match collider_shape_into_native_shape c.shape.value
            (M4Stub.isoInvGlobal handle) handle nodes with
        | some shape =>
          let builder : NativeCollider :=
            { parentBody := none
              shape := shape
              position := ⟨selfNode.localPosition, selfNode.localRotationToken⟩
              friction := c.friction.value
              restitution := c.restitution.value
              collisionGroups := c.collision_groups.value
              solverGroups := c.solver_groups.value
              frictionCombineRule := c.friction_combine_rule.value
              restitutionCombineRule := c.restitution_combine_rule.value
              sensor := c.is_sensor.value
              density := c.density.value }
          let (w2, nativeHandle) := w.add_collider handle rigidBodyNative builder
          (w2, { c with native := some nativeHandle })
        | none => (w, c)
      | none => (w, c)
    | none => (w, c)

/-- `PhysicsWorld::sync_to_joint_node` (`scene/graph/physics.rs` lines
1515-1573).  The creation branch requires only that `body1` and `body2`
resolve to rigid-body NODES; their native cells are read and passed to the
backend verbatim, whether valid or not. -/
def sync_to_joint_node (w : PhysicsWorldM) (nodes : Pool) (handle : Handle)
    (j : JointState) : PhysicsWorldM × JointState :=
  match j.native.bind (setLookup w.jointSet) with
  | some native =>
    let k := j.native.getD 0
    let (paramsV, native) :=
      match j.params.try_sync_model with
      | (t2, some v) => (t2, { native with data := convert_joint_params v })
      | (t2, none) => (t2, native)
    let (body1V, native) :=
      match j.body1.try_sync_model with
      | (t2, some v) =>
        match (nodes.lookup v).bind NodeM.castRigidBody with
        | some rigidBodyNode => (t2, { native with body1 := rigidBodyNode.native })
        | none => (t2, native)
      | (t2, none) => (t2, native)
    let (body2V, native) :=
      match j.body2.try_sync_model with
      | (t2, some v) =>
        match (nodes.lookup v).bind NodeM.castRigidBody with
        | some rigidBodyNode => (t2, { native with body2 := rigidBodyNode.native })
        | none => (t2, native)
      | (t2, none) => (t2, native)
    ({ w with jointSet := setUpdate w.jointSet k native },
      { j with params := paramsV, body1 := body1V, body2 := body2V })
  | none =>
    match (nodes.lookup j.body1.value).bind NodeM.castRigidBody,
        (nodes.lookup j.body2.value).bind NodeM.castRigidBody with
    | some body1, some body2 =>
      let (w2, nativeHandle) := w.add_joint handle body1.native body2.native
        (convert_joint_params j.params.value)
      (w2, { j with native := some nativeHandle })
    | _, _ => (w, j)

/-- The `Graph` of `scene/graph/mod.rs`: the root handle, the node pool and
the physics world.  (The structurally identical 2D physics world and the
sound context hold no state any claim observes and are omitted; graph event
broadcasting has no subscribers in any claim scenario.)  Each fallible
operation returns `none` exactly when the Rust code would panic. -/
structure GraphM where
  root : Handle
  pool : Pool
  physics : PhysicsWorldM
deriving DecidableEq, Repr

namespace GraphM

/-- A fresh pivot node (`Node::new(Pivot::default())`). -/
def pivotNode : NodeM :=
  { parent := Handle.NONE
    children := []
    selfHandle := Handle.NONE
    localPosition := ⟨0, 0, 0⟩
    localRotationToken := 0
    transformModified := false
    payload := Payload.pivot }

/-- `Graph::new`: a pool containing the single `__ROOT__` pivot node. -/
def new : GraphM :=
  let (pool, root) := Pool.spawn ⟨[]⟩ pivotNode
  { root := root, pool := pool, physics := PhysicsWorldM.new }

/-- `Graph::unlink_internal` (`scene/graph/mod.rs` lines 327-353): clears
the node's parent field, removes the first occurrence of its handle from
the old parent's children list, and — when the node is a collider whose
native object is still present — removes the native collider and
invalidates the native cell. -/
def unlink_internal (g : GraphM) (nodeHandle : Handle) : Option GraphM := do
  let node ← g.pool.lookup nodeHandle
  let parentHandle := node.parent
  let g1 : GraphM := { g with pool := g.pool.update nodeHandle { node with parent := Handle.NONE } }
  let g2 ←
    if parentHandle.isSome then do
      let parent ← g1.pool.lookup parentHandle
      let parent2 := { parent with children := parent.children.erase nodeHandle }
      pure { g1 with pool := g1.pool.update parentHandle parent2 }
    else
      pure g1
  let nodeRef ← g2.pool.lookup nodeHandle
  match nodeRef.payload with
  | Payload.collider c => do
    let (w2, removed) ← g2.physics.remove_collider c.native
    let nodeRef2 :=
      if removed then
        { nodeRef with payload := Payload.collider { c with native := none } }
      else nodeRef
    pure { g2 with physics := w2, pool := g2.pool.update nodeHandle nodeRef2 }
  | _ => pure g2

/-- `Graph::link_nodes` (lines 356-361): unlink first, then set the child's
parent field and append the child to the parent's children list. -/
def link_nodes (g : GraphM) (child parent : Handle) : Option GraphM := do
  let g1 ← g.unlink_internal child
  let childNode ← g1.pool.lookup child
  let pool2 := g1.pool.update child { childNode with parent := parent }
  let parentNode ← pool2.lookup parent
  let parentNode2 := { parentNode with children := parentNode.children ++ [child] }
  pure { g1 with pool := pool2.update parent parentNode2 }

/-- `Graph::add_node` (lines 236-255): spawn with the declared children
taken out, auto-link under the root, re-link each declared child under the
new node, then record the self handle.  (The `Added` graph event has no
subscribers in any claim scenario.) -/
def add_node (g : GraphM) (node : NodeM) : Option (GraphM × Handle) := do
  let children := node.children
  let (pool1, handle) := g.pool.spawn { node with children := [] }
  let g1 : GraphM := { g with pool := pool1 }
  let g2 ← if g1.root.isSome then g1.link_nodes handle g1.root else pure g1
  let g3 ← children.foldlM (fun acc c => acc.link_nodes c handle) g2
  let n ← g3.pool.lookup handle
  pure ({ g3 with pool := g3.pool.update handle { n with selfHandle := handle } }, handle)

/-- `Graph::unlink_node` (lines 365-371): detach, re-attach under the graph
root, and reset the local position to the origin. -/
def unlink_node (g : GraphM) (nodeHandle : Handle) : Option GraphM := do
  let g1 ← g.unlink_internal nodeHandle
  let g2 ← g1.link_nodes nodeHandle g1.root
  let n ← g2.pool.lookup nodeHandle
  pure { g2 with pool := g2.pool.update nodeHandle { n with localPosition := ⟨0, 0, 0⟩ } }

/-- `NodeTrait::clean_up` dispatched on the freed node's kind: rigid bodies
call `PhysicsWorld::remove_body` on their native cell unconditionally
(`scene/rigidbody.rs` line 553), colliders call
`PhysicsWorld::remove_collider` ignoring its result (as in
`scene/dim2/collider.rs` line 620, the structural twin of the missing 3D
`collider.rs`), joints call `PhysicsWorld::remove_joint` (modelled from the
spec, `joint.rs` being absent); other kinds do nothing. -/
def clean_up_for_node (g : GraphM) (n : NodeM) : Option GraphM :=
  match n.payload with
  | Payload.rigidBody rb =>
    (g.physics.remove_body rb.native).map (fun w => { g with physics := w })
  | Payload.collider c =>
    (g.physics.remove_collider c.native).map (fun p => { g with physics := p.1 })
  | Payload.joint j =>
    (g.physics.remove_joint j.native).map (fun w => { g with physics := w })
  | _ => some g

/-- The stack-driven subtree destruction loop of `Graph::remove_node`
(lines 307-320): pop a handle, push its children, free the slot, run
`clean_up`.  The `Vec` stack is modelled with its top at the list head;
fuel bounds the loop (each iteration frees one occupied slot, so
`alive_count + 1` can never be exhausted before the stack empties or an
invalid handle panics). -/
def removeLoop (g : GraphM) (stack : List Handle) : Nat → Option GraphM
  | 0 => none
  | fuel + 1 =>
    match stack with
    | [] => some g
    | h :: rest => do
      let node ← g.pool.lookup h
      let stack2 := node.children.reverse ++ rest
      let (pool2, freed) ← g.pool.free h
      let g2 ← clean_up_for_node { g with pool := pool2 } freed
      removeLoop g2 stack2 fuel

/-- `Graph::remove_node` (lines 303-321): unlink, then destroy the whole
subtree.  (The `Removed` graph events have no subscribers in any claim
scenario.) -/
def remove_node (g : GraphM) (nodeHandle : Handle) : Option GraphM := do
  let g1 ← g.unlink_internal nodeHandle
  removeLoop g1 [nodeHandle] (g1.pool.alive_count + 1)

/-- `Graph::take_reserve` (lines 1015-1018): unlink, then reserve the pool
slot. -/
def take_reserve (g : GraphM) (h : Handle) : Option (GraphM × Nat × NodeM) := do
  let g1 ← g.unlink_internal h
  let (pool2, t, n) ← g1.pool.take_reserve h
  pure ({ g1 with pool := pool2 }, t, n)

/-- `Graph::put_back` (lines 1025-1029): put the node back at its reserved
slot and link it under the graph root. -/
def put_back (g : GraphM) (ticket : Nat) (node : NodeM) : Option (GraphM × Handle) := do
  let (pool2, h) ← g.pool.put_back ticket node
  let g2 ← GraphM.link_nodes { g with pool := pool2 } h g.root
  pure (g2, h)

/-- `SubGraph`: the extracted root with its ticket plus the extracted
descendants in visit order. -/
structure SubGraphM where
  root : Nat × NodeM
  descendants : List (Nat × NodeM)
deriving DecidableEq, Repr

/-- The descendant-extraction loop of `Graph::take_reserve_sub_graph`
(lines 1046-1060): pop a handle, push its children, reserve its slot. -/
def takeSubLoop (g : GraphM) (stack : List Handle) (acc : List (Nat × NodeM)) :
    Nat → Option (GraphM × List (Nat × NodeM))
  | 0 => none
  | fuel + 1 =>
    match stack with
    | [] => some (g, acc)
    | h :: rest => do
      let node ← g.pool.lookup h
      let stack2 := node.children.reverse ++ rest
      let (pool2, t, n) ← g.pool.take_reserve h
      takeSubLoop { g with pool := pool2 } stack2 (acc ++ [(t, n)]) fuel

/-- `Graph::take_reserve_sub_graph`: extract all descendants first (plain
pool reservation, hierarchy fields untouched), then extract the sub-graph
root itself with detachment from its parent. -/
def take_reserve_sub_graph (g : GraphM) (r : Handle) : Option (GraphM × SubGraphM) := do
  let rootNode ← g.pool.lookup r
  let (g1, descendants) ←
    takeSubLoop g rootNode.children.reverse [] (g.pool.alive_count + 1)
  let (g2, t, n) ← g1.take_reserve r
  pure (g2, ⟨(t, n), descendants⟩)

/-- `Graph::put_sub_graph_back` (lines 1065-1076): put every descendant
back at its reserved slot, put the root back (which links it under the
graph root), then link it under the graph root once more. -/
def put_sub_graph_back (g : GraphM) (sg : SubGraphM) : Option (GraphM × Handle) := do
  let g1 ← sg.descendants.foldlM
    (fun (acc : GraphM) tn =>
      (acc.pool.put_back tn.1 tn.2).map (fun p => { acc with pool := p.1 }))
    g
  let (g2, rootHandle) ← g1.put_back sg.root.1 sg.root.2
  let g3 ← g2.link_nodes rootHandle g2.root
  pure (g3, rootHandle)

/-- Outcome of `<Graph as Visit>::visit`: the guard panic or normal region
serialization (whose visitor plumbing no claim observes). -/
inductive VisitOutcome
  | panicked
  | proceeded
deriving DecidableEq, Repr

/-- `<Graph as Visit>::visit` (lines 1277-1294): a read-visit into a pool
of non-zero capacity panics before entering the region; otherwise the
fields are visited. -/
def visit (g : GraphM) (isReading : Bool) : VisitOutcome :=
  if isReading && g.pool.get_capacity ≠ 0 then
    VisitOutcome.panicked
  else
    VisitOutcome.proceeded

end GraphM

/-- A rigid-body node state with every `TemplateVariable` freshly created
(no flags set), a valid native cell pointing at native body number 0, and an
empty action queue.  Used as the concrete scenario of the witnesses. -/
def rbExample : RigidBodyState :=
  { lin_vel := TemplateVariable.new ⟨0, 0, 0⟩
    ang_vel := TemplateVariable.new ⟨0, 0, 0⟩
    lin_damping := TemplateVariable.new 0
    ang_damping := TemplateVariable.new 0
    body_type := TemplateVariable.new RigidBodyType.Dynamic
    mass := TemplateVariable.new 1
    x_rotation_locked := TemplateVariable.new false
    y_rotation_locked := TemplateVariable.new false
    z_rotation_locked := TemplateVariable.new false
    translation_locked := TemplateVariable.new false
    ccd_enabled := TemplateVariable.new false
    can_sleep := TemplateVariable.new true
    dominance := TemplateVariable.new 0
    gravity_scale := TemplateVariable.new 1
    sleeping := false
    native := some 0
    actions := []
    local_pose := LocalPoseStub.initial 0
    global_transform_iso := IsometryStub.fromGlobalTransform 0 }

/-- The native counterpart of `rbExample`, as its creation sync would have
built it. -/
def nbExample : NativeRigidBody := buildNativeRigidBody rbExample

/-- A physics world containing exactly the native body of `rbExample`,
mapped to node handle `⟨1, 1⟩`. -/
def worldExample : PhysicsWorldM :=
  { PhysicsWorldM.new with
      nextBody := 1
      bodySet := [(0, nbExample)]
      bodyMap := ⟨[(0, ⟨1, 1⟩)]⟩ }

/-- `FeatureId` of `scene/graph/physics.rs`. -/
inductive FeatureIdStub
  | vertex (v : Nat)
  | edge (e : Nat)
  | face (f : Nat)
  | unknown
deriving DecidableEq, Repr

/-- An engine-side ray `Intersection`: collider node handle, normal (opaque
float token), position (computed by `ray.point_at(toi)`, abstracted to the
toi it is a function of), feature id and time of impact (exact stand-in for
the f32). -/
structure Intersection where
  collider : Handle
  normalToken : Nat
  positionToken : Int
  feature : FeatureIdStub
  toi : Int
deriving DecidableEq, Repr

/-- One native intersection reported by the backend's
`intersections_with_ray` callback. -/
structure NativeHit where
  colliderNative : Nat
  normalToken : Nat
  feature : FeatureIdStub
  toi : Int
deriving DecidableEq, Repr

/-- A `QueryResultsStorage`: `capacity = none` models the growable
`Vec<Intersection>` (push always succeeds), `capacity = some cap` models
`ArrayVec<Intersection, CAP>` (push silently fails once full). -/
structure QueryStorage where
  items : List Intersection
  capacity : Option Nat
deriving DecidableEq, Repr

/-- `QueryResultsStorage::push`: returns the storage and whether the
intersection was inserted. -/
def QueryStorage.push (s : QueryStorage) (x : Intersection) : QueryStorage × Bool :=
  match s.capacity with
  | none => ({ s with items := s.items ++ [x] }, true)
  | some cap =>
    if s.items.length < cap then ({ s with items := s.items ++ [x] }, true)
    else (s, false)

/-- `QueryResultsStorage::clear`. -/
def QueryStorage.clear (s : QueryStorage) : QueryStorage := { s with items := [] }

/-- Stable insertion of an intersection into a toi-ascending list. -/
def insertByToi (x : Intersection) : List Intersection → List Intersection
  | [] => [x]
  | y :: rest => if x.toi < y.toi then x :: y :: rest else y :: insertByToi x rest

/-- `sort_intersections_by` with the toi-ascending comparator of
`cast_ray` (a stable sort, as `slice::sort_by` is). -/
def sortByToi : List Intersection → List Intersection
  | [] => []
  | x :: rest => insertByToi x (sortByToi rest)

/-- The callback loop of `PhysicsWorld::cast_ray`: each native hit is
mapped back to its node handle through the collider map (`unwrap` panics —
`none` — on an unmapped native handle) and pushed; the callback's boolean
result (the push result) tells the backend whether to continue the query,
so a full fixed-capacity storage stops the traversal. -/
def castRayLoop (m : BiDirMap) (hits : List NativeHit) (storage : QueryStorage) :
    Option QueryStorage :=
  match hits with
  | [] => some storage
  | hit :: rest =>
    match m.value_of hit.colliderNative with
    | none => none
    | some nodeHandle =>
      let (storage2, ok) := storage.push
        { collider := nodeHandle
          normalToken := hit.normalToken
          positionToken := hit.toi
          feature := hit.feature
          toi := hit.toi }
      if ok then castRayLoop m rest storage2 else some storage2

/-- `PhysicsWorld::cast_ray` (`scene/graph/physics.rs` lines 1149-1201):
update the query pipeline (stateless here), CLEAR the caller's storage,
run the intersection query pushing each mapped hit, and optionally sort by
toi ascending.  `hits` is the native callback sequence the backend produces
for the ray — the backend's geometry itself is external. -/
def cast_ray (w : PhysicsWorldM) (hits : List NativeHit) (sortResults : Bool)
    (queryBuffer : QueryStorage) : Option QueryStorage :=
  match castRayLoop w.colliderMap hits queryBuffer.clear with
  | some storage =>
    some (if sortResults then { storage with items := sortByToi storage.items } else storage)
  | none => none

-- Concrete scenario used by the C3/C4/C5/C6 theorems and witnesses: a
-- graph with a root pivot, one rigid-body node and one collider node.

/-- A collider payload with the given shape and native cell and fresh
variables. -/
def colliderStateWith (shape : ColliderShape) (native : Option Nat) : ColliderState :=
  { shape := TemplateVariable.new shape
    friction := TemplateVariable.new 0
    density := TemplateVariable.new none
    restitution := TemplateVariable.new 0
    is_sensor := TemplateVariable.new false
    collision_groups := TemplateVariable.new ⟨1, 1⟩
    solver_groups := TemplateVariable.new ⟨1, 1⟩
    friction_combine_rule := TemplateVariable.new CombineRule.Average
    restitution_combine_rule := TemplateVariable.new CombineRule.Average
    native := native }

/-- Handle of the example root node. -/
def hRoot : Handle := ⟨0, 1⟩

/-- Handle of the example rigid-body node. -/
def hBody : Handle := ⟨1, 1⟩

/-- Handle of the example collider node. -/
def hColl : Handle := ⟨2, 1⟩

/-- The example body node: a synced rigid body (native body 0) with the
collider node as its only child. -/
def bodyNodeExample : NodeM :=
  { GraphM.pivotNode with
      parent := hRoot
      children := [hColl]
      selfHandle := hBody
      payload := Payload.rigidBody rbExample }

/-- The example collider node: a synced ball collider (native collider 0)
attached under the body node. -/
def collNodeExample : NodeM :=
  { GraphM.pivotNode with
      parent := hBody
      children := []
      selfHandle := hColl
      payload := Payload.collider (colliderStateWith (ColliderShape.ball 1) (some 0)) }

/-- The example graph: root → body → collider, with both native objects
live and mapped.  This is the spec section 8 scenario after one sync
pass. -/
def c3Graph : GraphM :=
  { root := hRoot
    pool := ⟨[⟨1, SlotState.occupied
        { GraphM.pivotNode with children := [hBody], selfHandle := Handle.NONE }⟩,
      ⟨1, SlotState.occupied bodyNodeExample⟩,
      ⟨1, SlotState.occupied collNodeExample⟩]⟩
    physics :=
      { PhysicsWorldM.new with
          nextBody := 1
          bodySet := [(0, nbExample)]
          bodyMap := ⟨[(0, hBody)]⟩
          nextCollider := 1
          colliderSet := [(0,
            { parentBody := some 0
              shape := NativeShape.ball 1
              position := ⟨⟨0, 0, 0⟩, 0⟩
              friction := 0
              restitution := 0
              collisionGroups := ⟨1, 1⟩
              solverGroups := ⟨1, 1⟩
              frictionCombineRule := CombineRule.Average
              restitutionCombineRule := CombineRule.Average
              sensor := false
              density := none })]
          colliderMap := ⟨[(0, hColl)]⟩ } }

/-- The creation precondition actually enforced by the uninitialized branch
of `sync_to_collider_node`: the collider node's parent resolves to a
rigid-body node whose native handle is valid AND the declarative shape
converts to a native shape. -/
def collider_creatable (nodes : Pool) (handle : Handle) (selfNode : NodeM)
    (c : ColliderState) : Bool :=
  match (nodes.lookup selfNode.parent).bind NodeM.castRigidBody with
  | some pb =>
    pb.native.isSome &&
      (collider_shape_into_native_shape c.shape.value (M4Stub.isoInvGlobal handle)
        handle nodes).isSome
  | none => false

/-- The weaker precondition the CLAIM states for collider creation: parent
is a rigid-body node with a valid native handle (no condition on the
shape). -/
def parent_body_valid (nodes : Pool) (selfNode : NodeM) : Bool :=
  match (nodes.lookup selfNode.parent).bind NodeM.castRigidBody with
  | some pb => pb.native.isSome
  | none => false

/-- The creation precondition actually enforced by the uninitialized branch
of `sync_to_joint_node`: both referenced handles resolve (via `try_borrow`
plus `cast`) to rigid-body NODES — nothing about their native cells. -/
def joint_bodies_assigned (nodes : Pool) (j : JointState) : Bool :=
  ((nodes.lookup j.body1.value).bind NodeM.castRigidBody).isSome &&
    ((nodes.lookup j.body2.value).bind NodeM.castRigidBody).isSome

/-- A rigid-body node payload that has never been synced (invalid native
cell). -/
def rbUnsynced : RigidBodyState := { rbExample with native := none }

/-- Pool for the C4 counterexample: a single synced rigid-body node at
index 0. -/
def c4Pool : Pool :=
  ⟨[⟨1, SlotState.occupied { GraphM.pivotNode with payload := Payload.rigidBody rbExample }⟩]⟩

/-- The C4 counterexample collider payload: an (uncreated) collider whose
shape is a Trimesh with an EMPTY source list. -/
def c4ColliderState : ColliderState :=
  colliderStateWith (ColliderShape.trimesh []) none

/-- The C4 counterexample collider node, linked under the synced rigid
body. -/
def c4ColliderNode : NodeM :=
  { GraphM.pivotNode with
      parent := ⟨0, 1⟩
      payload := Payload.collider c4ColliderState }

/-- Pool for the C5 counterexample: two rigid-body nodes, NEITHER of which
has been synced (native cells invalid). -/
def c5Pool : Pool :=
  ⟨[⟨1, SlotState.occupied { GraphM.pivotNode with payload := Payload.rigidBody rbUnsynced }⟩,
    ⟨1, SlotState.occupied { GraphM.pivotNode with payload := Payload.rigidBody rbUnsynced }⟩]⟩

/-- The C5 counterexample joint payload, referencing the two unsynced
bodies, itself not yet created. -/
def c5Joint : JointState :=
  { params := TemplateVariable.new (JointParamsStub.params 0)
    body1 := TemplateVariable.new ⟨0, 1⟩
    body2 := TemplateVariable.new ⟨1, 1⟩
    native := none }

/-- Pool for the C6 witness: one mesh node whose surfaces hold zero
triangles. -/
def c6Pool : Pool :=
  ⟨[⟨1, SlotState.occupied { GraphM.pivotNode with payload := Payload.mesh ⟨[]⟩ }⟩]⟩

/-- One public hierarchy mutation of the claim: the four operations
`add_node`, `link_nodes`, `unlink_node`, `remove_node`. -/
inductive GraphOp
  | addNode (n : NodeM)
  | linkNodes (child parent : Handle)
  | unlinkNode (h : Handle)
  | removeNode (h : Handle)
deriving Repr

/-- Applies one operation (dropping `add_node`'s returned handle). -/
def applyOp (g : GraphM) (op : GraphOp) : Option GraphM :=
  match op with
  | GraphOp.addNode n => (g.add_node n).map (·.1)
  | GraphOp.linkNodes c p => g.link_nodes c p
  | GraphOp.unlinkNode h => g.unlink_node h
  | GraphOp.removeNode h => g.remove_node h

/-- Applies a sequence of operations; `none` as soon as one panics. -/
def applyOps (g : GraphM) (ops : List GraphOp) : Option GraphM :=
  ops.foldlM applyOp g

/-- The restriction the counterexample forces on the claim: the graph root
is never the child argument of `link_nodes`, never the target of
`unlink_node`, never removed, and never among the declared children of an
added node (each of those re-parents or destroys the root). -/
def opAvoidsRoot (root : Handle) : GraphOp → Bool
  | GraphOp.addNode n => decide (root ∉ n.children)
  | GraphOp.linkNodes c _ => c ≠ root
  | GraphOp.unlinkNode h => h ≠ root
  | GraphOp.removeNode h => h ≠ root

/-- The children list a slot contributes (empty unless occupied). -/
def slotChildren (s : Slot) : List Handle :=
  match s.state with
  | SlotState.occupied n => n.children
  | _ => []

/-- Number of occurrences of a handle across every node's children list:
the claim's "appears in exactly one node's children list" counts. -/
def childCount (p : Pool) (x : Handle) : Nat :=
  (p.slots.map (fun s => (slotChildren s).count x)).sum

/-- Every slot ever created carries a generation of at least 1 (fresh slots
start at 1, frees and forgets only bump), so the `Handle::NONE` sentinel
(generation 0) can never address a slot. -/
def genOK (p : Pool) : Prop :=
  ∀ s ∈ p.slots, 1 ≤ s.generation

/-- The hierarchy invariant, generalized by a list of "pending" handles
(nodes detached from the hierarchy: mid-`remove_node` stack entries, or the
node between its unlink and relink).  With `pending = []` this is the
claim's invariant:

* the root handle is non-sentinel, alive, and its parent field is NONE;
* every live non-root, non-pending node occurs exactly once in the
  children list of the node its parent field names;
* every children-list entry is a live non-root, non-pending node whose
  parent field names its container. -/
def InvPending (g : GraphM) (pending : List Handle) : Prop :=
  genOK g.pool ∧
  g.root ≠ Handle.NONE ∧
  g.root ∉ pending ∧
  (∃ r, g.pool.lookup g.root = some r ∧ r.parent = Handle.NONE) ∧
  (∀ h n, g.pool.lookup h = some n → h ≠ g.root → h ∉ pending →
    ∃ p, g.pool.lookup n.parent = some p ∧ p.children.count h = 1) ∧
  (∀ q qn, g.pool.lookup q = some qn → ∀ x ∈ qn.children,
    x ≠ g.root ∧ x ∉ pending ∧ ∃ m, g.pool.lookup x = some m ∧ m.parent = q)

/-- The claim's hierarchy invariant. -/
def Inv (g : GraphM) : Prop := InvPending g []

/-- Hierarchy equivalence: two graph states that agree on the root handle
and, pointwise, on node liveness and on every live node's parent and
children fields (payload, local transform, self-handle and physics state
are free to differ).  The hierarchy invariant only reads these. -/
def HierEq (g g2 : GraphM) : Prop :=
  g.root = g2.root ∧
  (genOK g.pool → genOK g2.pool) ∧
  (∀ x n, g.pool.lookup x = some n → ∃ n2, g2.pool.lookup x = some n2 ∧
    n2.parent = n.parent ∧ n2.children = n.children) ∧
  (∀ x, g.pool.lookup x = none → g2.pool.lookup x = none)

/-- A concrete op sequence satisfying the amended claim's root
restriction: add one pivot node (auto-linked under the root). -/
def c2ops : List GraphOp := [GraphOp.addNode GraphM.pivotNode]

/-- The graph the witness sequence produces. -/
def c2WitnessGraph : GraphM := (applyOps GraphM.new c2ops).getD GraphM.new

/-- The counterexample sequence: add a pivot node (it gets handle ⟨1,1⟩),
then call `link_nodes` with the ROOT handle ⟨0,1⟩ as the CHILD — the root
is re-parented under the added node. -/
def c2BadOps : List GraphOp :=
  [GraphOp.addNode GraphM.pivotNode, GraphOp.linkNodes ⟨0, 1⟩ ⟨1, 1⟩]

/-- The graph the counterexample sequence produces. -/
def c2BadGraph : GraphM := (applyOps GraphM.new c2BadOps).getD GraphM.new

/-- Slot-level relation between a pre-extraction pool `p` and a pool `q`
in which exactly the ticket/node pairs of `tail` have been reserved: each
pair's slot was occupied by exactly that node and is now reserved with the
same generation, every other slot is untouched, and no ticket repeats. -/
def ReservedDiff (p q : Pool) (tail : List (Nat × NodeM)) : Prop :=
  (∀ t n, (t, n) ∈ tail → ∃ gen,
    p.slots[t]? = some ⟨gen, SlotState.occupied n⟩ ∧
    q.slots[t]? = some ⟨gen, SlotState.reserved⟩) ∧
  (∀ i, i ∉ tail.map Prod.fst → q.slots[i]? = p.slots[i]?) ∧
  (tail.map Prod.fst).Nodup

/-- Concrete scenario for the sub-graph round-trip: a fresh graph with one
added pivot node (handle ⟨1,1⟩ under the root ⟨0,1⟩). -/
def c8ops : List GraphOp := [GraphOp.addNode GraphM.pivotNode]

/-- The base graph of the round-trip scenario. -/
def c8Base : GraphM := (applyOps GraphM.new c8ops).getD GraphM.new

/-- The extraction step of the scenario. -/
def c8Take : Option (GraphM × GraphM.SubGraphM) :=
  c8Base.take_reserve_sub_graph ⟨1, 1⟩

/-- The graph left behind after the extraction. -/
def c8Mid : GraphM := (c8Take.map Prod.fst).getD GraphM.new

/-- The extracted sub-graph. -/
def c8Sub : GraphM.SubGraphM :=
  (c8Take.map Prod.snd).getD ⟨(0, GraphM.pivotNode), []⟩

/-- The re-insertion step of the scenario. -/
def c8Put : Option (GraphM × Handle) := c8Mid.put_sub_graph_back c8Sub

/-- The graph after the full round-trip. -/
def c8Final : GraphM := (c8Put.map Prod.fst).getD GraphM.new

/-- The handle returned by the re-insertion. -/
def c8Handle : Handle := (c8Put.map Prod.snd).getD Handle.NONE

-- ===================================================================
-- Theorems
-- ===================================================================

theorem listModify_length (xs : List α) (i : Nat) (f : α → α) :
    (listModify xs i f).length = xs.length := by
  induction xs generalizing i with
  | nil => rfl
  | cons x rest ih =>
    cases i with
    | zero => rfl
    | succ j => simp [listModify, ih]

theorem listModify_getElem? (xs : List α) (i j : Nat) (f : α → α) :
    (listModify xs i f)[j]? = if j = i then (xs[j]?).map f else xs[j]? := by
  induction xs generalizing i j with
  | nil => simp [listModify]
  | cons x rest ih =>
    cases i with
    | zero =>
      cases j with
      | zero => simp [listModify]
      | succ k => simp [listModify]
    | succ i2 =>
      cases j with
      | zero => simp [listModify]
      | succ k =>
        simp only [listModify, List.getElem?_cons_succ, ih i2 k]
        by_cases hji : k = i2 <;> simp [hji]

theorem listModify_mem (xs : List α) (i : Nat) (f : α → α) :
    ∀ x ∈ listModify xs i f, x ∈ xs ∨ ∃ y, y ∈ xs ∧ x = f y := by
  induction xs generalizing i with
  | nil => simp [listModify]
  | cons a rest ih =>
    cases i with
    | zero =>
      intro x hx
      rcases List.mem_cons.mp hx with hx | hx
      · exact Or.inr ⟨a, by simp, hx⟩
      · exact Or.inl (by simp [hx])
    | succ j =>
      intro x hx
      rcases List.mem_cons.mp hx with hx | hx
      · exact Or.inl (by simp [hx])
      · rcases ih j x hx with h2 | ⟨y, hy, hxy⟩
        · exact Or.inl (by simp [h2])
        · exact Or.inr ⟨y, by simp [hy], hxy⟩

theorem Pool.lookup_eq_some_iff (p : Pool) (h : Handle) (n : NodeM) :
    p.lookup h = some n ↔
      ∃ s, p.slots[h.index]? = some s ∧ s.generation = h.generation ∧
        s.state = SlotState.occupied n := by
  unfold Pool.lookup
  rcases hs : p.slots[h.index]? with _ | s
  · simp
  · by_cases hg : s.generation = h.generation
    · rcases hst : s.state with m | _ | _
      · simp [hg, hst]
      · simp [hg, hst]
      · simp [hg, hst]
    · simp only [hg, if_false]
      constructor
      · intro hcon
        exact absurd hcon (by simp)
      · rintro ⟨s2, hs2, hg2, hst2⟩
        cases Option.some.inj hs2
        exact absurd hg2 hg

theorem Pool.lookup_update (p : Pool) (h : Handle) (n m : NodeM)
    (hal : p.lookup h = some m) (h2 : Handle) :
    (p.update h n).lookup h2 = if h2 = h then some n else p.lookup h2 := by
  rcases (Pool.lookup_eq_some_iff p h m).mp hal with ⟨s0, hs0, hg0, hst0⟩
  by_cases h2h : h2 = h
  · subst h2h
    rw [if_pos rfl, Pool.lookup_eq_some_iff]
    refine ⟨⟨s0.generation, SlotState.occupied n⟩, ?_, by simpa using hg0, rfl⟩
    unfold Pool.update
    simp [listModify_getElem?, hs0]
  · rw [if_neg h2h]
    unfold Pool.update Pool.lookup
    simp only [listModify_getElem?]
    by_cases hidx : h2.index = h.index
    · have hgen : h2.generation ≠ h.generation := by
        intro hcon
        apply h2h
        cases h2; cases h
        simp_all
      rw [hidx, hs0]
      simp only [if_pos rfl, Option.map_some]
      have hgl : s0.generation ≠ h2.generation := by
        rw [hg0]
        exact fun hc => hgen hc.symm
      simp [hgl]
    · simp [hidx]

theorem Pool.genOK_update (p : Pool) (h : Handle) (n : NodeM) (hg : genOK p) :
    genOK (p.update h n) := by
  intro s hs
  rcases listModify_mem p.slots h.index _ s hs with hmem | ⟨y, hy, hsy⟩
  · exact hg s hmem
  · rw [hsy]
    exact hg y hy

theorem Pool.lookup_NONE (p : Pool) (hg : genOK p) :
    p.lookup Handle.NONE = none := by
  unfold Pool.lookup
  rcases hs : p.slots[Handle.NONE.index]? with _ | s
  · rfl
  · have hmem : s ∈ p.slots := by
      have := List.getElem?_eq_some_iff.mp hs
      rcases this with ⟨hlt, hget⟩
      exact hget ▸ List.getElem_mem _
    have h1 : 1 ≤ s.generation := hg s hmem
    have : s.generation ≠ Handle.NONE.generation := by
      show s.generation ≠ 0
      omega
    simp [this]

theorem Pool.firstFree_spec (slots : List Slot) (i : Nat)
    (hf : Pool.firstFree slots = some i) :
    ∃ s, slots[i]? = some s ∧ s.state = SlotState.vacant := by
  induction slots generalizing i with
  | nil => simp [Pool.firstFree] at hf
  | cons a rest ih =>
    unfold Pool.firstFree at hf
    rcases hst : a.state with n | _ | _
    · rw [hst] at hf
      rcases Option.map_eq_some'.mp hf with ⟨j, hj, hij⟩
      rcases ih j hj with ⟨s, hs, hvs⟩
      exact ⟨s, by simpa [← hij] using hs, hvs⟩
    · rw [hst] at hf
      cases Option.some.inj hf
      exact ⟨a, by simp, hst⟩
    · rw [hst] at hf
      rcases Option.map_eq_some'.mp hf with ⟨j, hj, hij⟩
      rcases ih j hj with ⟨s, hs, hvs⟩
      exact ⟨s, by simpa [← hij] using hs, hvs⟩

theorem Pool.spawn_spec (p : Pool) (n : NodeM) (hg : genOK p) :
    p.lookup (p.spawn n).2 = none ∧
    (p.spawn n).1.lookup (p.spawn n).2 = some n ∧
    (∀ h2, h2 ≠ (p.spawn n).2 → (p.spawn n).1.lookup h2 = p.lookup h2) ∧
    genOK (p.spawn n).1 := by
  unfold Pool.spawn
  rcases hf : Pool.firstFree p.slots with _ | i
  · -- append case: handle ⟨length, 1⟩
    simp only
    refine ⟨?_, ?_, ?_, ?_⟩
    · rw [Pool.lookup]
      simp
    · rw [Pool.lookup_eq_some_iff]
      exact ⟨⟨1, SlotState.occupied n⟩, by simp, rfl, rfl⟩
    · intro h2 hne
      unfold Pool.lookup
      simp only
      by_cases hidx : h2.index = p.slots.length
      · have hgen : h2.generation ≠ 1 := by
          intro hcon
          apply hne
          cases h2
          simp_all
        rw [hidx]
        rw [List.getElem?_append_right (by omega)]
        simp only [Nat.sub_self, List.getElem?_cons_zero]
        have hnone : p.slots[p.slots.length]? = none := by simp
        rw [hnone]
        have hg1 : (1 : Nat) ≠ h2.generation := fun hc => hgen hc.symm
        simp [hg1]
      · by_cases hlt : h2.index < p.slots.length
        · simp [List.getElem?_append, hlt]
        · have h2n : p.slots[h2.index]? = none := List.getElem?_eq_none (by omega)
          have h1 : ([(⟨1, SlotState.occupied n⟩ : Slot)])[h2.index - p.slots.length]? = none := by
            apply List.getElem?_eq_none
            simp
            omega
          simp [List.getElem?_append, hlt, h2n, h1]
    · intro s hs
      rcases List.mem_append.mp hs with hm | hm
      · exact hg s hm
      · simp at hm
        rw [hm]
  · rcases Pool.firstFree_spec p.slots i hf with ⟨s0, hs0, hvac⟩
    simp only [hs0]
    refine ⟨?_, ?_, ?_, ?_⟩
    · rw [Pool.lookup]
      simp only [hs0, hvac]
      simp
    · rw [Pool.lookup_eq_some_iff]
      refine ⟨⟨s0.generation, SlotState.occupied n⟩, ?_, rfl, rfl⟩
      simp [listModify_getElem?, hs0]
    · intro h2 hne
      unfold Pool.lookup
      simp only [listModify_getElem?]
      by_cases hidx : h2.index = i
      · have hgen : h2.generation ≠ s0.generation := by
          intro hcon
          apply hne
          cases h2
          simp_all
        rw [hidx, hs0]
        simp only [if_pos rfl, Option.map_some]
        have hgl : s0.generation ≠ h2.generation := fun hc => hgen hc.symm
        simp [hgl, hvac]
      · simp [hidx]
    · intro s hs
      rcases listModify_mem p.slots i _ s hs with hmem | ⟨y, hy, hsy⟩
      · exact hg s hmem
      · rw [hsy]
        exact hg y hy

theorem Pool.free_eq (p : Pool) (h : Handle) (m : NodeM)
    (hal : p.lookup h = some m) :
    p.free h = some
      (⟨listModify p.slots h.index (fun s => ⟨s.generation + 1, SlotState.vacant⟩)⟩, m) := by
  unfold Pool.free
  rw [hal]

theorem Pool.lookup_free (p : Pool) (h : Handle) (m : NodeM)
    (_hal : p.lookup h = some m) (h2 : Handle) :
    (Pool.mk (listModify p.slots h.index
        (fun s => ⟨s.generation + 1, SlotState.vacant⟩))).lookup h2
      = if h2.index = h.index then none else p.lookup h2 := by
  unfold Pool.lookup
  simp only [listModify_getElem?]
  by_cases hidx : h2.index = h.index
  · rw [if_pos hidx]
    rcases hs : p.slots[h2.index]? with _ | s
    · simp [hidx]
    · simp [hidx]
  · simp [hidx]

theorem Pool.genOK_free (p : Pool) (h : Handle) (hg : genOK p) :
    genOK (Pool.mk (listModify p.slots h.index
      (fun s => ⟨s.generation + 1, SlotState.vacant⟩))) := by
  intro s hs
  rcases listModify_mem p.slots h.index _ s hs with hmem | ⟨y, hy, hsy⟩
  · exact hg s hmem
  · rw [hsy]
    simp

theorem Pool.update_slots_ne (p : Pool) (h : Handle) (n : NodeM) (i : Nat)
    (hne : i ≠ h.index) : (p.update h n).slots[i]? = p.slots[i]? := by
  unfold Pool.update
  simp [listModify_getElem?, hne]

theorem InvPending_of_HierEq (g g2 : GraphM) (P : List Handle)
    (he : HierEq g g2) (hi : InvPending g P) : InvPending g2 P := by
  obtain ⟨hroot, hgen, hsome, hnone⟩ := he
  obtain ⟨hg, hrne, hrp, ⟨r, hr, hrpar⟩, hii, hiii⟩ := hi
  refine ⟨hgen hg, hroot ▸ hrne, hroot ▸ hrp, ?_, ?_, ?_⟩
  · rcases hsome _ _ hr with ⟨r2, hr2, hp2, _⟩
    exact ⟨r2, hroot ▸ hr2, hp2.trans hrpar⟩
  · intro h n2 hln2 hnr hnp
    rcases hlg : g.pool.lookup h with _ | n
    · rw [hnone h hlg] at hln2
      cases hln2
    · rcases hsome _ _ hlg with ⟨n2b, hn2b, hpar2, hch2⟩
      rw [hln2] at hn2b
      cases Option.some.inj hn2b
      rcases hii h n hlg (hroot ▸ hnr) hnp with ⟨p, hp, hcnt⟩
      rcases hsome _ _ hp with ⟨p2, hp2, _, hchp2⟩
      refine ⟨p2, ?_, ?_⟩
      · rw [hpar2]
        exact hp2
      · rw [hchp2]
        exact hcnt
  · intro q qn2 hlq2 x hx
    rcases hlq : g.pool.lookup q with _ | qn
    · rw [hnone q hlq] at hlq2
      cases hlq2
    · rcases hsome _ _ hlq with ⟨qn2b, hqn2b, hqpar, hqch⟩
      rw [hlq2] at hqn2b
      cases Option.some.inj hqn2b
      rw [hqch] at hx
      rcases hiii q qn hlq x hx with ⟨hxr, hxp, m, hm, hmp⟩
      rcases hsome _ _ hm with ⟨m2, hm2, hmp2, _⟩
      exact ⟨hroot ▸ hxr, hxp, m2, hm2, hmp2.trans hmp⟩

theorem unlink_collider_branch_spec (g2 : GraphM) (c : Handle)
    (nodeRef : NodeM) (g1 : GraphM)
    (hnr : g2.pool.lookup c = some nodeRef)
    (hu : (match nodeRef.payload with
      | Payload.collider cc =>
        (g2.physics.remove_collider cc.native).bind (fun p =>
          let nodeRef2 :=
            if p.2 then
              { nodeRef with payload := Payload.collider { cc with native := none } }
            else nodeRef
          some { g2 with physics := p.1, pool := g2.pool.update c nodeRef2 })
      | _ => some g2) = some g1) :
    g1.root = g2.root ∧ (genOK g2.pool → genOK g1.pool) ∧
    (∃ n1, g1.pool.lookup c = some n1 ∧ n1.parent = nodeRef.parent ∧
      n1.children = nodeRef.children) ∧
    (∀ x, x ≠ c → g1.pool.lookup x = g2.pool.lookup x) ∧
    (∀ i, i ≠ c.index → g1.pool.slots[i]? = g2.pool.slots[i]?) := by
  rcases hpl : nodeRef.payload with _ | rb | cc | j | m | t
  all_goals rw [hpl] at hu
  case collider =>
    rcases hrc : g2.physics.remove_collider cc.native with _ | p
    · simp only [hrc, Option.none_bind] at hu
      cases hu
    · simp only [hrc, Option.some_bind] at hu
      cases Option.some.inj hu
      set nodeRef2 := (if p.2 = true then
        { nodeRef with payload := Payload.collider { cc with native := none } }
        else nodeRef) with hnr2def
      have hpar2 : nodeRef2.parent = nodeRef.parent := by
        by_cases hb : p.2 = true <;> simp [hnr2def, hb]
      have hch2 : nodeRef2.children = nodeRef.children := by
        by_cases hb : p.2 = true <;> simp [hnr2def, hb]
      refine ⟨rfl, fun hg => Pool.genOK_update _ _ _ hg,
        ⟨nodeRef2, ?_, hpar2, hch2⟩, ?_, ?_⟩
      · rw [Pool.lookup_update g2.pool c nodeRef2 nodeRef hnr c]
        simp
      · intro x hx
        rw [Pool.lookup_update g2.pool c nodeRef2 nodeRef hnr x, if_neg hx]
      · intro i hi
        exact Pool.update_slots_ne g2.pool c nodeRef2 i hi
  all_goals
    cases Option.some.inj hu
    exact ⟨rfl, fun hg => hg, ⟨nodeRef, hnr, rfl, rfl⟩, fun x _ => rfl,
      fun i _ => rfl⟩

theorem Handle.isSome_false_iff (h : Handle) :
    h.isSome = false ↔ h = Handle.NONE := by
  simp [Handle.isSome]

theorem Handle.isSome_true_iff (h : Handle) :
    h.isSome = true ↔ h ≠ Handle.NONE := by
  simp [Handle.isSome]

theorem GraphM.unlink_internal_spec (g : GraphM) (c : Handle) (g1 : GraphM)
    (hg : genOK g.pool) (hu : g.unlink_internal c = some g1) :
    ∃ n, g.pool.lookup c = some n ∧
      g1.root = g.root ∧ genOK g1.pool ∧
      (∃ n1, g1.pool.lookup c = some n1 ∧ n1.parent = Handle.NONE ∧
        n1.children = (if n.parent = c then n.children.erase c else n.children)) ∧
      (∀ x, x ≠ c → x ≠ n.parent → g1.pool.lookup x = g.pool.lookup x) ∧
      (n.parent ≠ c → n.parent.isSome = true →
        ∃ pn pn1, g.pool.lookup n.parent = some pn ∧
          g1.pool.lookup n.parent = some pn1 ∧ pn1.parent = pn.parent ∧
          pn1.children = pn.children.erase c) ∧
      (n.parent.isSome = false → ∀ x, x ≠ c → g1.pool.lookup x = g.pool.lookup x) ∧
      (∀ i, i ≠ c.index → (n.parent.isSome = true → i ≠ n.parent.index) →
        g1.pool.slots[i]? = g.pool.slots[i]?) := by
  obtain ⟨n, hl⟩ : ∃ n, g.pool.lookup c = some n := by
    rcases hEx : g.pool.lookup c with _ | n
    · unfold GraphM.unlink_internal at hu
      rw [hEx] at hu
      cases hu
    · exact ⟨n, rfl⟩
  refine ⟨n, hl, ?_⟩
  have hcNONE : c ≠ Handle.NONE := by
    intro hcon
    rw [hcon, Pool.lookup_NONE g.pool hg] at hl
    cases hl
  unfold GraphM.unlink_internal at hu
  simp only [Option.bind_eq_bind', Option.pure_def, Option.some_bind] at hu
  rw [hl, Option.some_bind] at hu
  by_cases hps : n.parent.isSome = true
  · simp only [hps, if_true] at hu
    rcases Option.bind_eq_some.mp hu with ⟨pnU, hlp, hk⟩
    rcases Option.bind_eq_some.mp hk with ⟨nodeRef, hnr, hmatch⟩
    have hbranch := unlink_collider_branch_spec
      ⟨g.root, (g.pool.update c { n with parent := Handle.NONE }).update n.parent
        { pnU with children := pnU.children.erase c }, g.physics⟩
      c nodeRef g1 hnr hmatch
    obtain ⟨hroot1, hgen1, ⟨n1, hn1, hn1p, hn1c⟩, hother1, hslots1⟩ := hbranch
    have hgU : genOK (g.pool.update c { n with parent := Handle.NONE }) :=
      Pool.genOK_update _ _ _ hg
    by_cases hpc : n.parent = c
    · -- self-parenting node: both updates hit the same slot
      rw [hpc] at hlp
      rw [Pool.lookup_update g.pool c { n with parent := Handle.NONE } n hl c,
        if_pos rfl] at hlp
      cases Option.some.inj hlp
      have hnrv : nodeRef =
          { n with parent := Handle.NONE, children := n.children.erase c } := by
        rw [hpc] at hnr
        rw [Pool.lookup_update _ c _ { n with parent := Handle.NONE }
          (by rw [Pool.lookup_update g.pool c _ n hl c, if_pos rfl]) c,
          if_pos rfl] at hnr
        exact (Option.some.inj hnr).symm
      refine ⟨hroot1.trans rfl, ?_, ?_, ?_, ?_, ?_, ?_⟩
      · exact hgen1 (by rw [hpc]; exact Pool.genOK_update _ _ _ hgU)
      · refine ⟨n1, hn1, ?_, ?_⟩
        · rw [hn1p, hnrv]
        · rw [hn1c, hnrv, if_pos hpc]
      · intro x hxc hxp
        rw [hother1 x hxc, hpc]
        rw [Pool.lookup_update _ c _ { n with parent := Handle.NONE }
          (by rw [Pool.lookup_update g.pool c _ n hl c, if_pos rfl]) x,
          if_neg hxc,
          Pool.lookup_update g.pool c _ n hl x, if_neg hxc]
      · intro hcon
        exact absurd hpc hcon.elim
      · intro hcon
        rw [hps] at hcon
        cases hcon
      · intro i hic _
        rw [hslots1 i hic, Pool.update_slots_ne _ n.parent _ i (by rw [hpc]; exact hic),
          Pool.update_slots_ne _ c _ i hic]
    · -- ordinary case: parent is a different slot
      rw [Pool.lookup_update g.pool c { n with parent := Handle.NONE } n hl
        n.parent, if_neg hpc] at hlp
      have hnrv : nodeRef = { n with parent := Handle.NONE } := by
        rw [Pool.lookup_update _ n.parent _ pnU
          (by rw [Pool.lookup_update g.pool c _ n hl n.parent, if_neg hpc]
              exact hlp) c,
          if_neg (fun hcon => hpc hcon.symm),
          Pool.lookup_update g.pool c _ n hl c, if_pos rfl] at hnr
        exact (Option.some.inj hnr).symm
      refine ⟨hroot1.trans rfl, ?_, ?_, ?_, ?_, ?_, ?_⟩
      · exact hgen1 (Pool.genOK_update _ _ _ hgU)
      · refine ⟨n1, hn1, ?_, ?_⟩
        · rw [hn1p, hnrv]
        · rw [hn1c, hnrv, if_neg hpc]
      · intro x hxc hxp
        rw [hother1 x hxc,
          Pool.lookup_update _ n.parent _ pnU
            (by rw [Pool.lookup_update g.pool c _ n hl n.parent, if_neg hpc]
                exact hlp) x,
          if_neg hxp,
          Pool.lookup_update g.pool c _ n hl x, if_neg hxc]
      · intro _ _
        refine ⟨pnU, { pnU with children := pnU.children.erase c }, hlp, ?_, rfl, rfl⟩
        rw [hother1 n.parent hpc,
          Pool.lookup_update _ n.parent _ pnU
            (by rw [Pool.lookup_update g.pool c _ n hl n.parent, if_neg hpc]
                exact hlp) n.parent,
          if_pos rfl]
      · intro hcon
        rw [hps] at hcon
        cases hcon
      · intro i hic hip
        rw [hslots1 i hic, Pool.update_slots_ne _ n.parent _ i (hip hps),
          Pool.update_slots_ne _ c _ i hic]
  · have hpsf : n.parent.isSome = false := by
      cases hb : n.parent.isSome
      · rfl
      · exact absurd hb hps
    have hpNONE : n.parent = Handle.NONE := (Handle.isSome_false_iff _).mp hpsf
    have hpc : n.parent ≠ c := by
      rw [hpNONE]
      exact fun hcon => hcNONE hcon.symm
    simp only [hpsf, Bool.false_eq_true, if_false, Option.some_bind] at hu
    rcases Option.bind_eq_some.mp hu with ⟨nodeRef, hnr, hmatch⟩
    have hnrv : nodeRef = { n with parent := Handle.NONE } := by
      rw [Pool.lookup_update g.pool c _ n hl c, if_pos rfl] at hnr
      exact (Option.some.inj hnr).symm
    have hbranch := unlink_collider_branch_spec
      ⟨g.root, g.pool.update c { n with parent := Handle.NONE }, g.physics⟩
      c nodeRef g1 hnr hmatch
    obtain ⟨hroot1, hgen1, ⟨n1, hn1, hn1p, hn1c⟩, hother1, hslots1⟩ := hbranch
    have hunch : ∀ x, x ≠ c → g1.pool.lookup x = g.pool.lookup x := by
      intro x hxc
      rw [hother1 x hxc, Pool.lookup_update g.pool c _ n hl x, if_neg hxc]
    refine ⟨hroot1.trans rfl, ?_, ?_, ?_, ?_, ?_, ?_⟩
    · exact hgen1 (Pool.genOK_update _ _ _ hg)
    · refine ⟨n1, hn1, ?_, ?_⟩
      · rw [hn1p, hnrv]
      · rw [hn1c, hnrv, if_neg hpc]
    · intro x hxc _
      exact hunch x hxc
    · intro _ hcon
      rw [hpsf] at hcon
      cases hcon
    · intro _ x hxc
      exact hunch x hxc
    · intro i hic _
      rw [hslots1 i hic, Pool.update_slots_ne _ c _ i hic]

theorem unlink_to_pending (g : GraphM) (c : Handle) (g1 : GraphM)
    (hinv : InvPending g []) (hcr : c ≠ g.root)
    (hunl : g.unlink_internal c = some g1) :
    InvPending g1 [c] ∧ g1.root = g.root ∧
      (∃ n1, g1.pool.lookup c = some n1 ∧ n1.parent = Handle.NONE) := by
  obtain ⟨hg, hrne, _, ⟨r, hr, hrp⟩, hii, hiii⟩ := hinv
  obtain ⟨n, hl, hroot1, hgen1, ⟨n1, hn1, hn1p, hn1c⟩, hunch, hparent, _, _⟩ :=
    GraphM.unlink_internal_spec g c g1 hg hunl
  -- c never occurs in a children list of g1
  have hcnotin : ∀ q pq1, g1.pool.lookup q = some pq1 → c ∉ pq1.children := by
    intro q pq1 hq1 hmem
    by_cases hqc : q = c
    · rw [hqc] at hq1
      rw [hn1] at hq1
      cases Option.some.inj hq1
      by_cases hpc : n.parent = c
      · rw [hn1c, if_pos hpc] at hmem
        rcases hii c n hl hcr (by simp) with ⟨pp, hpp, hppc⟩
        rw [hpc, hl] at hpp
        cases Option.some.inj hpp
        have hz := List.count_erase_self c n.children
        rw [hppc] at hz
        have h0 : List.count c (n.children.erase c) = 0 := by simpa using hz
        exact List.count_eq_zero.mp h0 hmem
      · rw [hn1c, if_neg hpc] at hmem
        rcases (hiii c n hl c hmem).2.2 with ⟨m, hm, hmp⟩
        rw [hl] at hm
        cases Option.some.inj hm
        exact hpc hmp
    · by_cases hqp : q = n.parent
      · subst hqp
        have hpsome : n.parent.isSome = true := by
          rw [Handle.isSome_true_iff]
          intro hcon
          rw [hcon, Pool.lookup_NONE g1.pool hgen1] at hq1
          cases hq1
        rcases hparent hqc hpsome with ⟨pn, pn1, hpn, hpn1, _, hpn1c⟩
        rw [hpn1] at hq1
        cases Option.some.inj hq1
        rw [hpn1c] at hmem
        rcases hii c n hl hcr (by simp) with ⟨pp, hpp, hppc⟩
        rw [hpn] at hpp
        cases Option.some.inj hpp
        have hz := List.count_erase_self c pn.children
        rw [hppc] at hz
        have h0 : List.count c (pn.children.erase c) = 0 := by simpa using hz
        exact List.count_eq_zero.mp h0 hmem
      · rw [hunch q hqc hqp] at hq1
        rcases (hiii q pq1 hq1 c hmem).2.2 with ⟨m, hm, hmp⟩
        rw [hl] at hm
        cases Option.some.inj hm
        exact hqp hmp.symm
  -- every non-c live node of g survives with the same parent and, for
  -- non-c handles, the same children counts and membership
  have H1 : ∀ q pq, q ≠ c → g.pool.lookup q = some pq →
      ∃ pq1, g1.pool.lookup q = some pq1 ∧ pq1.parent = pq.parent ∧
        (∀ y, y ≠ c → pq1.children.count y = pq.children.count y) ∧
        (∀ y, y ∈ pq1.children → y ∈ pq.children) := by
    intro q pq hqc hq
    by_cases hqp : q = n.parent
    · subst hqp
      have hpsome : n.parent.isSome = true := by
        rw [Handle.isSome_true_iff]
        intro hcon
        rw [hcon, Pool.lookup_NONE g.pool hg] at hq
        cases hq
      rcases hparent hqc hpsome with ⟨pn, pn1, hpn, hpn1, hpn1p, hpn1c⟩
      rw [hpn] at hq
      cases Option.some.inj hq
      refine ⟨pn1, hpn1, hpn1p, ?_, ?_⟩
      · intro y hy
        rw [hpn1c]
        exact List.count_erase_of_ne hy pq.children
      · intro y hy
        rw [hpn1c] at hy
        exact List.mem_of_mem_erase hy
    · refine ⟨pq, ?_, rfl, fun y _ => rfl, fun y hy => hy⟩
      rw [hunch q hqc hqp]
      exact hq
  -- aliveness is preserved downwards for non-c handles
  have H4 : ∀ x m1, x ≠ c → g1.pool.lookup x = some m1 →
      ∃ m, g.pool.lookup x = some m ∧ m1.parent = m.parent ∧
        (∀ y, y ∈ m1.children → y ∈ m.children) := by
    intro x m1 hxc hx1
    rcases hlx : g.pool.lookup x with _ | m
    · by_cases hxp : x = n.parent
      · subst hxp
        have hpsome : n.parent.isSome = true := by
          rw [Handle.isSome_true_iff]
          intro hcon
          rw [hcon, Pool.lookup_NONE g1.pool hgen1] at hx1
          cases hx1
        rcases hparent hxc hpsome with ⟨pn, pn1, hpn, _, _, _⟩
        rw [hpn] at hlx
        cases hlx
      · rw [hunch x hxc hxp, hlx] at hx1
        cases hx1
    · rcases H1 x m hxc hlx with ⟨m1b, hm1b, hp, _, hmem⟩
      rw [hx1] at hm1b
      cases Option.some.inj hm1b
      exact ⟨m, rfl, hp, hmem⟩
  refine ⟨⟨hgen1, ?_, ?_, ?_, ?_, ?_⟩, hroot1, ⟨n1, hn1, hn1p⟩⟩
  · rw [hroot1]
    exact hrne
  · rw [hroot1]
    simp
    exact fun hcon => hcr hcon.symm
  · rcases H1 g.root r (fun hcon => hcr hcon.symm) hr with ⟨r1, hr1, hr1p, _, _⟩
    rw [hroot1]
    exact ⟨r1, hr1, hr1p.trans hrp⟩
  · intro h node hlk hhr hhp
    have hhc : h ≠ c := by
      intro hcon
      apply hhp
      simp [hcon]
    rcases H4 h node hhc hlk with ⟨m, hm, hmp, _⟩
    rcases hii h m hm (by rw [← hroot1]; exact hhr) (by simp) with ⟨pq, hpq, hcnt⟩
    rw [hmp]
    by_cases hqc : m.parent = c
    · rw [hqc, hl] at hpq
      cases Option.some.inj hpq
      refine ⟨n1, by rw [hqc]; exact hn1, ?_⟩
      rw [hn1c]
      by_cases hpc : n.parent = c
      · rw [if_pos hpc, List.count_erase_of_ne hhc]
        exact hcnt
      · rw [if_neg hpc]
        exact hcnt
    · rcases H1 m.parent pq hqc hpq with ⟨pq1, hpq1, _, hcn, _⟩
      exact ⟨pq1, hpq1, (hcn h hhc).trans hcnt⟩
  · intro q qn1 hq1 x hx
    have hxc : x ≠ c := by
      intro hcon
      rw [hcon] at hx
      exact hcnotin q qn1 hq1 hx
    by_cases hqc : q = c
    · rw [hqc] at hq1
      rw [hn1] at hq1
      cases Option.some.inj hq1
      have hxn : x ∈ n.children := by
        by_cases hpc : n.parent = c
        · rw [hn1c, if_pos hpc] at hx
          exact List.mem_of_mem_erase hx
        · rw [hn1c, if_neg hpc] at hx
          exact hx
      rcases hiii c n hl x hxn with ⟨hxr, _, mm, hmm, hmmp⟩
      rcases H1 x mm hxc hmm with ⟨mm1, hmm1, hmm1p, _, _⟩
      refine ⟨by rw [hroot1]; exact hxr, by simp [hxc], mm1, hmm1, ?_⟩
      rw [hmm1p, hqc]
      exact hmmp
    · rcases H4 q qn1 hqc hq1 with ⟨mq, hmq, _, hqmem⟩
      rcases hiii q mq hmq x (hqmem x hx) with ⟨hxr, _, mm, hmm, hmmp⟩
      rcases H1 x mm hxc hmm with ⟨mm1, hmm1, hmm1p, _, _⟩
      refine ⟨by rw [hroot1]; exact hxr, by simp [hxc], mm1, hmm1, ?_⟩
      rw [hmm1p]
      exact hmmp

theorem unlink_pending_stays (g : GraphM) (c : Handle) (g1 : GraphM)
    (hinv : InvPending g [c]) (hunl : g.unlink_internal c = some g1) :
    InvPending g1 [c] ∧ g1.root = g.root ∧
      (∃ n1, g1.pool.lookup c = some n1 ∧ n1.parent = Handle.NONE) := by
  obtain ⟨hg, hrne, hrnp, ⟨r, hr, hrp⟩, hii, hiii⟩ := hinv
  obtain ⟨n, hl, hroot1, hgen1, ⟨n1, hn1, hn1p, hn1c⟩, hunch, hparent, _, _⟩ :=
    GraphM.unlink_internal_spec g c g1 hg hunl
  have hcr : c ≠ g.root := by
    intro hcon
    apply hrnp
    simp [hcon]
  have hcnotg : ∀ q qn, g.pool.lookup q = some qn → c ∉ qn.children := by
    intro q qn hq hmem
    exact (hiii q qn hq c hmem).2.1 (by simp)
  have H1 : ∀ q pq, q ≠ c → g.pool.lookup q = some pq →
      ∃ pq1, g1.pool.lookup q = some pq1 ∧ pq1.parent = pq.parent ∧
        (∀ y, y ≠ c → pq1.children.count y = pq.children.count y) ∧
        (∀ y, y ∈ pq1.children → y ∈ pq.children) := by
    intro q pq hqc hq
    by_cases hqp : q = n.parent
    · subst hqp
      have hpsome : n.parent.isSome = true := by
        rw [Handle.isSome_true_iff]
        intro hcon
        rw [hcon, Pool.lookup_NONE g.pool hg] at hq
        cases hq
      rcases hparent hqc hpsome with ⟨pn, pn1, hpn, hpn1, hpn1p, hpn1c⟩
      rw [hpn] at hq
      cases Option.some.inj hq
      refine ⟨pn1, hpn1, hpn1p, ?_, ?_⟩
      · intro y hy
        rw [hpn1c]
        exact List.count_erase_of_ne hy pq.children
      · intro y hy
        rw [hpn1c] at hy
        exact List.mem_of_mem_erase hy
    · refine ⟨pq, ?_, rfl, fun y _ => rfl, fun y hy => hy⟩
      rw [hunch q hqc hqp]
      exact hq
  have H4 : ∀ x m1, x ≠ c → g1.pool.lookup x = some m1 →
      ∃ m, g.pool.lookup x = some m ∧ m1.parent = m.parent ∧
        (∀ y, y ∈ m1.children → y ∈ m.children) := by
    intro x m1 hxc hx1
    rcases hlx : g.pool.lookup x with _ | m
    · by_cases hxp : x = n.parent
      · subst hxp
        have hpsome : n.parent.isSome = true := by
          rw [Handle.isSome_true_iff]
          intro hcon
          rw [hcon, Pool.lookup_NONE g1.pool hgen1] at hx1
          cases hx1
        rcases hparent hxc hpsome with ⟨pn, pn1, hpn, _, _, _⟩
        rw [hpn] at hlx
        cases hlx
      · rw [hunch x hxc hxp, hlx] at hx1
        cases hx1
    · rcases H1 x m hxc hlx with ⟨m1b, hm1b, hp, _, hmem⟩
      rw [hx1] at hm1b
      cases Option.some.inj hm1b
      exact ⟨m, rfl, hp, hmem⟩
  have hcnotin : ∀ q pq1, g1.pool.lookup q = some pq1 → c ∉ pq1.children := by
    intro q pq1 hq1 hmem
    by_cases hqc : q = c
    · rw [hqc, hn1] at hq1
      cases Option.some.inj hq1
      have hcn : c ∈ n.children := by
        by_cases hpc : n.parent = c
        · rw [hn1c, if_pos hpc] at hmem
          exact List.mem_of_mem_erase hmem
        · rw [hn1c, if_neg hpc] at hmem
          exact hmem
      exact hcnotg c n hl hcn
    · rcases H4 q pq1 hqc hq1 with ⟨mq, hmq, _, hqmem⟩
      exact hcnotg q mq hmq (hqmem c hmem)
  refine ⟨⟨hgen1, ?_, ?_, ?_, ?_, ?_⟩, hroot1, ⟨n1, hn1, hn1p⟩⟩
  · rw [hroot1]
    exact hrne
  · rw [hroot1]
    exact hrnp
  · rcases H1 g.root r (fun hcon => hcr hcon.symm) hr with ⟨r1, hr1, hr1p, _, _⟩
    rw [hroot1]
    exact ⟨r1, hr1, hr1p.trans hrp⟩
  · intro h node hlk hhr hhp
    have hhc : h ≠ c := by
      intro hcon
      apply hhp
      simp [hcon]
    rcases H4 h node hhc hlk with ⟨m, hm, hmp, _⟩
    rcases hii h m hm (by rw [← hroot1]; exact hhr) (by simp [hhc]) with ⟨pq, hpq, hcnt⟩
    rw [hmp]
    by_cases hqc : m.parent = c
    · rw [hqc, hl] at hpq
      cases Option.some.inj hpq
      refine ⟨n1, by rw [hqc]; exact hn1, ?_⟩
      rw [hn1c]
      by_cases hpc : n.parent = c
      · rw [if_pos hpc, List.count_erase_of_ne hhc]
        exact hcnt
      · rw [if_neg hpc]
        exact hcnt
    · rcases H1 m.parent pq hqc hpq with ⟨pq1, hpq1, _, hcn, _⟩
      exact ⟨pq1, hpq1, (hcn h hhc).trans hcnt⟩
  · intro q qn1 hq1 x hx
    have hxc : x ≠ c := by
      intro hcon
      rw [hcon] at hx
      exact hcnotin q qn1 hq1 hx
    by_cases hqc : q = c
    · rw [hqc, hn1] at hq1
      cases Option.some.inj hq1
      have hxn : x ∈ n.children := by
        by_cases hpc : n.parent = c
        · rw [hn1c, if_pos hpc] at hx
          exact List.mem_of_mem_erase hx
        · rw [hn1c, if_neg hpc] at hx
          exact hx
      rcases hiii c n hl x hxn with ⟨hxr, _, mm, hmm, hmmp⟩
      rcases H1 x mm hxc hmm with ⟨mm1, hmm1, hmm1p, _, _⟩
      refine ⟨by rw [hroot1]; exact hxr, by simp [hxc], mm1, hmm1, ?_⟩
      rw [hmm1p, hqc]
      exact hmmp
    · rcases H4 q qn1 hqc hq1 with ⟨mq, hmq, _, hqmem⟩
      rcases hiii q mq hmq x (hqmem x hx) with ⟨hxr, _, mm, hmm, hmmp⟩
      rcases H1 x mm hxc hmm with ⟨mm1, hmm1, hmm1p, _, _⟩
      refine ⟨by rw [hroot1]; exact hxr, by simp [hxc], mm1, hmm1, ?_⟩
      rw [hmm1p]
      exact hmmp

theorem relink_inv (g1 : GraphM) (c p : Handle) (cn pn : NodeM)
    (hinv : InvPending g1 [c]) (hcr : c ≠ g1.root)
    (hc : g1.pool.lookup c = some cn) (_hcp : cn.parent = Handle.NONE)
    (hp : (g1.pool.update c { cn with parent := p }).lookup p = some pn) :
    InvPending { g1 with pool := (g1.pool.update c { cn with parent := p }).update p { pn with children := pn.children ++ [c] } } [] := by
  obtain ⟨hg1, hrne, hrnp, ⟨r, hr, hrp⟩, hii, hiii⟩ := hinv
  have hrc : g1.root ≠ c := fun hcon => hcr hcon.symm
  have hcnot : ∀ q qn, g1.pool.lookup q = some qn → c ∉ qn.children := by
    intro q qn hq hmem
    exact (hiii q qn hq c hmem).2.1 (by simp)
  have hlp2 : ∀ x, (g1.pool.update c { cn with parent := p }).lookup x =
      if x = c then some { cn with parent := p } else g1.pool.lookup x :=
    fun x => Pool.lookup_update g1.pool c _ cn hc x
  have hpf : ∀ x, ((g1.pool.update c { cn with parent := p }).update p
      { pn with children := pn.children ++ [c] }).lookup x =
      if x = p then some { pn with children := pn.children ++ [c] }
      else if x = c then some { cn with parent := p } else g1.pool.lookup x := by
    intro x
    rw [Pool.lookup_update _ p _ pn hp x, hlp2 x]
  have hpcase : (p = c ∧ pn = { cn with parent := p }) ∨
      (p ≠ c ∧ g1.pool.lookup p = some pn) := by
    have hpeq := hlp2 p
    rw [hp] at hpeq
    by_cases hpc : p = c
    · rw [if_pos hpc] at hpeq
      exact Or.inl ⟨hpc, Option.some.inj hpeq⟩
    · rw [if_neg hpc] at hpeq
      exact Or.inr ⟨hpc, hpeq.symm⟩
  have hpng1 : ∃ pnc, g1.pool.lookup p = some pnc ∧ pn.children = pnc.children := by
    rcases hpcase with ⟨hpc, hpn⟩ | ⟨hpc, hpn⟩
    · exact ⟨cn, by rw [hpc]; exact hc, by rw [hpn]⟩
    · exact ⟨pn, hpn, rfl⟩
  have hcnotpn : c ∉ pn.children := by
    rcases hpng1 with ⟨pnc, hpnc, hch⟩
    rw [hch]
    exact hcnot p pnc hpnc
  have Hback : ∀ x m1, x ≠ c →
      (((g1.pool.update c { cn with parent := p }).update p
        { pn with children := pn.children ++ [c] }).lookup x) = some m1 →
      ∃ m, g1.pool.lookup x = some m ∧ m1.parent = m.parent := by
    intro x m1 hxc hx
    rw [hpf x] at hx
    by_cases hxp : x = p
    · rw [if_pos hxp] at hx
      cases Option.some.inj hx
      rcases hpcase with ⟨hpc, _⟩ | ⟨hpc, hpn⟩
      · exact absurd (hxp.trans hpc) hxc
      · exact ⟨pn, hxp ▸ hpn, rfl⟩
    · rw [if_neg hxp, if_neg hxc] at hx
      exact ⟨m1, hx, rfl⟩
  have Hcnt : ∀ q qn, g1.pool.lookup q = some qn →
      ∃ qn1, (((g1.pool.update c { cn with parent := p }).update p
        { pn with children := pn.children ++ [c] }).lookup q) = some qn1 ∧
        (∀ y, y ≠ c → qn1.children.count y = qn.children.count y) := by
    intro q qn hq
    by_cases hqp : q = p
    · refine ⟨{ pn with children := pn.children ++ [c] },
        by rw [hpf q, if_pos hqp], ?_⟩
      intro y hyc
      rcases hpng1 with ⟨pnc, hpnc, hch⟩
      have hqn : qn = pnc := by
        rw [hqp, hpnc] at hq
        exact (Option.some.inj hq).symm
      have h0 : List.count y [c] = 0 := by simp [List.count_cons, hyc]
      show (pn.children ++ [c]).count y = qn.children.count y
      rw [List.count_append, h0, hch, hqn]
      omega
    · by_cases hqc : q = c
      · refine ⟨{ cn with parent := p },
          by rw [hpf q, if_neg hqp, if_pos hqc], ?_⟩
        intro y _
        have hqn : qn = cn := by
          rw [hqc, hc] at hq
          exact (Option.some.inj hq).symm
        show cn.children.count y = qn.children.count y
        rw [hqn]
      · exact ⟨qn, by rw [hpf q, if_neg hqp, if_neg hqc]; exact hq,
          fun y _ => rfl⟩
  have Hpar : ∀ x m, x ≠ c → g1.pool.lookup x = some m →
      ∃ m1, (((g1.pool.update c { cn with parent := p }).update p
        { pn with children := pn.children ++ [c] }).lookup x) = some m1 ∧
        m1.parent = m.parent := by
    intro x m hxc hx
    by_cases hxp : x = p
    · refine ⟨{ pn with children := pn.children ++ [c] },
        by rw [hpf x, if_pos hxp], ?_⟩
      rcases hpcase with ⟨hpc, _⟩ | ⟨hpc, hpn⟩
      · exact absurd (hxp.trans hpc) hxc
      · show pn.parent = m.parent
        rw [hxp, hpn] at hx
        exact congrArg NodeM.parent (Option.some.inj hx)
    · exact ⟨m, by rw [hpf x, if_neg hxp, if_neg hxc]; exact hx, rfl⟩
  refine ⟨?_, ?_, ?_, ?_, ?_, ?_⟩
  · exact Pool.genOK_update _ _ _ (Pool.genOK_update _ _ _ hg1)
  · exact hrne
  · simp
  · rcases Hpar g1.root r hrc hr with ⟨r1, hr1, hrp1⟩
    exact ⟨r1, hr1, hrp1.trans hrp⟩
  · intro h node hlk hhr _
    by_cases hhc : h = c
    · rw [hhc] at hlk ⊢
      rw [hpf c] at hlk
      by_cases hcp2 : c = p
      · rw [if_pos hcp2] at hlk
        cases Option.some.inj hlk
        rcases hpcase with ⟨hpc, hpn⟩ | ⟨hpc, _⟩
        · refine ⟨{ pn with children := pn.children ++ [c] }, ?_, ?_⟩
          · have h2 : ({ pn with children := pn.children ++ [c] } : NodeM).parent
                = p := by rw [hpn]
            rw [hpf, if_pos h2]
          · have h0 : pn.children.count c = 0 := List.count_eq_zero.mpr hcnotpn
            show (pn.children ++ [c]).count c = 1
            rw [List.count_append, h0]
            simp
        · exact absurd hcp2.symm hpc
      · rw [if_neg hcp2, if_pos rfl] at hlk
        cases Option.some.inj hlk
        refine ⟨{ pn with children := pn.children ++ [c] }, ?_, ?_⟩
        · have h1 : ({ cn with parent := p } : NodeM).parent = p := rfl
          rw [h1, hpf p, if_pos rfl]
        · have h0 : pn.children.count c = 0 := List.count_eq_zero.mpr hcnotpn
          show (pn.children ++ [c]).count c = 1
          rw [List.count_append, h0]
          simp
    · rcases Hback h node hhc hlk with ⟨m, hm, hmp⟩
      rcases hii h m hm hhr (by simp [hhc]) with ⟨pq, hpq, hcnt⟩
      rcases Hcnt m.parent pq hpq with ⟨pq1, hpq1, hcnt1⟩
      refine ⟨pq1, by rw [hmp]; exact hpq1, ?_⟩
      rw [hcnt1 h hhc]
      exact hcnt
  · intro q qn1 hq1 x hx
    rw [hpf q] at hq1
    by_cases hqp : q = p
    · rw [if_pos hqp] at hq1
      cases Option.some.inj hq1
      have hxm : x ∈ pn.children ++ [c] := hx
      rcases List.mem_append.mp hxm with hxo | hxo
      · rcases hpng1 with ⟨pnc, hpnc, hch⟩
        rw [hch] at hxo
        rcases hiii p pnc hpnc x hxo with ⟨hxr, hxc, m, hm, hmp⟩
        have hxc1 : x ≠ c := by simpa using hxc
        rcases Hpar x m hxc1 hm with ⟨m1, hm1, hmp1⟩
        refine ⟨hxr, by simp, m1, hm1, ?_⟩
        rw [hmp1, hmp, hqp]
      · have hxceq : x = c := by simpa using hxo
        rw [hxceq]
        refine ⟨hcr, by simp, ?_⟩
        by_cases hcp2 : c = p
        · rcases hpcase with ⟨hpc, hpn⟩ | ⟨hpc, _⟩
          · refine ⟨{ pn with children := pn.children ++ [c] },
              by rw [hpf c, if_pos hcp2], ?_⟩
            have h1 : ({ pn with children := pn.children ++ [c] } : NodeM).parent
                = pn.parent := rfl
            rw [h1, hqp]
            rw [hpn]
          · exact absurd hcp2.symm hpc
        · refine ⟨{ cn with parent := p },
            by rw [hpf c, if_neg hcp2, if_pos rfl], ?_⟩
          show p = q
          rw [hqp]
    · rw [if_neg hqp] at hq1
      by_cases hqc : q = c
      · rw [if_pos hqc] at hq1
        cases Option.some.inj hq1
        have hxm : x ∈ cn.children := hx
        rcases hiii c cn hc x hxm with ⟨hxr, hxc, m, hm, hmp⟩
        have hxc1 : x ≠ c := by simpa using hxc
        rcases Hpar x m hxc1 hm with ⟨m1, hm1, hmp1⟩
        refine ⟨hxr, by simp, m1, hm1, ?_⟩
        rw [hmp1, hmp, hqc]
      · rw [if_neg hqc] at hq1
        rcases hiii q qn1 hq1 x hx with ⟨hxr, hxc, m, hm, hmp⟩
        have hxc1 : x ≠ c := by simpa using hxc
        rcases Hpar x m hxc1 hm with ⟨m1, hm1, hmp1⟩
        exact ⟨hxr, by simp, m1, hm1, by rw [hmp1, hmp]⟩

theorem link_nodes_inv (g : GraphM) (c p : Handle) (g2 : GraphM)
    (hinv : InvPending g [] ∨ InvPending g [c]) (hcr : c ≠ g.root)
    (hl : g.link_nodes c p = some g2) :
    InvPending g2 [] ∧ g2.root = g.root := by
  unfold GraphM.link_nodes at hl
  simp only [Option.bind_eq_bind', Option.pure_def, Option.some_bind] at hl
  rcases Option.bind_eq_some.mp hl with ⟨g1, hg1, hk⟩
  rcases Option.bind_eq_some.mp hk with ⟨cn, hcn, hk2⟩
  rcases Option.bind_eq_some.mp hk2 with ⟨pn, hpn, hk3⟩
  cases Option.some.inj hk3
  have hpend : InvPending g1 [c] ∧ g1.root = g.root ∧
      (∃ n1, g1.pool.lookup c = some n1 ∧ n1.parent = Handle.NONE) := by
    rcases hinv with hI | hP
    · exact unlink_to_pending g c g1 hI hcr hg1
    · exact unlink_pending_stays g c g1 hP hg1
  obtain ⟨hP1, hroot1, n1, hn1, hn1p⟩ := hpend
  have hcn0 := hcn
  rw [hn1] at hcn0
  have hcnp : cn.parent = Handle.NONE := by
    rw [← Option.some.inj hcn0]
    exact hn1p
  have hcr1 : c ≠ g1.root := by
    rw [hroot1]
    exact hcr
  exact ⟨relink_inv g1 c p cn pn hP1 hcr1 hcn hcnp hpn, hroot1⟩

theorem Pool.alive_index_inj (p : Pool) (a b : Handle) (m m1 : NodeM)
    (ha : p.lookup a = some m) (hb : p.lookup b = some m1)
    (hidx : a.index = b.index) : a = b := by
  rcases (Pool.lookup_eq_some_iff p a m).mp ha with ⟨s, hs, hg, _⟩
  rcases (Pool.lookup_eq_some_iff p b m1).mp hb with ⟨s2, hs2, hg2, _⟩
  rw [hidx] at hs
  rw [hs2] at hs
  have hseq : s2 = s := Option.some.inj hs
  cases a; cases b
  simp_all

theorem clean_up_spec (g : GraphM) (n : NodeM) (g2 : GraphM)
    (h : GraphM.clean_up_for_node g n = some g2) :
    g2.pool = g.pool ∧ g2.root = g.root := by
  unfold GraphM.clean_up_for_node at h
  rcases hpl : n.payload with _ | rb | cc | j | m | t
  all_goals rw [hpl] at h
  all_goals first
    | (cases Option.some.inj h
       exact ⟨rfl, rfl⟩)
    | (rcases Option.map_eq_some'.mp h with ⟨w, hw, hg2⟩
       cases hg2
       exact ⟨rfl, rfl⟩)

theorem InvPending_ext (g g2 : GraphM) (P : List Handle)
    (hpool : g2.pool = g.pool) (hroot : g2.root = g.root)
    (h : InvPending g P) : InvPending g2 P := by
  unfold InvPending at h ⊢
  rw [hpool, hroot]
  exact h

theorem update_hier (g : GraphM) (hdl : Handle) (n m : NodeM)
    (hn : g.pool.lookup hdl = some n) (hp : m.parent = n.parent)
    (hc : m.children = n.children) :
    HierEq g { g with pool := g.pool.update hdl m } := by
  refine ⟨rfl, fun hg => Pool.genOK_update _ _ _ hg, ?_, ?_⟩
  · intro x nx hx
    rw [Pool.lookup_update g.pool hdl m n hn x]
    by_cases hxh : x = hdl
    · rw [if_pos hxh]
      have hnx : n = nx := by
        rw [hxh, hn] at hx
        exact Option.some.inj hx
      exact ⟨m, rfl, by rw [hp, hnx], by rw [hc, hnx]⟩
    · rw [if_neg hxh]
      exact ⟨nx, hx, rfl, rfl⟩
  · intro x hx
    rw [Pool.lookup_update g.pool hdl m n hn x]
    have hxh : x ≠ hdl := by
      intro hcon
      rw [hcon, hn] at hx
      cases hx
    rw [if_neg hxh]
    exact hx

theorem spawn_pending (g : GraphM) (m : NodeM) (hch : m.children = [])
    (hinv : InvPending g []) :
    InvPending { g with pool := (g.pool.spawn m).1 } [(g.pool.spawn m).2] ∧
    (g.pool.spawn m).2 ≠ g.root ∧
    (g.pool.spawn m).1.lookup (g.pool.spawn m).2 = some m := by
  obtain ⟨hg, hrne, hrnp, ⟨r, hr, hrp⟩, hii, hiii⟩ := hinv
  obtain ⟨hnone, hsome, hunch, hgen⟩ := Pool.spawn_spec g.pool m hg
  have hhr : (g.pool.spawn m).2 ≠ g.root := by
    intro hcon
    rw [hcon, hr] at hnone
    cases hnone
  refine ⟨⟨hgen, hrne, ?_, ?_, ?_, ?_⟩, hhr, hsome⟩
  · simp only [List.mem_singleton]
    exact fun hcon => hhr hcon.symm
  · refine ⟨r, ?_, hrp⟩
    rw [hunch g.root (fun hcon => hhr hcon.symm)]
    exact hr
  · intro h n hln hhr2 hhp
    have hhs : h ≠ (g.pool.spawn m).2 := by
      intro hcon
      apply hhp
      simp [hcon]
    rw [hunch h hhs] at hln
    rcases hii h n hln hhr2 (by simp) with ⟨pq, hpq, hcnt⟩
    have hqs : n.parent ≠ (g.pool.spawn m).2 := by
      intro hcon
      rw [hcon, hnone] at hpq
      cases hpq
    refine ⟨pq, ?_, hcnt⟩
    rw [hunch n.parent hqs]
    exact hpq
  · intro q qn hq x hx
    by_cases hqs : q = (g.pool.spawn m).2
    · rw [hqs, hsome] at hq
      have hqm : qn = m := (Option.some.inj hq).symm
      rw [hqm, hch] at hx
      cases hx
    · rw [hunch q hqs] at hq
      rcases hiii q qn hq x hx with ⟨hxr, _, mm, hmm, hmp⟩
      have hxs : x ≠ (g.pool.spawn m).2 := by
        intro hcon
        rw [hcon, hnone] at hmm
        cases hmm
      refine ⟨hxr, by simp [hxs], mm, ?_, hmp⟩
      rw [hunch x hxs]
      exact hmm

theorem foldl_link_inv (cs : List Handle) (ph : Handle) (g g3 : GraphM)
    (hinv : InvPending g []) (havoid : ∀ c ∈ cs, c ≠ g.root)
    (hf : cs.foldlM (fun a c => GraphM.link_nodes a c ph) g = some g3) :
    InvPending g3 [] ∧ g3.root = g.root := by
  induction cs generalizing g with
  | nil =>
    simp only [List.foldlM_nil] at hf
    cases Option.some.inj hf
    exact ⟨hinv, rfl⟩
  | cons a rest ih =>
    rw [List.foldlM_cons] at hf
    simp only [Option.bind_eq_bind'] at hf
    rcases Option.bind_eq_some.mp hf with ⟨g1, hg1, hrest⟩
    rcases link_nodes_inv g a ph g1 (Or.inl hinv) (havoid a (by simp)) hg1
      with ⟨hI1, hr1⟩
    have havoid1 : ∀ c ∈ rest, c ≠ g1.root := by
      intro c hc
      rw [hr1]
      exact havoid c (by simp [hc])
    rcases ih g1 hI1 havoid1 hrest with ⟨hI3, hr3⟩
    exact ⟨hI3, hr3.trans hr1⟩

theorem add_node_eq (g : GraphM) (node : NodeM) :
    g.add_node node = (do
      let g2 ← if ({ g with pool := (g.pool.spawn { node with children := [] }).1 } : GraphM).root.isSome then GraphM.link_nodes { g with pool := (g.pool.spawn { node with children := [] }).1 } (g.pool.spawn { node with children := [] }).2 ({ g with pool := (g.pool.spawn { node with children := [] }).1 } : GraphM).root else pure { g with pool := (g.pool.spawn { node with children := [] }).1 }
      let g3 ← node.children.foldlM
        (fun acc c => acc.link_nodes c (g.pool.spawn { node with children := [] }).2) g2
      let n ← g3.pool.lookup (g.pool.spawn { node with children := [] }).2
      pure ({ g3 with pool := g3.pool.update (g.pool.spawn { node with children := [] }).2 { n with selfHandle := (g.pool.spawn { node with children := [] }).2 } }, (g.pool.spawn { node with children := [] }).2)) := rfl

theorem add_node_inv (g : GraphM) (node : NodeM) (g4 : GraphM) (hdl : Handle)
    (hinv : InvPending g []) (havoid : ∀ c ∈ node.children, c ≠ g.root)
    (ha : g.add_node node = some (g4, hdl)) :
    InvPending g4 [] ∧ g4.root = g.root := by
  rw [add_node_eq] at ha
  simp only [Option.bind_eq_bind', Option.pure_def, Option.some_bind] at ha
  obtain ⟨hP1, hhr, hsome⟩ := spawn_pending g { node with children := [] } rfl hinv
  have hrne : g.root ≠ Handle.NONE := hinv.2.1
  have hcond : g.root.isSome = true := (Handle.isSome_true_iff _).mpr hrne
  rw [if_pos hcond] at ha
  rcases Option.bind_eq_some.mp ha with ⟨g2, hg2, ha2⟩
  rcases link_nodes_inv { g with pool := (g.pool.spawn { node with children := [] }).1 }
      (g.pool.spawn { node with children := [] }).2 g.root g2 (Or.inr hP1) hhr hg2
    with ⟨hI2, hr2⟩
  rcases Option.bind_eq_some.mp ha2 with ⟨g3, hg3, ha3⟩
  have havoid2 : ∀ c ∈ node.children, c ≠ g2.root := by
    intro c hc
    rw [hr2]
    exact havoid c hc
  rcases foldl_link_inv node.children (g.pool.spawn { node with children := [] }).2
      g2 g3 hI2 havoid2 hg3 with ⟨hI3, hr3⟩
  rcases Option.bind_eq_some.mp ha3 with ⟨n, hn, hfin⟩
  have hpair := Option.some.inj hfin
  have hg4 : ({ g3 with pool := g3.pool.update (g.pool.spawn { node with children := [] }).2 { n with selfHandle := (g.pool.spawn { node with children := [] }).2 } } : GraphM) = g4 :=
    congrArg Prod.fst hpair
  cases hg4
  refine ⟨InvPending_of_HierEq g3 _ []
    (update_hier g3 (g.pool.spawn { node with children := [] }).2 n
      { n with selfHandle := (g.pool.spawn { node with children := [] }).2 } hn rfl rfl)
    hI3, ?_⟩
  show g3.root = g.root
  exact hr3.trans hr2

theorem unlink_node_inv (g : GraphM) (c : Handle) (g4 : GraphM)
    (hinv : InvPending g []) (hcr : c ≠ g.root)
    (hu : g.unlink_node c = some g4) :
    InvPending g4 [] ∧ g4.root = g.root := by
  unfold GraphM.unlink_node at hu
  simp only [Option.bind_eq_bind', Option.pure_def, Option.some_bind] at hu
  rcases Option.bind_eq_some.mp hu with ⟨g1, hg1, hu2⟩
  rcases Option.bind_eq_some.mp hu2 with ⟨g2, hg2, hu3⟩
  rcases Option.bind_eq_some.mp hu3 with ⟨n, hn, hfin⟩
  cases Option.some.inj hfin
  rcases unlink_to_pending g c g1 hinv hcr hg1 with ⟨hP1, hr1, -⟩
  have hcr1 : c ≠ g1.root := by
    rw [hr1]
    exact hcr
  rcases link_nodes_inv g1 c g1.root g2 (Or.inr hP1) hcr1 hg2 with ⟨hI2, hr2⟩
  refine ⟨InvPending_of_HierEq g2 _ []
    (update_hier g2 c n { n with localPosition := ⟨0, 0, 0⟩ } hn rfl rfl) hI2, ?_⟩
  show g2.root = g.root
  exact hr2.trans hr1

theorem free_pending (g : GraphM) (h : Handle) (rest : List Handle) (node : NodeM)
    (hinv : InvPending g (h :: rest))
    (hnode : g.pool.lookup h = some node) :
    InvPending { g with pool := Pool.mk (listModify g.pool.slots h.index (fun s => ⟨s.generation + 1, SlotState.vacant⟩)) } (node.children.reverse ++ rest) := by
  obtain ⟨hg, hrne, hrnp, ⟨r, hr, hrp⟩, hii, hiii⟩ := hinv
  have hlf := Pool.lookup_free g.pool h node hnode
  have hidx : ∀ x m, g.pool.lookup x = some m → x ≠ h → x.index ≠ h.index :=
    fun x m hm hne hcon => hne (Pool.alive_index_inj g.pool x h m node hm hnode hcon)
  have hrh : g.root ≠ h := by
    intro hcon
    apply hrnp
    simp [hcon]
  refine ⟨Pool.genOK_free g.pool h hg, hrne, ?_, ?_, ?_, ?_⟩
  · intro hcon
    rcases List.mem_append.mp hcon with hm | hm
    · exact (hiii h node hnode g.root (List.mem_reverse.mp hm)).1 rfl
    · exact hrnp (by simp [hm])
  · refine ⟨r, ?_, hrp⟩
    rw [hlf g.root, if_neg (hidx g.root r hr hrh)]
    exact hr
  · intro x n hln hxr hxp
    rw [hlf x] at hln
    by_cases hxi : x.index = h.index
    · rw [if_pos hxi] at hln
      cases hln
    · rw [if_neg hxi] at hln
      have hxh : x ≠ h := by
        intro hcon
        rw [hcon] at hxi
        exact hxi rfl
      have hxrest : x ∉ rest := fun hm => hxp (List.mem_append.mpr (Or.inr hm))
      have hxch : x ∉ node.children :=
        fun hm => hxp (List.mem_append.mpr (Or.inl (List.mem_reverse.mpr hm)))
      rcases hii x n hln hxr (by simp [hxh, hxrest]) with ⟨pq, hpq, hcnt⟩
      have hqh : n.parent ≠ h := by
        intro hcon
        rw [hcon, hnode] at hpq
        have hpqe : node = pq := Option.some.inj hpq
        have h0 : node.children.count x = 0 := List.count_eq_zero.mpr hxch
        rw [← hpqe] at hcnt
        omega
      refine ⟨pq, ?_, hcnt⟩
      rw [hlf n.parent, if_neg (hidx n.parent pq hpq hqh)]
      exact hpq
  · intro q qn hq x hx
    rw [hlf q] at hq
    by_cases hqi : q.index = h.index
    · rw [if_pos hqi] at hq
      cases hq
    · rw [if_neg hqi] at hq
      have hqh : q ≠ h := by
        intro hcon
        rw [hcon] at hqi
        exact hqi rfl
      rcases hiii q qn hq x hx with ⟨hxr, hxp, m, hm, hmp⟩
      have hxh : x ≠ h := by
        intro hcon
        apply hxp
        simp [hcon]
      have hxnotch : x ∉ node.children := by
        intro hmm
        rcases hiii h node hnode x hmm with ⟨-, -, m2, hm2, hmp2⟩
        rw [hm] at hm2
        have hme : m = m2 := Option.some.inj hm2
        rw [← hme] at hmp2
        rw [hmp] at hmp2
        exact hqh hmp2
      refine ⟨hxr, ?_, m, ?_, hmp⟩
      · intro hcon
        rcases List.mem_append.mp hcon with hmm | hmm
        · exact hxnotch (List.mem_reverse.mp hmm)
        · exact hxp (by simp [hmm])
      · rw [hlf x, if_neg (hidx x m hm hxh)]
        exact hm

theorem removeLoop_inv (fuel : Nat) (g : GraphM) (stack : List Handle)
    (gf : GraphM) (hinv : InvPending g stack)
    (hrun : GraphM.removeLoop g stack fuel = some gf) :
    InvPending gf [] ∧ gf.root = g.root := by
  induction fuel generalizing g stack with
  | zero => cases hrun
  | succ k ih =>
    cases stack with
    | nil =>
      simp only [GraphM.removeLoop] at hrun
      cases Option.some.inj hrun
      exact ⟨hinv, rfl⟩
    | cons h rest =>
      simp only [GraphM.removeLoop] at hrun
      simp only [Option.bind_eq_bind', Option.pure_def, Option.some_bind] at hrun
      rcases Option.bind_eq_some.mp hrun with ⟨node, hnode, hr2⟩
      rcases Option.bind_eq_some.mp hr2 with ⟨pf, hfree, hr3⟩
      obtain ⟨pool2, freed⟩ := pf
      rcases Option.bind_eq_some.mp hr3 with ⟨g2, hclean, hr4⟩
      rw [Pool.free_eq g.pool h node hnode] at hfree
      have hpair := Option.some.inj hfree
      have hpool2 : pool2 = Pool.mk (listModify g.pool.slots h.index
          (fun s => ⟨s.generation + 1, SlotState.vacant⟩)) :=
        (congrArg Prod.fst hpair).symm
      obtain ⟨hg2pool, hg2root⟩ := clean_up_spec { g with pool := pool2 } freed g2 hclean
      have hP2 : InvPending g2 (node.children.reverse ++ rest) := by
        refine InvPending_ext _ g2 _ ?_ ?_ (free_pending g h rest node hinv hnode)
        · exact hg2pool.trans hpool2
        · exact hg2root
      rcases ih g2 _ hP2 hr4 with ⟨hIf, hrf⟩
      refine ⟨hIf, ?_⟩
      rw [hrf, hg2root]

theorem remove_node_inv (g : GraphM) (c : Handle) (gf : GraphM)
    (hinv : InvPending g []) (hcr : c ≠ g.root)
    (hrm : g.remove_node c = some gf) :
    InvPending gf [] ∧ gf.root = g.root := by
  unfold GraphM.remove_node at hrm
  simp only [Option.bind_eq_bind', Option.pure_def, Option.some_bind] at hrm
  rcases Option.bind_eq_some.mp hrm with ⟨g1, hg1, hloop⟩
  rcases unlink_to_pending g c g1 hinv hcr hg1 with ⟨hP1, hr1, -⟩
  rcases removeLoop_inv (g1.pool.alive_count + 1) g1 [c] gf hP1 hloop with ⟨hIf, hrf⟩
  exact ⟨hIf, hrf.trans hr1⟩

theorem new_lookup (h : Handle) (n : NodeM)
    (hl : GraphM.new.pool.lookup h = some n) :
    h = ⟨0, 1⟩ ∧ n = GraphM.pivotNode := by
  rcases (Pool.lookup_eq_some_iff _ _ _).mp hl with ⟨s, hs, hg, hst⟩
  have hslots : GraphM.new.pool.slots
      = [⟨1, SlotState.occupied GraphM.pivotNode⟩] := rfl
  rw [hslots] at hs
  have hi0 : h.index = 0 := by
    have hlt := (List.getElem?_eq_some_iff.mp hs).1
    simpa using hlt
  rw [hi0] at hs
  simp only [List.getElem?_cons_zero] at hs
  have hseq : s = ⟨1, SlotState.occupied GraphM.pivotNode⟩ :=
    (Option.some.inj hs).symm
  rw [hseq] at hg hst
  have hgen : h.generation = 1 := by simpa using hg.symm
  have hn : n = GraphM.pivotNode := by
    have hst2 : SlotState.occupied GraphM.pivotNode = SlotState.occupied n := hst
    cases hst2
    rfl
  refine ⟨?_, hn⟩
  rcases h with ⟨i, g2⟩
  simp only [Handle.mk.injEq]
  exact ⟨hi0, hgen⟩

theorem new_inv : InvPending GraphM.new [] := by
  refine ⟨?_, ?_, ?_, ?_, ?_, ?_⟩
  · intro s hs
    have hslots : GraphM.new.pool.slots
        = [⟨1, SlotState.occupied GraphM.pivotNode⟩] := rfl
    rw [hslots] at hs
    simp only [List.mem_singleton] at hs
    rw [hs]
  · decide
  · simp
  · exact ⟨GraphM.pivotNode, rfl, rfl⟩
  · intro h n hln hhr _
    rcases new_lookup h n hln with ⟨hh, -⟩
    exact absurd (by rw [hh]; rfl) hhr
  · intro q qn hq x hx
    rcases new_lookup q qn hq with ⟨-, hqn⟩
    rw [hqn] at hx
    cases hx

theorem applyOp_inv (g : GraphM) (op : GraphOp) (g2 : GraphM)
    (hinv : InvPending g []) (havoid : opAvoidsRoot g.root op = true)
    (h : applyOp g op = some g2) :
    InvPending g2 [] ∧ g2.root = g.root := by
  cases op with
  | addNode n =>
    rcases Option.map_eq_some'.mp h with ⟨pr, hpr, hg2⟩
    obtain ⟨g4, hd⟩ := pr
    cases hg2
    have hmem : g.root ∉ n.children := by
      simpa [opAvoidsRoot] using havoid
    have havoid2 : ∀ c ∈ n.children, c ≠ g.root := by
      intro c hc hcon
      exact hmem (hcon ▸ hc)
    exact add_node_inv g n g4 hd hinv havoid2 hpr
  | linkNodes c p =>
    have hcr : c ≠ g.root := by simpa [opAvoidsRoot] using havoid
    exact link_nodes_inv g c p g2 (Or.inl hinv) hcr h
  | unlinkNode hh =>
    have hcr : hh ≠ g.root := by simpa [opAvoidsRoot] using havoid
    exact unlink_node_inv g hh g2 hinv hcr h
  | removeNode hh =>
    have hcr : hh ≠ g.root := by simpa [opAvoidsRoot] using havoid
    exact remove_node_inv g hh g2 hinv hcr h

theorem applyOps_inv (ops : List GraphOp) (g0 g : GraphM)
    (hinv : InvPending g0 [])
    (havoid : ∀ op ∈ ops, opAvoidsRoot g0.root op = true)
    (happ : applyOps g0 ops = some g) :
    InvPending g [] ∧ g.root = g0.root := by
  induction ops generalizing g0 with
  | nil =>
    unfold applyOps at happ
    simp only [List.foldlM_nil, Option.pure_def] at happ
    cases Option.some.inj happ
    exact ⟨hinv, rfl⟩
  | cons op rest ih =>
    unfold applyOps at happ
    rw [List.foldlM_cons] at happ
    simp only [Option.bind_eq_bind'] at happ
    rcases Option.bind_eq_some.mp happ with ⟨g1, hg1, hrest⟩
    rcases applyOp_inv g0 op g1 hinv (havoid op (by simp)) hg1 with ⟨hI1, hr1⟩
    have havoid1 : ∀ op2 ∈ rest, opAvoidsRoot g1.root op2 = true := by
      intro o ho
      rw [hr1]
      exact havoid o (by simp [ho])
    rcases ih g1 hI1 havoid1 hrest with ⟨hIf, hrf⟩
    exact ⟨hIf, hrf.trans hr1⟩

theorem Pool.take_reserve_eq (p : Pool) (h : Handle) (n : NodeM)
    (hal : p.lookup h = some n) :
    p.take_reserve h = some
      (⟨listModify p.slots h.index (fun s => { s with state := SlotState.reserved })⟩,
        h.index, n) := by
  unfold Pool.take_reserve
  rw [hal]

theorem Pool.lookup_reserve (p : Pool) (hidx : Nat) (x : Handle) :
    (Pool.mk (listModify p.slots hidx
        (fun s => { s with state := SlotState.reserved }))).lookup x
      = if x.index = hidx then none else p.lookup x := by
  unfold Pool.lookup
  simp only [listModify_getElem?]
  by_cases hxi : x.index = hidx
  · rw [if_pos hxi, if_pos hxi]
    rcases hs : p.slots[x.index]? with _ | s
    · simp
    · simp only [Option.map_some']
      by_cases hg : s.generation = x.generation
      · simp [hg]
      · simp [hg]
  · rw [if_neg hxi, if_neg hxi]

theorem Pool.put_back_eq (p : Pool) (t gen : Nat) (m : NodeM)
    (hs : p.slots[t]? = some ⟨gen, SlotState.reserved⟩) :
    p.put_back t m = some
      (⟨listModify p.slots t (fun s2 => { s2 with state := SlotState.occupied m })⟩,
        ⟨t, gen⟩) := by
  unfold Pool.put_back
  rw [hs]

theorem Pool.lookup_put_back (p : Pool) (t gen : Nat) (m : NodeM)
    (hs : p.slots[t]? = some ⟨gen, SlotState.reserved⟩) (x : Handle) :
    (Pool.mk (listModify p.slots t
        (fun s2 => { s2 with state := SlotState.occupied m }))).lookup x
      = if x = ⟨t, gen⟩ then some m else p.lookup x := by
  unfold Pool.lookup
  simp only [listModify_getElem?]
  by_cases hxi : x.index = t
  · rw [if_pos hxi, hxi, hs]
    by_cases hg : gen = x.generation
    · have hx : x = ⟨t, gen⟩ := by
        rcases x with ⟨xi, xg⟩
        simp_all
      rw [if_pos hx]
      simp [hg]
    · have hx : x ≠ ⟨t, gen⟩ := by
        intro hcon
        apply hg
        rw [hcon]
      rw [if_neg hx]
      simp [hg]
  · have hx : x ≠ ⟨t, gen⟩ := by
      intro hcon
      apply hxi
      rw [hcon]
    rw [if_neg hxi, if_neg hx]

theorem Pool.lookup_congr (p q : Pool) (x : Handle)
    (hsl : q.slots[x.index]? = p.slots[x.index]?) : q.lookup x = p.lookup x := by
  unfold Pool.lookup
  rw [hsl]

theorem Pool.lookup_none_of_reserved (p : Pool) (i gen : Nat)
    (hs : p.slots[i]? = some ⟨gen, SlotState.reserved⟩) (x : Handle)
    (hx : x.index = i) : p.lookup x = none := by
  unfold Pool.lookup
  rw [hx, hs]
  by_cases hg : gen = x.generation
  · simp [hg]
  · simp [hg]

theorem Pool.genOK_reserve (p : Pool) (i : Nat) (hg : genOK p) :
    genOK (Pool.mk (listModify p.slots i
      (fun s => { s with state := SlotState.reserved }))) := by
  intro s hs
  rcases listModify_mem p.slots i _ s hs with hmem | ⟨y, hy, hsy⟩
  · exact hg s hmem
  · rw [hsy]
    exact hg y hy

theorem Pool.genOK_occupy (p : Pool) (i : Nat) (m : NodeM) (hg : genOK p) :
    genOK (Pool.mk (listModify p.slots i
      (fun s2 => { s2 with state := SlotState.occupied m }))) := by
  intro s hs
  rcases listModify_mem p.slots i _ s hs with hmem | ⟨y, hy, hsy⟩
  · exact hg s hmem
  · rw [hsy]
    exact hg y hy

theorem Handle.eta (h : Handle) : (⟨h.index, h.generation⟩ : Handle) = h := by
  cases h
  rfl

theorem takeSubLoop_spec (fuel : Nat) (g : GraphM) (stack : List Handle)
    (acc : List (Nat × NodeM)) (gl : GraphM) (ds : List (Nat × NodeM))
    (hrun : GraphM.takeSubLoop g stack acc fuel = some (gl, ds)) :
    ∃ tail, ds = acc ++ tail ∧ gl.root = g.root ∧ gl.physics = g.physics ∧
      (genOK g.pool → genOK gl.pool) ∧
      ReservedDiff g.pool gl.pool tail ∧
      (∀ h2, h2 ∈ stack → h2.index ∈ tail.map Prod.fst) ∧
      (∀ t n, (t, n) ∈ tail → ∃ h2, h2.index = t ∧ g.pool.lookup h2 = some n ∧
        (h2 ∈ stack ∨ ∃ t4 n4, (t4, n4) ∈ tail ∧ h2 ∈ n4.children)) := by
  induction fuel generalizing g stack acc with
  | zero => cases hrun
  | succ k ih =>
    cases stack with
    | nil =>
      simp only [GraphM.takeSubLoop] at hrun
      have hpr := Option.some.inj hrun
      have h1 : g = gl := congrArg Prod.fst hpr
      have h2 : acc = ds := congrArg Prod.snd hpr
      cases h1
      cases h2
      refine ⟨[], by simp, rfl, rfl, fun hg => hg, ⟨?_, ?_, ?_⟩, ?_, ?_⟩
      · intro t n hmem
        cases hmem
      · intro i _
        rfl
      · simp
      · intro h2 hh2
        cases hh2
      · intro t n hmem
        exact absurd hmem (List.not_mem_nil _)
    | cons h rest =>
      simp only [GraphM.takeSubLoop] at hrun
      simp only [Option.bind_eq_bind', Option.pure_def, Option.some_bind] at hrun
      rcases Option.bind_eq_some.mp hrun with ⟨node, hnode, hr2⟩
      rcases Option.bind_eq_some.mp hr2 with ⟨tr, htr, hr3⟩
      obtain ⟨pool2, t0, n0⟩ := tr
      rw [Pool.take_reserve_eq g.pool h node hnode] at htr
      have hpair := Option.some.inj htr
      have hpool2 : pool2 = ⟨listModify g.pool.slots h.index
          (fun s => { s with state := SlotState.reserved })⟩ :=
        (congrArg Prod.fst hpair).symm
      have ht0 : t0 = h.index := (congrArg (fun pr => pr.2.1) hpair).symm
      have hn0 : node = n0 := congrArg (fun pr => pr.2.2) hpair
      subst hpool2
      subst ht0
      subst hn0
      rcases ih _ _ _ hr3 with ⟨tail2, hds, hroot, hphys, hgen, ⟨hRD1, hRD2, hRD3⟩, hcover, hprov⟩
      have hhid : h.index ∉ tail2.map Prod.fst := by
        intro hmem
        rcases List.mem_map.mp hmem with ⟨pr, hpr, hfst⟩
        obtain ⟨t2, n2⟩ := pr
        have hfst2 : t2 = h.index := hfst
        rcases hRD1 t2 n2 hpr with ⟨gen, hslot, _⟩
        rcases (Pool.lookup_eq_some_iff _ _ _).mp hnode with ⟨s, hs, _, _⟩
        rw [hfst2] at hslot
        simp [listModify_getElem?, hs] at hslot
      refine ⟨(h.index, node) :: tail2, ?_, hroot, hphys, ?_, ⟨?_, ?_, ?_⟩, ?_, ?_⟩
      · rw [hds]
        simp
      · intro hg
        exact hgen (Pool.genOK_reserve g.pool h.index hg)
      · intro t2 n2 hmem
        rcases List.mem_cons.mp hmem with hmem | hmem
        · have ht2 : t2 = h.index := congrArg Prod.fst hmem
          have hn2 : n2 = node := congrArg Prod.snd hmem
          rcases (Pool.lookup_eq_some_iff _ _ _).mp hnode with ⟨s, hs, hsg, hstt⟩
          refine ⟨s.generation, ?_, ?_⟩
          · rw [ht2, hn2, hs]
            have hse : s = ⟨s.generation, SlotState.occupied node⟩ := by
              rcases s with ⟨sg, sst⟩
              simp_all
            rw [← hse]
          · rw [ht2, hRD2 h.index hhid]
            simp [listModify_getElem?, hs]
        · rcases hRD1 t2 n2 hmem with ⟨gen, hsl1, hsl2⟩
          have ht2ne : t2 ≠ h.index := by
            intro hcon
            apply hhid
            rw [← hcon]
            exact List.mem_map.mpr ⟨(t2, n2), hmem, rfl⟩
          refine ⟨gen, ?_, hsl2⟩
          have heq : (⟨listModify g.pool.slots h.index
              (fun s => { s with state := SlotState.reserved })⟩ : Pool).slots[t2]?
              = g.pool.slots[t2]? := by
            simp [listModify_getElem?, ht2ne]
          rw [← heq]
          exact hsl1
      · intro i hi
        have hi1 : i ≠ h.index := by
          intro hcon
          apply hi
          simp [hcon]
        have hi2 : i ∉ tail2.map Prod.fst := by
          intro hcon
          apply hi
          simp [hcon]
        rw [hRD2 i hi2]
        simp [listModify_getElem?, hi1]
      · exact List.nodup_cons.mpr ⟨hhid, hRD3⟩
      · intro h2 hh2
        rcases List.mem_cons.mp hh2 with hh2 | hh2
        · rw [hh2]
          exact List.mem_map.mpr ⟨(h.index, node), List.mem_cons_self _ _, rfl⟩
        · have hmem := hcover h2 (List.mem_append.mpr (Or.inr hh2))
          exact List.mem_cons.mpr (Or.inr hmem)
      · intro t2 n2 hmem
        rcases List.mem_cons.mp hmem with hmem | hmem
        · have ht2 : t2 = h.index := congrArg Prod.fst hmem
          have hn2 : n2 = node := congrArg Prod.snd hmem
          refine ⟨h, by rw [ht2], by rw [hn2]; exact hnode, Or.inl (by simp)⟩
        · rcases hprov t2 n2 hmem with ⟨h2, hh2i, hh2l, hh2o⟩
          rcases (Pool.lookup_eq_some_iff _ _ _).mp hnode with ⟨s, hs, hsg, hstt⟩
          have hresslot : (⟨listModify g.pool.slots h.index
              (fun s0 => { s0 with state := SlotState.reserved })⟩ : Pool).slots[h.index]?
              = some ⟨s.generation, SlotState.reserved⟩ := by
            simp [listModify_getElem?, hs]
          have hh2ne : h2.index ≠ h.index := by
            intro hcon
            rw [Pool.lookup_none_of_reserved _ h.index s.generation hresslot h2 hcon] at hh2l
            cases hh2l
          have hh2g : g.pool.lookup h2 = some n2 := by
            have hlr := Pool.lookup_reserve g.pool h.index h2
            rw [if_neg hh2ne] at hlr
            rw [← hlr]
            exact hh2l
          refine ⟨h2, hh2i, hh2g, ?_⟩
          rcases hh2o with hh2o | ⟨t4, n4, htn4, hchild⟩
          · rcases List.mem_append.mp hh2o with hh | hh
            · exact Or.inr ⟨h.index, node, by simp, List.mem_reverse.mp hh⟩
            · exact Or.inl (List.mem_cons.mpr (Or.inr hh))
          · exact Or.inr ⟨t4, n4, List.mem_cons.mpr (Or.inr htn4), hchild⟩

theorem putLoop_spec (tail : List (Nat × NodeM)) (g0 gres : GraphM)
    (hres : ∀ t n, (t, n) ∈ tail → ∃ gen,
      g0.pool.slots[t]? = some ⟨gen, SlotState.reserved⟩)
    (hnd : (tail.map Prod.fst).Nodup)
    (hrun : tail.foldlM (fun (acc : GraphM) tn =>
        (acc.pool.put_back tn.1 tn.2).map (fun pr => { acc with pool := pr.1 }))
        g0 = some gres) :
    (∀ i, i ∉ tail.map Prod.fst → gres.pool.slots[i]? = g0.pool.slots[i]?) ∧
    (∀ t n, (t, n) ∈ tail → ∃ gen,
      g0.pool.slots[t]? = some ⟨gen, SlotState.reserved⟩ ∧
      gres.pool.slots[t]? = some ⟨gen, SlotState.occupied n⟩) ∧
    gres.root = g0.root ∧ gres.physics = g0.physics ∧
    (genOK g0.pool → genOK gres.pool) := by
  induction tail generalizing g0 with
  | nil =>
    simp only [List.foldlM_nil] at hrun
    cases Option.some.inj hrun
    exact ⟨fun i _ => rfl, fun t n hmem => absurd hmem (List.not_mem_nil _), rfl, rfl,
      fun hgok => hgok⟩
  | cons a tail2 ih =>
    obtain ⟨t, n⟩ := a
    rw [List.foldlM_cons] at hrun
    simp only [Option.bind_eq_bind'] at hrun
    rcases Option.bind_eq_some.mp hrun with ⟨g1, hg1, hrest⟩
    rcases hres t n (by simp) with ⟨gen, hslot⟩
    rw [Pool.put_back_eq g0.pool t gen n hslot] at hg1
    simp only [Option.map_some'] at hg1
    cases Option.some.inj hg1
    have hnd1 : t ∉ tail2.map Prod.fst := (List.nodup_cons.mp hnd).1
    have hnd2 : (tail2.map Prod.fst).Nodup := (List.nodup_cons.mp hnd).2
    have hres2 : ∀ t2 n2, (t2, n2) ∈ tail2 → ∃ gen2,
        ({ g0 with pool := (⟨listModify g0.pool.slots t
          (fun s2 => { s2 with state := SlotState.occupied n })⟩ : Pool) } : GraphM).pool.slots[t2]?
          = some ⟨gen2, SlotState.reserved⟩ := by
      intro t2 n2 hmem
      rcases hres t2 n2 (by simp [hmem]) with ⟨gen2, hsl⟩
      have ht2 : t2 ≠ t := by
        intro hcon
        apply hnd1
        rw [← hcon]
        exact List.mem_map.mpr ⟨(t2, n2), hmem, rfl⟩
      refine ⟨gen2, ?_⟩
      simpa [listModify_getElem?, ht2] using hsl
    rcases ih _ hres2 hnd2 hrest with ⟨hoff, hpairs, hroot, hphys, hgok⟩
    refine ⟨?_, ?_, ?_, ?_, ?_⟩
    · intro i hi
      have hi1 : i ≠ t := by
        intro hcon
        apply hi
        simp [hcon]
      have hi2 : i ∉ tail2.map Prod.fst := by
        intro hcon
        apply hi
        simp [hcon]
      rw [hoff i hi2]
      simp [listModify_getElem?, hi1]
    · intro t2 n2 hmem
      rcases List.mem_cons.mp hmem with hmem | hmem
      · have ht2 : t2 = t := congrArg Prod.fst hmem
        have hn2 : n2 = n := congrArg Prod.snd hmem
        refine ⟨gen, by rw [ht2]; exact hslot, ?_⟩
        rw [ht2, hoff t hnd1]
        simp [listModify_getElem?, hslot, hn2]
      · rcases hpairs t2 n2 hmem with ⟨gen2, hsl1, hsl2⟩
        have ht2 : t2 ≠ t := by
          intro hcon
          apply hnd1
          rw [← hcon]
          exact List.mem_map.mpr ⟨(t2, n2), hmem, rfl⟩
        refine ⟨gen2, ?_, hsl2⟩
        have heq : (⟨listModify g0.pool.slots t
            (fun s2 => { s2 with state := SlotState.occupied n })⟩ : Pool).slots[t2]?
            = g0.pool.slots[t2]? := by
          simp [listModify_getElem?, ht2]
        rw [← heq]
        exact hsl1
    · exact hroot
    · exact hphys
    · intro hg0
      exact hgok (Pool.genOK_occupy g0.pool t n hg0)

theorem link_nodes_lookup (g : GraphM) (c p : Handle) (g2 : GraphM)
    (hg : genOK g.pool) (hl : g.link_nodes c p = some g2) :
    ∃ n g1 cn pn,
      g.pool.lookup c = some n ∧
      g.unlink_internal c = some g1 ∧
      g1.pool.lookup c = some cn ∧ cn.parent = Handle.NONE ∧
      cn.children = (if n.parent = c then n.children.erase c else n.children) ∧
      (g1.pool.update c { cn with parent := p }).lookup p = some pn ∧
      g2.root = g.root ∧ genOK g2.pool ∧ g1.root = g.root ∧
      (∀ x, g2.pool.lookup x =
        if x = p then some { pn with children := pn.children ++ [c] }
        else if x = c then some { cn with parent := p }
        else g1.pool.lookup x) := by
  unfold GraphM.link_nodes at hl
  simp only [Option.bind_eq_bind', Option.pure_def, Option.some_bind] at hl
  rcases Option.bind_eq_some.mp hl with ⟨g1, hg1, hk⟩
  rcases Option.bind_eq_some.mp hk with ⟨cn, hcn, hk2⟩
  rcases Option.bind_eq_some.mp hk2 with ⟨pn, hpn, hk3⟩
  cases Option.some.inj hk3
  obtain ⟨n, hn, hroot1, hgen1, ⟨n1, hn1, hn1p, hn1c⟩, _, _, _, _⟩ :=
    GraphM.unlink_internal_spec g c g1 hg hg1
  have hcne : cn = n1 := by
    rw [hn1] at hcn
    exact (Option.some.inj hcn).symm
  refine ⟨n, g1, cn, pn, hn, hg1, hcn, ?_, ?_, hpn, ?_, ?_, hroot1, ?_⟩
  · rw [hcne]
    exact hn1p
  · rw [hcne]
    exact hn1c
  · exact hroot1
  · exact Pool.genOK_update _ _ _ (Pool.genOK_update _ _ _ hgen1)
  · intro x
    rw [Pool.lookup_update _ p _ pn hpn x, Pool.lookup_update g1.pool c _ cn hcn x]

/-- A `try_sync_model` call on a variable whose `NEED_SYNC` flag is clear is
a no-op that does not invoke the setter. -/
theorem TemplateVariable.try_sync_model_clean (t : TemplateVariable α)
    (h : t.need_sync = false) : t.try_sync_model = (t, none) := by
  simp [TemplateVariable.try_sync_model, h]

/-- A `try_sync_model` call on a dirty variable clears `NEED_SYNC` and
invokes the setter with the wrapped value. -/
theorem TemplateVariable.try_sync_model_dirty (t : TemplateVariable α)
    (h : t.need_sync = true) :
    t.try_sync_model =
      ({ t with flags := { t.flags with needSync := false } }, some t.value) := by
  simp [TemplateVariable.try_sync_model, h]

/-- The mutator `TemplateVariable::set` raises the `NEED_SYNC` flag. -/
theorem TemplateVariable.set_need_sync (t : TemplateVariable α) (v : α) :
    (t.set v).need_sync = true := by
  simp [TemplateVariable.set, TemplateVariable.mark_modified,
    TemplateVariable.need_sync, VariableFlags.union, VariableFlags.MODIFIED,
    VariableFlags.NEED_SYNC]

/-- The mutator `TemplateVariable::set` raises the `MODIFIED` flag. -/
theorem TemplateVariable.set_modified (t : TemplateVariable α) (v : α) :
    (t.set v).flags.modified = true := by
  simp [TemplateVariable.set, TemplateVariable.mark_modified,
    VariableFlags.union, VariableFlags.MODIFIED, VariableFlags.NEED_SYNC]

/-- C1: for a rigid-body node with a valid native handle (present in the
native body set), an empty action queue and no other pending syncs, setting
the mass through the `TemplateVariable` mutator raises `NEED_SYNC`; one call
of `sync_to_rigid_body_node` clears that flag and performs exactly one
native mutation, namely the mass setter; a second call with no intervening
mutation performs zero native mutations. -/
theorem C1_mass_sync_discipline
    (w : PhysicsWorldM) (h : Handle) (rb : RigidBodyState) (m : Int) (k : Nat)
    (nb : NativeRigidBody)
    (hnat : rb.native = some k)
    (hset : setLookup w.bodySet k = some nb)
    (hclean : rb.need_sync_model = false)
    (hacts : rb.actions = []) :
    (rb.set_mass m).mass.need_sync = true ∧
    (sync_to_rigid_body_node w h (rb.set_mass m)).2.2 =
      [SyncEvent.setter RBSetter.mass] ∧
    (sync_to_rigid_body_node w h (rb.set_mass m)).2.1.mass.need_sync = false ∧
    (sync_to_rigid_body_node (sync_to_rigid_body_node w h (rb.set_mass m)).1 h
      (sync_to_rigid_body_node w h (rb.set_mass m)).2.1).2.2 = [] := by
  simp only [RigidBodyState.need_sync_model, Bool.or_eq_false_iff] at hclean
  obtain ⟨⟨⟨⟨⟨⟨⟨⟨⟨⟨⟨⟨⟨h1, h2⟩, h3⟩, h4⟩, h5⟩, h6⟩, h7⟩, h8⟩, h9⟩, h10⟩,
    h11⟩, h12⟩, h13⟩, h14⟩ := hclean
  refine ⟨TemplateVariable.set_need_sync _ _, ?_⟩
  simp only [TemplateVariable.need_sync] at h1 h2 h3 h4 h5 h6 h7 h8 h9 h10 h11 h12 h13 h14
  simp [sync_to_rigid_body_node, RigidBodyState.set_mass, hnat, hset, hacts,
    RigidBodyState.need_sync_model, syncStep, drainActions,
    TemplateVariable.try_sync_model, TemplateVariable.need_sync,
    TemplateVariable.set, TemplateVariable.mark_modified,
    VariableFlags.union, VariableFlags.MODIFIED, VariableFlags.NEED_SYNC,
    h1, h2, h3, h4, h5, h7, h8, h9, h10, h11, h12, h13, h14]

/-- C1 witness: the discipline instantiated on the concrete one-body world
`worldExample` with node state `rbExample` and mass value 5. -/
theorem C1_mass_sync_discipline_witness :
    rbExample.native = some 0 ∧
    setLookup worldExample.bodySet 0 = some nbExample ∧
    rbExample.need_sync_model = false ∧
    rbExample.actions = [] ∧
    ((rbExample.set_mass 5).mass.need_sync = true ∧
     (sync_to_rigid_body_node worldExample ⟨1, 1⟩ (rbExample.set_mass 5)).2.2 =
       [SyncEvent.setter RBSetter.mass] ∧
     (sync_to_rigid_body_node worldExample ⟨1, 1⟩
        (rbExample.set_mass 5)).2.1.mass.need_sync = false ∧
     (sync_to_rigid_body_node
        (sync_to_rigid_body_node worldExample ⟨1, 1⟩ (rbExample.set_mass 5)).1 ⟨1, 1⟩
        (sync_to_rigid_body_node worldExample ⟨1, 1⟩ (rbExample.set_mass 5)).2.1).2.2
       = []) :=
  ⟨by decide, by decide, by decide, by decide,
    C1_mass_sync_discipline worldExample ⟨1, 1⟩ rbExample 5 0 nbExample
      (by decide) (by decide) (by decide) (by decide)⟩

/-- C7 counterexample: on the concrete dynamic body `rbExample` in
`worldExample`, the pull-back genuinely runs (the local pose is overwritten
from the native position) and afterwards the `MODIFIED` flag of `lin_vel`
IS set — contradicting the claim that neither flag is set after the
pull-back write. -/
theorem C7_counterexample :
    (sync_rigid_body_node worldExample rbExample
        (IsometryStub.fromGlobalTransform 3)).local_pose =
      LocalPoseStub.pulledBack (IsometryStub.fromGlobalTransform 3)
        nbExample.position ∧
    (sync_rigid_body_node worldExample rbExample
        (IsometryStub.fromGlobalTransform 3)).lin_vel.flags.modified = true ∧
    (sync_rigid_body_node worldExample rbExample
        (IsometryStub.fromGlobalTransform 3)).ang_vel.flags.modified = true := by
  decide

/-- C7 (amended): during physics pull-back on a dynamic rigid body with a
valid native handle, `lin_vel` and `ang_vel` are written with
`set_with_flags(value, MODIFIED)`: afterwards their flag cells are exactly
`MODIFIED`, so `NEED_SYNC` is not set (the write is not re-marked for
sync-to-native, which is what prevents the push/pull feedback loop), but the
`MODIFIED` flag is set. -/
theorem C7_pullback_flags
    (w : PhysicsWorldM) (rb : RigidBodyState) (pt : IsometryStub) (k : Nat)
    (nb : NativeRigidBody)
    (hen : w.enabled = true)
    (hnat : rb.native = some k)
    (hset : setLookup w.bodySet k = some nb)
    (hdyn : nb.bodyType = RigidBodyType.Dynamic) :
    (sync_rigid_body_node w rb pt).lin_vel.flags = VariableFlags.MODIFIED ∧
    (sync_rigid_body_node w rb pt).ang_vel.flags = VariableFlags.MODIFIED ∧
    (sync_rigid_body_node w rb pt).lin_vel.need_sync = false ∧
    (sync_rigid_body_node w rb pt).ang_vel.need_sync = false ∧
    (sync_rigid_body_node w rb pt).lin_vel.flags.modified = true ∧
    (sync_rigid_body_node w rb pt).ang_vel.flags.modified = true := by
  simp [sync_rigid_body_node, hen, hnat, hset, hdyn,
    TemplateVariable.set_with_flags, TemplateVariable.need_sync,
    VariableFlags.MODIFIED]

/-- C7 witness: the amended flag discipline instantiated on `worldExample`
and `rbExample`. -/
theorem C7_pullback_flags_witness :
    worldExample.enabled = true ∧
    rbExample.native = some 0 ∧
    setLookup worldExample.bodySet 0 = some nbExample ∧
    nbExample.bodyType = RigidBodyType.Dynamic ∧
    ((sync_rigid_body_node worldExample rbExample
        (IsometryStub.fromGlobalTransform 3)).lin_vel.flags = VariableFlags.MODIFIED ∧
     (sync_rigid_body_node worldExample rbExample
        (IsometryStub.fromGlobalTransform 3)).ang_vel.flags = VariableFlags.MODIFIED ∧
     (sync_rigid_body_node worldExample rbExample
        (IsometryStub.fromGlobalTransform 3)).lin_vel.need_sync = false ∧
     (sync_rigid_body_node worldExample rbExample
        (IsometryStub.fromGlobalTransform 3)).ang_vel.need_sync = false ∧
     (sync_rigid_body_node worldExample rbExample
        (IsometryStub.fromGlobalTransform 3)).lin_vel.flags.modified = true ∧
     (sync_rigid_body_node worldExample rbExample
        (IsometryStub.fromGlobalTransform 3)).ang_vel.flags.modified = true) :=
  ⟨by decide, by decide, by decide, by decide,
    C7_pullback_flags worldExample rbExample (IsometryStub.fromGlobalTransform 3)
      0 nbExample (by decide) (by decide) (by decide) (by decide)⟩

/-- C3: evaluating `Graph::remove_node` on the spec section 8 scenario
(root → synced rigid body → synced collider child) at the failing input:
removing the rigid-body node succeeds and removes the native body, its map
entry, and (through the backend's `remove_attached_colliders = true`) the
native collider — but the collider's bidirectional-map entry SURVIVES,
still naming the now-dead collider node handle, because the collider's own
`clean_up` finds the native collider already gone and
`remove_collider` then leaves the map untouched. -/
theorem C3_dangling_collider_map_entry :
    (GraphM.remove_node c3Graph hBody).map (fun g2 =>
        (g2.pool.lookup hBody, g2.pool.lookup hColl, g2.physics.bodySet,
          g2.physics.bodyMap.entries, g2.physics.colliderSet,
          g2.physics.colliderMap.value_of 0))
      = some (none, none, [], [], [], some hColl) := by
  rfl

/-- C4 counterexample: a collider node whose shape is a Trimesh with an
empty source list, linked under a rigid-body node that already has a valid
native handle.  The claimed precondition (parent body valid) holds, yet the
sync pass creates no native collider and leaves world and collider
unchanged — refuting the claimed "if and only if". -/
theorem C4_counterexample :
    parent_body_valid c4Pool c4ColliderNode = true ∧
    sync_to_collider_node PhysicsWorldM.new c4Pool ⟨1, 1⟩ c4ColliderNode
        c4ColliderState = (PhysicsWorldM.new, c4ColliderState) ∧
    c4ColliderState.native = none := by
  decide

/-- C4 (amended): for a collider node with an invalid native cell, a sync
pass creates a native collider if and only if its parent resolves to a
rigid-body node with a valid native handle AND the declarative shape
converts to a native shape; when the condition fails the call is a complete
no-op (retried on later passes since nothing changes), and when it holds
exactly one native collider is created and its handle stored in the
node's native cell. -/
theorem C4_collider_creation (w : PhysicsWorldM) (nodes : Pool)
    (handle : Handle) (selfNode : NodeM) (c : ColliderState)
    (hnat : c.native = none) :
    ((sync_to_collider_node w nodes handle selfNode c).2.native.isSome
        = collider_creatable nodes handle selfNode c) ∧
    (collider_creatable nodes handle selfNode c = false →
      sync_to_collider_node w nodes handle selfNode c = (w, c)) ∧
    (collider_creatable nodes handle selfNode c = true →
      (sync_to_collider_node w nodes handle selfNode c).2.native = some w.nextCollider ∧
      (sync_to_collider_node w nodes handle selfNode c).1.colliderSet.length
        = w.colliderSet.length + 1) := by
  rcases hpb : (nodes.lookup selfNode.parent).bind NodeM.castRigidBody with _ | pb
  · simp [sync_to_collider_node, collider_creatable, hnat, hpb]
  · rcases hpn : pb.native with _ | nk
    · simp [sync_to_collider_node, collider_creatable, hnat, hpb, hpn]
    · rcases hconv : collider_shape_into_native_shape c.shape.value
          (M4Stub.isoInvGlobal handle) handle nodes with _ | shape
      · simp [sync_to_collider_node, collider_creatable, hnat, hpb, hpn, hconv]
      · simp [sync_to_collider_node, collider_creatable, hnat, hpb, hpn, hconv,
          PhysicsWorldM.add_collider]

/-- C4 witness: the amended creation equivalence instantiated on the
counterexample pool with a Ball-shaped collider (condition true: exactly
one native collider) — the same pool on which `C4_counterexample`
exercises the condition-false case. -/
theorem C4_collider_creation_witness :
    (colliderStateWith (ColliderShape.ball 1) none).native = none ∧
    (((sync_to_collider_node PhysicsWorldM.new c4Pool ⟨1, 1⟩ c4ColliderNode
        (colliderStateWith (ColliderShape.ball 1) none)).2.native.isSome
        = collider_creatable c4Pool ⟨1, 1⟩ c4ColliderNode
            (colliderStateWith (ColliderShape.ball 1) none)) ∧
     (collider_creatable c4Pool ⟨1, 1⟩ c4ColliderNode
          (colliderStateWith (ColliderShape.ball 1) none) = false →
        sync_to_collider_node PhysicsWorldM.new c4Pool ⟨1, 1⟩ c4ColliderNode
            (colliderStateWith (ColliderShape.ball 1) none)
          = (PhysicsWorldM.new, colliderStateWith (ColliderShape.ball 1) none)) ∧
     (collider_creatable c4Pool ⟨1, 1⟩ c4ColliderNode
          (colliderStateWith (ColliderShape.ball 1) none) = true →
        (sync_to_collider_node PhysicsWorldM.new c4Pool ⟨1, 1⟩ c4ColliderNode
            (colliderStateWith (ColliderShape.ball 1) none)).2.native
          = some PhysicsWorldM.new.nextCollider ∧
        (sync_to_collider_node PhysicsWorldM.new c4Pool ⟨1, 1⟩ c4ColliderNode
            (colliderStateWith (ColliderShape.ball 1) none)).1.colliderSet.length
          = PhysicsWorldM.new.colliderSet.length + 1)) :=
  ⟨by decide,
    C4_collider_creation PhysicsWorldM.new c4Pool ⟨1, 1⟩ c4ColliderNode
      (colliderStateWith (ColliderShape.ball 1) none) (by decide)⟩

/-- C5 counterexample: a joint whose `body1` and `body2` reference
rigid-body nodes that have NOT yet been synced (native cells invalid).
Contrary to the claim, the first sync pass creates the native joint anyway
(the native cell becomes valid), passing the still-invalid native body
handles to the backend verbatim. -/
theorem C5_counterexample :
    rbUnsynced.native = none ∧
    (sync_to_joint_node PhysicsWorldM.new c5Pool ⟨2, 1⟩ c5Joint).2.native = some 0 ∧
    (sync_to_joint_node PhysicsWorldM.new c5Pool ⟨2, 1⟩ c5Joint).1.jointSet
      = [(0, ⟨none, none, JointParamsStub.params 0⟩)] := by
  decide

/-- C5 (amended): for a joint node with an invalid native cell, the sync
routine creates a native joint if and only if both `body1` and `body2`
resolve to rigid-body NODES; the referenced bodies' native cells are not
required to be valid — their current values are stored in the created
native joint verbatim. -/
theorem C5_joint_creation (w : PhysicsWorldM) (nodes : Pool) (handle : Handle)
    (j : JointState) (hnat : j.native = none) :
    ((sync_to_joint_node w nodes handle j).2.native.isSome
        = joint_bodies_assigned nodes j) ∧
    (joint_bodies_assigned nodes j = false →
      sync_to_joint_node w nodes handle j = (w, j)) ∧
    (∀ b1 b2, (nodes.lookup j.body1.value).bind NodeM.castRigidBody = some b1 →
      (nodes.lookup j.body2.value).bind NodeM.castRigidBody = some b2 →
      (sync_to_joint_node w nodes handle j).2.native = some w.nextJoint ∧
      (sync_to_joint_node w nodes handle j).1.jointSet
        = w.jointSet
            ++ [(w.nextJoint, ⟨b1.native, b2.native, convert_joint_params j.params.value⟩)]) := by
  rcases hb1 : (nodes.lookup j.body1.value).bind NodeM.castRigidBody with _ | b1
  · rcases hb2 : (nodes.lookup j.body2.value).bind NodeM.castRigidBody with _ | b2
    · simp [sync_to_joint_node, joint_bodies_assigned, hnat, hb1, hb2]
    · simp [sync_to_joint_node, joint_bodies_assigned, hnat, hb1, hb2]
  · rcases hb2 : (nodes.lookup j.body2.value).bind NodeM.castRigidBody with _ | b2
    · simp [sync_to_joint_node, joint_bodies_assigned, hnat, hb1, hb2]
    · refine ⟨?_, ?_, ?_⟩
      · simp [sync_to_joint_node, joint_bodies_assigned, hnat, hb1, hb2,
          PhysicsWorldM.add_joint]
      · simp [joint_bodies_assigned, hb1, hb2]
      · intro c1 c2 hc1 hc2
        cases Option.some.inj hc1
        cases Option.some.inj hc2
        constructor
        · simp [sync_to_joint_node, hnat, hb1, hb2, PhysicsWorldM.add_joint]
        · simp [sync_to_joint_node, hnat, hb1, hb2, PhysicsWorldM.add_joint]

/-- C5 witness: the amended creation condition instantiated on the
two-unsynced-bodies pool (condition true, natives stored verbatim as
`none`). -/
theorem C5_joint_creation_witness :
    c5Joint.native = none ∧
    (((sync_to_joint_node PhysicsWorldM.new c5Pool ⟨2, 1⟩ c5Joint).2.native.isSome
        = joint_bodies_assigned c5Pool c5Joint) ∧
     (joint_bodies_assigned c5Pool c5Joint = false →
        sync_to_joint_node PhysicsWorldM.new c5Pool ⟨2, 1⟩ c5Joint
          = (PhysicsWorldM.new, c5Joint)) ∧
     (∀ b1 b2,
        (c5Pool.lookup c5Joint.body1.value).bind NodeM.castRigidBody = some b1 →
        (c5Pool.lookup c5Joint.body2.value).bind NodeM.castRigidBody = some b2 →
        (sync_to_joint_node PhysicsWorldM.new c5Pool ⟨2, 1⟩ c5Joint).2.native
          = some PhysicsWorldM.new.nextJoint ∧
        (sync_to_joint_node PhysicsWorldM.new c5Pool ⟨2, 1⟩ c5Joint).1.jointSet
          = PhysicsWorldM.new.jointSet
              ++ [(PhysicsWorldM.new.nextJoint,
                    ⟨b1.native, b2.native, convert_joint_params c5Joint.params.value⟩)])) :=
  ⟨by decide,
    C5_joint_creation PhysicsWorldM.new c5Pool ⟨2, 1⟩ c5Joint (by decide)⟩

/-- C6 counterexample: converting a Trimesh collider shape whose source
list is EMPTY yields `None` — no shape at all — not the claimed degenerate
single-point fallback triangle. -/
theorem C6_counterexample :
    collider_shape_into_native_shape (ColliderShape.trimesh [])
        (M4Stub.isoInvGlobal hRoot) hRoot ⟨[]⟩ = none ∧
    collider_shape_into_native_shape (ColliderShape.trimesh [])
        (M4Stub.isoInvGlobal hRoot) hRoot ⟨[]⟩ ≠
      some (NativeShape.trimesh [TrimeshVertex.zeroPoint] [(0, 0, 0)]) := by
  decide

/-- C6 (amended): a Trimesh shape whose source list is NON-empty but whose
sources yield zero triangles converts to the degenerate single-point
fallback trimesh (with a logged warning); a Trimesh shape with an empty
source list converts to `None` instead (no native shape — collider
creation or shape update is skipped).  Neither case is a hard failure. -/
theorem C6_trimesh_fallback (sources : List Handle) (nodes : Pool)
    (inv : M4Stub) (owner : Handle)
    (hne : sources ≠ []) (hzero : gatherTriangles sources nodes = []) :
    collider_shape_into_native_shape (ColliderShape.trimesh sources) inv owner nodes
      = some (NativeShape.trimesh [TrimeshVertex.zeroPoint] [(0, 0, 0)]) ∧
    collider_shape_into_native_shape (ColliderShape.trimesh []) inv owner nodes
      = none := by
  cases sources with
  | nil => exact absurd rfl hne
  | cons a rest =>
    constructor
    · simp [collider_shape_into_native_shape, make_trimesh, hzero]
    · simp [collider_shape_into_native_shape]

/-- C6 witness: the fallback instantiated on a pool holding one mesh node
with zero triangles, referenced as the single geometry source. -/
theorem C6_trimesh_fallback_witness :
    ([(⟨0, 1⟩ : Handle)] ≠ ([] : List Handle)) ∧
    gatherTriangles [⟨0, 1⟩] c6Pool = [] ∧
    (collider_shape_into_native_shape (ColliderShape.trimesh [⟨0, 1⟩])
        (M4Stub.isoInvGlobal ⟨1, 1⟩) ⟨1, 1⟩ c6Pool
      = some (NativeShape.trimesh [TrimeshVertex.zeroPoint] [(0, 0, 0)]) ∧
     collider_shape_into_native_shape (ColliderShape.trimesh [])
        (M4Stub.isoInvGlobal ⟨1, 1⟩) ⟨1, 1⟩ c6Pool = none) :=
  ⟨by decide, by decide,
    C6_trimesh_fallback [⟨0, 1⟩] c6Pool (M4Stub.isoInvGlobal ⟨1, 1⟩) ⟨1, 1⟩
      (by decide) (by decide)⟩

/-- C9: `<Graph as Visit>::visit` in reading mode panics on a graph whose
pool is non-empty (holds any live node), before any region is entered. -/
theorem C9_visit_requires_empty_pool (g : GraphM)
    (hne : g.pool.alive_count ≠ 0) :
    g.visit true = GraphM.VisitOutcome.panicked := by
  have hcap : g.pool.get_capacity ≠ 0 := by
    intro hc
    apply hne
    have hle := List.countP_le_length
      (fun s => match s.state with
        | SlotState.occupied _ => true
        | _ => false) (l := g.pool.slots)
    unfold Pool.get_capacity at hc
    unfold Pool.alive_count
    omega
  simp [GraphM.visit, hcap]

/-- C9 witness: a read-visit into the live three-node graph `c3Graph`
panics. -/
theorem C9_visit_requires_empty_pool_witness :
    c3Graph.pool.alive_count ≠ 0 ∧
    c3Graph.visit true = GraphM.VisitOutcome.panicked :=
  ⟨by decide, C9_visit_requires_empty_pool c3Graph (by decide)⟩

/-- C10: `cast_ray` clears the caller's storage before running the query,
so its outcome is identical whatever the storage previously contained —
results never accumulate across successive casts. -/
theorem C10_cast_ray_clears_storage (w : PhysicsWorldM) (hits : List NativeHit)
    (sortResults : Bool) (s : QueryStorage) :
    cast_ray w hits sortResults s
      = cast_ray w hits sortResults ⟨[], s.capacity⟩ := by
  simp [cast_ray, QueryStorage.clear]

/-- C8: for a well-formed graph (hierarchy invariant) and any handle `r`
alive in it, `take_reserve_sub_graph(r)` immediately followed by
`put_sub_graph_back` on the returned SubGraph yields a graph with the
identical set of valid handles (pointwise equal liveness, same index and
generation since handles are compared whole) and identical parent/child
structure except that `r` is re-parented under the graph root: the
returned handle is `r` itself, the root handle is unchanged, every node's
parent field is unchanged except `r`'s which now names the graph root, and
every node's children list is unchanged except that `r` moves from its
original parent's list to the end of the root's list (expressed uniformly:
non-root lists lose their `r` occurrence — a no-op everywhere but at the
original parent — and the root's list is that erasure plus `r` appended). -/
theorem C8_subgraph_roundtrip (g : GraphM) (r : Handle) (gmid : GraphM)
    (sg : GraphM.SubGraphM) (gf : GraphM) (rh : Handle)
    (hinv : Inv g)
    (htake : g.take_reserve_sub_graph r = some (gmid, sg))
    (hput : gmid.put_sub_graph_back sg = some (gf, rh)) :
    rh = r ∧ gf.root = g.root ∧
    (∀ x, (gf.pool.lookup x).isSome = (g.pool.lookup x).isSome) ∧
    (∀ x n n2, g.pool.lookup x = some n → gf.pool.lookup x = some n2 →
      n2.parent = (if x = r then g.root else n.parent) ∧
      n2.children = (if x = g.root then n.children.erase r ++ [r]
        else n.children.erase r)) := by
  obtain ⟨hg, hrne, -, ⟨R, hR, hRp⟩, hii, hiii⟩ := hinv
  -- ==================== decompose the take ====================
  unfold GraphM.take_reserve_sub_graph at htake
  simp only [Option.bind_eq_bind', Option.pure_def, Option.some_bind] at htake
  rcases Option.bind_eq_some.mp htake with ⟨rootNode, hrootN, ht2⟩
  rcases Option.bind_eq_some.mp ht2 with ⟨prTS, hTS, ht3⟩
  obtain ⟨g1, ds⟩ := prTS
  rcases Option.bind_eq_some.mp ht3 with ⟨prTR, hTR, ht4⟩
  obtain ⟨g2x, tt, nhat0⟩ := prTR
  have hpr4 := Option.some.inj ht4
  have hgmid : g2x = gmid := congrArg Prod.fst hpr4
  have hsgv : (⟨(tt, nhat0), ds⟩ : GraphM.SubGraphM) = sg := congrArg Prod.snd hpr4
  cases hgmid
  cases hsgv
  unfold GraphM.take_reserve at hTR
  simp only [Option.bind_eq_bind', Option.pure_def, Option.some_bind] at hTR
  rcases Option.bind_eq_some.mp hTR with ⟨gU, hunl, hTR2⟩
  rcases Option.bind_eq_some.mp hTR2 with ⟨prP, hPt, hTR3⟩
  obtain ⟨pool3, t2, n2hat⟩ := prP
  have hpr3 := Option.some.inj hTR3
  have hga : ({ gU with pool := pool3 } : GraphM) = gmid := congrArg Prod.fst hpr3
  have hta : t2 = tt := congrArg (fun pr => pr.2.1) hpr3
  have hna : n2hat = nhat0 := congrArg (fun pr => pr.2.2) hpr3
  cases hga
  cases hta
  cases hna
  rcases takeSubLoop_spec _ _ _ _ _ _ hTS with
    ⟨tail, hds0, hroot1, hphys1, hgen1, ⟨hRD1, hRD2, hRD3⟩, hcover, hprov⟩
  have hdsv : ds = tail := by simpa using hds0
  cases hdsv
  have hg1gen : genOK g1.pool := hgen1 hg
  obtain ⟨n₀, hn₀, hrootU, hgenU, ⟨nh, hnhU, hnhp, hnhc⟩, hUunch, hUpar, hUnone, hUslots⟩ :=
    GraphM.unlink_internal_spec g1 r gU hg1gen hunl
  have hrds : r.index ∉ ds.map Prod.fst := by
    intro hmem
    rcases List.mem_map.mp hmem with ⟨pr, hpr, hfst⟩
    obtain ⟨t3, n3⟩ := pr
    have hfst2 : t3 = r.index := hfst
    rcases hRD1 t3 n3 hpr with ⟨gen, _, hres⟩
    rw [hfst2] at hres
    rw [Pool.lookup_none_of_reserved g1.pool r.index gen hres r rfl] at hn₀
    cases hn₀
  have hlu1 : ∀ x, x.index ∉ ds.map Prod.fst → g1.pool.lookup x = g.pool.lookup x :=
    fun x hx => Pool.lookup_congr g.pool g1.pool x (hRD2 x.index hx)
  have hn₀R : n₀ = rootNode := by
    have h0 := hn₀
    rw [hlu1 r hrds, hrootN] at h0
    exact (Option.some.inj h0).symm
  rw [hn₀R] at hnhc hUpar hUnone hUslots hUunch hn₀
  have hrNONE : r ≠ Handle.NONE := by
    intro hcon
    rw [hcon, Pool.lookup_NONE g.pool hg] at hrootN
    cases hrootN
  have hrchild : r ∉ rootNode.children := by
    intro hmem
    exact hrds (hcover r (List.mem_reverse.mpr hmem))
  have hp0r : rootNode.parent ≠ r := by
    intro hcon
    by_cases hrr : r = g.root
    · have hRr : R = rootNode := by
        have h0 := hrootN
        rw [hrr, hR] at h0
        exact Option.some.inj h0
      rw [← hRr, hRp] at hcon
      exact hrNONE hcon.symm
    · rcases hii r rootNode hrootN hrr (by simp) with ⟨pq, hpq, hcnt⟩
      rw [hcon, hrootN] at hpq
      have hpqe : rootNode = pq := Option.some.inj hpq
      rw [← hpqe] at hcnt
      apply hrchild
      by_contra hnm
      rw [List.count_eq_zero.mpr hnm] at hcnt
      omega
  have hnhcE : nh.children = rootNode.children := by
    rw [hnhc, if_neg hp0r]
  have hronly : ∀ q qn, g.pool.lookup q = some qn → r ∈ qn.children →
      q = rootNode.parent := by
    intro q qn hq hmem
    rcases hiii q qn hq r hmem with ⟨-, -, m, hm, hmp⟩
    rw [hrootN] at hm
    have hme : rootNode = m := Option.some.inj hm
    rw [← hmp, ← hme]
  have hnotin : ∀ q qn, g.pool.lookup q = some qn → q ≠ rootNode.parent →
      r ∉ qn.children :=
    fun q qn hq hne hmem => hne (hronly q qn hq hmem)
  have hstale : ∀ x, x.index = r.index → x ≠ r → g.pool.lookup x = none := by
    intro x hxi hxr
    rcases hlx : g.pool.lookup x with _ | m
    · rfl
    · exact absurd (Pool.alive_index_inj g.pool x r m rootNode hlx hrootN hxi) hxr
  have hg1alive_idx : ∀ x m, g1.pool.lookup x = some m → x.index ∉ ds.map Prod.fst := by
    intro x m hm hmem
    rcases List.mem_map.mp hmem with ⟨pr, hpr, hfst⟩
    obtain ⟨t3, n3⟩ := pr
    have hfst2 : t3 = x.index := hfst
    rcases hRD1 t3 n3 hpr with ⟨gen, _, h1s⟩
    rw [Pool.lookup_none_of_reserved g1.pool t3 gen h1s x hfst2.symm] at hm
    cases hm
  have hrootds : g.root.index ∉ ds.map Prod.fst := by
    intro hmem
    rcases List.mem_map.mp hmem with ⟨pr, hpr, hfst⟩
    obtain ⟨t3, n3⟩ := pr
    rcases hprov t3 n3 hpr with ⟨h2, hh2i, hh2l, hh2o⟩
    have hfst2 : t3 = g.root.index := hfst
    have hh2root : h2 = g.root :=
      Pool.alive_index_inj g.pool h2 g.root n3 R hh2l hR (by rw [hh2i, hfst2])
    rcases hh2o with hmem2 | ⟨t4, n4, htn4, hchild⟩
    · have hmm : h2 ∈ rootNode.children := List.mem_reverse.mp hmem2
      rcases hiii r rootNode hrootN h2 hmm with ⟨hne, -, -⟩
      exact hne hh2root
    · rcases hprov t4 n4 htn4 with ⟨h4, hh4i, hh4l, -⟩
      rcases hiii h4 n4 hh4l h2 hchild with ⟨hne, -, -⟩
      exact hne hh2root
  have hRg1 : g1.pool.lookup g.root = some R := by
    rw [hlu1 g.root hrootds]
    exact hR
  -- r's slot in gU
  rcases (Pool.lookup_eq_some_iff _ _ _).mp hnhU with ⟨sU, hsU, hsUg, hsUstt⟩
  rw [Pool.take_reserve_eq gU.pool r nh hnhU] at hPt
  have hpr2 := Option.some.inj hPt
  have hpool3 : pool3 = ⟨listModify gU.pool.slots r.index
      (fun s => { s with state := SlotState.reserved })⟩ :=
    (congrArg Prod.fst hpr2).symm
  have ht2i : r.index = tt := congrArg (fun pr => pr.2.1) hpr2
  have hnh2 : nh = nhat0 := congrArg (fun pr => pr.2.2) hpr2
  subst hpool3
  cases ht2i
  cases hnh2
  -- ==================== decompose the put ====================
  unfold GraphM.put_sub_graph_back at hput
  simp only [Option.bind_eq_bind', Option.pure_def, Option.some_bind] at hput
  rcases Option.bind_eq_some.mp hput with ⟨g3, hfold, hp2⟩
  rcases Option.bind_eq_some.mp hp2 with ⟨prPB, hPB, hp3⟩
  obtain ⟨g4, rootHandle⟩ := prPB
  rcases Option.bind_eq_some.mp hp3 with ⟨gff, hlk2, hp4⟩
  have hpr5 := Option.some.inj hp4
  have hgfv : gff = gf := congrArg Prod.fst hpr5
  have hrhv : rootHandle = rh := congrArg Prod.snd hpr5
  cases hgfv
  cases hrhv
  have hslotmid : ∀ t3 n3, (t3, n3) ∈ ds → ∃ gen,
      g.pool.slots[t3]? = some ⟨gen, SlotState.occupied n3⟩ ∧
      ({ gU with pool := (⟨listModify gU.pool.slots r.index
        (fun s => { s with state := SlotState.reserved })⟩ : Pool) } : GraphM).pool.slots[t3]?
        = some ⟨gen, SlotState.reserved⟩ := by
    intro t3 n3 hmem
    rcases hRD1 t3 n3 hmem with ⟨gen, hgs, h1s⟩
    have ht3r : t3 ≠ r.index := by
      intro hcon
      exact hrds (hcon ▸ List.mem_map.mpr ⟨(t3, n3), hmem, rfl⟩)
    refine ⟨gen, hgs, ?_⟩
    show (⟨listModify gU.pool.slots r.index
      (fun s => { s with state := SlotState.reserved })⟩ : Pool).slots[t3]? = _
    have hstep1 : (⟨listModify gU.pool.slots r.index
        (fun s => { s with state := SlotState.reserved })⟩ : Pool).slots[t3]?
        = gU.pool.slots[t3]? := by
      simp [listModify_getElem?, ht3r]
    have hside : rootNode.parent.isSome = true → t3 ≠ rootNode.parent.index := by
      intro hps hcon
      rcases hUpar hp0r hps with ⟨pn, pn1, hpn, -, -, -⟩
      rw [Pool.lookup_none_of_reserved g1.pool t3 gen h1s rootNode.parent hcon.symm] at hpn
      cases hpn
    rw [hstep1, hUslots t3 ht3r hside]
    exact h1s
  have hresv : ∀ t3 n3, (t3, n3) ∈ ds → ∃ gen,
      ({ gU with pool := (⟨listModify gU.pool.slots r.index
        (fun s => { s with state := SlotState.reserved })⟩ : Pool) } : GraphM).pool.slots[t3]?
        = some ⟨gen, SlotState.reserved⟩ :=
    fun t3 n3 hmem => match hslotmid t3 n3 hmem with
      | ⟨gen, _, h2⟩ => ⟨gen, h2⟩
  rcases putLoop_spec ds _ g3 hresv hRD3 hfold with ⟨hoff, hpairs, hroot3, hphys3, hgok3⟩
  have hmidgok : genOK ({ gU with pool := (⟨listModify gU.pool.slots r.index
      (fun s => { s with state := SlotState.reserved })⟩ : Pool) } : GraphM).pool :=
    Pool.genOK_reserve gU.pool r.index hgenU
  have hgok3v : genOK g3.pool := hgok3 hmidgok
  have hlu3 : ∀ x, g3.pool.lookup x =
      if x.index ∈ ds.map Prod.fst then g.pool.lookup x
      else if x.index = r.index then none
      else gU.pool.lookup x := by
    intro x
    by_cases hx : x.index ∈ ds.map Prod.fst
    · rw [if_pos hx]
      rcases List.mem_map.mp hx with ⟨pr, hpr, hfst⟩
      obtain ⟨t3, n3⟩ := pr
      have hfst2 : t3 = x.index := hfst
      rcases hpairs t3 n3 hpr with ⟨gen, hres, hocc⟩
      rcases hslotmid t3 n3 hpr with ⟨gen0, hgs, hmids⟩
      have hgeq : gen = gen0 := by
        rw [hres] at hmids
        have h2 := Option.some.inj hmids
        exact congrArg Slot.generation h2
      rw [hfst2] at hocc hgs
      apply Pool.lookup_congr
      rw [hocc, hgs, hgeq]
    · rw [if_neg hx]
      have hstep := Pool.lookup_congr _ g3.pool x (hoff x.index hx)
      rw [hstep]
      exact Pool.lookup_reserve gU.pool r.index x
  have hrootg3 : g3.root = g.root := by
    rw [hroot3]
    show gU.root = g.root
    rw [hrootU, hroot1]
  have hg3r : g3.pool.slots[r.index]? = some ⟨r.generation, SlotState.reserved⟩ := by
    rw [hoff r.index hrds]
    show (⟨listModify gU.pool.slots r.index
      (fun s => { s with state := SlotState.reserved })⟩ : Pool).slots[r.index]? = _
    have hsUe : ({ sU with state := SlotState.reserved } : Slot)
        = ⟨r.generation, SlotState.reserved⟩ := by
      rcases sU with ⟨sg2, sst2⟩
      have hsg : sg2 = r.generation := hsUg
      rw [hsg]
    simp [listModify_getElem?, hsU, hsUe]
  unfold GraphM.put_back at hPB
  simp only [Option.bind_eq_bind', Option.pure_def, Option.some_bind] at hPB
  rcases Option.bind_eq_some.mp hPB with ⟨prB, hPBp, hPB2⟩
  obtain ⟨pool5, h5⟩ := prB
  rcases Option.bind_eq_some.mp hPB2 with ⟨g4b, hlk1, hPB3⟩
  have hpr6 := Option.some.inj hPB3
  have hg4v : g4b = g4 := congrArg Prod.fst hpr6
  have hh5v : h5 = rh := congrArg Prod.snd hpr6
  cases hg4v
  cases hh5v
  rw [Pool.put_back_eq g3.pool r.index r.generation nhat0 hg3r] at hPBp
  have hpr7 := Option.some.inj hPBp
  have hpool5 : pool5 = ⟨listModify g3.pool.slots r.index
      (fun s2 => { s2 with state := SlotState.occupied nhat0 })⟩ :=
    (congrArg Prod.fst hpr7).symm
  have hh5 : (⟨r.index, r.generation⟩ : Handle) = rh := congrArg Prod.snd hpr7
  rw [Handle.eta r] at hh5
  subst hpool5
  cases hh5
  have hlu5 : ∀ x, ({ g3 with pool := (⟨listModify g3.pool.slots r.index
      (fun s2 => { s2 with state := SlotState.occupied nhat0 })⟩ : Pool) } : GraphM).pool.lookup x
      = if x = r then some nhat0 else g3.pool.lookup x := by
    intro x
    have hstep := Pool.lookup_put_back g3.pool r.index r.generation nhat0 hg3r x
    rw [Handle.eta r] at hstep
    exact hstep
  have hgok5 : genOK ({ g3 with pool := (⟨listModify g3.pool.slots r.index
      (fun s2 => { s2 with state := SlotState.occupied nhat0 })⟩ : Pool) } : GraphM).pool :=
    Pool.genOK_occupy g3.pool r.index nhat0 hgok3v
  obtain ⟨nA, g1a, cnA, pnA, hnA, hunlA, hcnA, hcnAp, hcnAc, hpnA, hrootA, hgenA, hrootA1, hluA⟩ :=
    link_nodes_lookup _ r g3.root g4 hgok5 hlk1
  have hnAv : nA = nhat0 := by
    have h0 := hnA
    rw [hlu5 r, if_pos rfl] at h0
    exact (Option.some.inj h0).symm
  rw [hnAv] at hcnAc
  have hcnAcE : cnA.children = rootNode.children := by
    rw [hcnAc, hnhp, if_neg (fun hcon => hrNONE hcon.symm)]
    exact hnhcE
  obtain ⟨nA2, hnA2, -, -, -, -, -, hUnoneA, -⟩ :=
    GraphM.unlink_internal_spec _ r g1a hgok5 hunlA
  have hnA2v : nA2 = nhat0 := by
    have h0 := hnA2
    rw [hlu5 r, if_pos rfl] at h0
    exact (Option.some.inj h0).symm
  have hunchA : ∀ x, x ≠ r → g1a.pool.lookup x
      = ({ g3 with pool := (⟨listModify g3.pool.slots r.index
        (fun s2 => { s2 with state := SlotState.occupied nhat0 })⟩ : Pool) } : GraphM).pool.lookup x :=
    fun x hx => hUnoneA (by rw [hnA2v, hnhp]; decide) x hx
  obtain ⟨nB, g1b, cnB, pnB, hnB, hunlB, hcnB2, hcnBp, hcnBc, hpnB, hrootB, hgenB, hrootB1, hluB⟩ :=
    link_nodes_lookup g4 r g4.root gf hgenA hlk2
  have hrootg4 : g4.root = g.root := by
    rw [hrootA]
    show g3.root = g.root
    exact hrootg3
  have hrootgf : gf.root = g.root := by
    rw [hrootB, hrootg4]
  -- ==================== uniform final facts ====================
  obtain ⟨nB2, hnB2, -, -, -, hUunchB, hUparB, hUnoneB, -⟩ :=
    GraphM.unlink_internal_spec g4 r g1b hgenA hunlB
  have hnB2v : nB2 = nB := by
    have h0 := hnB2
    rw [hnB] at h0
    exact (Option.some.inj h0).symm
  have hpnAvalB : r = g3.root → pnA = { cnA with parent := g3.root } := by
    intro hB
    have h0 := hpnA
    rw [Pool.lookup_update g1a.pool r _ cnA hcnA g3.root, if_pos hB.symm] at h0
    exact (Option.some.inj h0).symm
  have hnBv2 : nB.parent = g3.root := by
    have h0 := hnB
    rw [hluA r] at h0
    by_cases hB : r = g3.root
    · rw [if_pos hB] at h0
      have h1 : { pnA with children := pnA.children ++ [r] } = nB := Option.some.inj h0
      rw [← h1]
      show pnA.parent = g3.root
      rw [hpnAvalB hB]
    · rw [if_neg hB, if_pos rfl] at h0
      have h1 : { cnA with parent := g3.root } = nB := Option.some.inj h0
      rw [← h1]
  have hchain1 : ∀ x, x ≠ r → x ≠ g.root → g1b.pool.lookup x = g4.pool.lookup x := by
    intro x hxr hxroot
    refine hUunchB x hxr ?_
    rw [hnB2v, hnBv2, hrootg3]
    exact hxroot
  have hchain2 : ∀ x, x ≠ r → x ≠ g.root → g4.pool.lookup x = g1a.pool.lookup x := by
    intro x hxr hxroot
    rw [hluA x, if_neg (fun hcon => hxroot (hcon.trans hrootg3)), if_neg hxr]
  have hchain3 : ∀ x, x ≠ r → g1a.pool.lookup x = g3.pool.lookup x := by
    intro x hxr
    rw [hunchA x hxr, hlu5 x, if_neg hxr]
  have hchainA : ∀ x, x ≠ r → x ≠ g.root → g1b.pool.lookup x = g3.pool.lookup x :=
    fun x h1 h2 => (hchain1 x h1 h2).trans ((hchain2 x h1 h2).trans (hchain3 x h1))
  have hgfother : ∀ x, x ≠ r → x ≠ g.root → gf.pool.lookup x = g3.pool.lookup x := by
    intro x hxr hxroot
    rw [hluB x, if_neg (fun hcon => hxroot (hcon.trans hrootg4)), if_neg hxr]
    exact hchainA x hxr hxroot
  have hg3other : ∀ x, x ≠ r →
      (rootNode.parent.isSome = true → x ≠ rootNode.parent) →
      g3.pool.lookup x = g.pool.lookup x := by
    intro x hxr hxp
    rw [hlu3 x]
    by_cases hx : x.index ∈ ds.map Prod.fst
    · rw [if_pos hx]
    · rw [if_neg hx]
      by_cases hxi : x.index = r.index
      · rw [if_pos hxi, hstale x hxi hxr]
      · rw [if_neg hxi]
        by_cases hps : rootNode.parent.isSome = true
        · rw [hUunch x hxr (hxp hps)]
          exact hlu1 x hx
        · have hpsf : rootNode.parent.isSome = false := by
            cases hb : rootNode.parent.isSome
            · rfl
            · exact absurd hb hps
          rw [hUnone hpsf x hxr]
          exact hlu1 x hx
  have hgfrootval : gf.pool.lookup g.root
      = some { pnB with children := pnB.children ++ [r] } := by
    rw [hluB g.root, if_pos hrootg4.symm]
  -- ==================== case split ====================
  have hmain : (∀ x, (gf.pool.lookup x).isSome = (g.pool.lookup x).isSome) ∧
      (∀ x n n2, g.pool.lookup x = some n → gf.pool.lookup x = some n2 →
        n2.parent = (if x = r then g.root else n.parent) ∧
        n2.children = (if x = g.root then n.children.erase r ++ [r]
          else n.children.erase r)) := by
    by_cases hrR : r = g.root
    · -- ========== the extracted node is the graph root itself ==========
      have hRr : rootNode = R := by
        have h0 := hrootN
        rw [hrR, hR] at h0
        exact (Option.some.inj h0).symm
      have hp0NONE : rootNode.parent = Handle.NONE := by
        rw [hRr]
        exact hRp
      have hnochild : ∀ q qn, g.pool.lookup q = some qn → r ∉ qn.children := by
        intro q qn hq hmem
        exact (hiii q qn hq r hmem).1 hrR
      have hrg3 : r = g3.root := by
        rw [hrR]
        exact hrootg3.symm
      have hrg4 : r = g4.root := by
        rw [hrR]
        exact hrootg4.symm
      have hpnAv : pnA = { cnA with parent := g3.root } := hpnAvalB hrg3
      have hnBvB : nB = { pnA with children := pnA.children ++ [r] } := by
        have h0 := hnB
        rw [hluA r, if_pos hrg3] at h0
        exact (Option.some.inj h0).symm
      have hcnBcB : cnB.children = R.children := by
        rw [hcnBc, if_pos (by rw [hnBvB]; show pnA.parent = r; rw [hpnAv]; show g3.root = r; exact hrg3.symm)]
        rw [hnBvB]
        show (pnA.children ++ [r]).erase r = R.children
        have hpnAch : pnA.children = R.children := by
          rw [hpnAv]
          show cnA.children = R.children
          rw [hcnAcE, hRr]
        rw [hpnAch, List.erase_append_right _ (hnochild g.root R hR)]
        simp
      have hpnBvB : pnB = { cnB with parent := g4.root } := by
        have h0 := hpnB
        rw [Pool.lookup_update g1b.pool r _ cnB hcnB2 g4.root, if_pos hrg4.symm] at h0
        exact (Option.some.inj h0).symm
      have hgfrB : gf.pool.lookup r = some { pnB with children := pnB.children ++ [r] } := by
        rw [hluB r, if_pos hrg4]
      constructor
      · intro x
        by_cases hxr : x = r
        · rw [hxr, hgfrB]
          have hgr : g.pool.lookup r = some R := by
            rw [hrR]
            exact hR
          rw [hgr]
          rfl
        · have hxroot : x ≠ g.root := by
            rw [← hrR]
            exact hxr
          rw [hgfother x hxr hxroot, hg3other x hxr
            (fun hps => absurd hps (by rw [hp0NONE]; decide))]
      · intro x n n2 hxg hxgf
        by_cases hxr : x = r
        · rw [hxr] at hxg hxgf
          rw [hrR, hR] at hxg
          have hnR : n = R := (Option.some.inj hxg).symm
          rw [hgfrB] at hxgf
          have hn2v : n2 = { pnB with children := pnB.children ++ [r] } :=
            (Option.some.inj hxgf).symm
          constructor
          · rw [if_pos hxr, hn2v]
            show pnB.parent = g.root
            rw [hpnBvB]
            show g4.root = g.root
            exact hrootg4
          · rw [if_pos (hxr.trans hrR), hn2v]
            show pnB.children ++ [r] = n.children.erase r ++ [r]
            rw [hpnBvB]
            show cnB.children ++ [r] = n.children.erase r ++ [r]
            rw [hcnBcB, hnR, List.erase_of_not_mem (hnochild g.root R hR)]
        · have hxroot : x ≠ g.root := by
            rw [← hrR]
            exact hxr
          rw [hgfother x hxr hxroot, hg3other x hxr
            (fun hps => absurd hps (by rw [hp0NONE]; decide)), hxg] at hxgf
          have hn2 : n2 = n := (Option.some.inj hxgf).symm
          cases hn2
          constructor
          · rw [if_neg hxr]
          · rw [if_neg hxroot, List.erase_of_not_mem (hnochild x n hxg)]
    · -- ========== the extracted node is a proper non-root node ==========
      rcases hii r rootNode hrootN hrR (by simp) with ⟨p0n, hp0n, hp0cnt⟩
      have hp0some : rootNode.parent.isSome = true := by
        rw [Handle.isSome_true_iff]
        intro hcon
        rw [hcon, Pool.lookup_NONE g.pool hg] at hp0n
        cases hp0n
      rcases hUpar hp0r hp0some with ⟨pn, pn1, hpn, hpn1, hpn1p, hpn1c⟩
      have hidxp : rootNode.parent.index ∉ ds.map Prod.fst := hg1alive_idx _ pn hpn
      have hpneq : pn = p0n := by
        have h0 := hpn
        rw [hlu1 _ hidxp, hp0n] at h0
        exact (Option.some.inj h0).symm
      have hp0idx : rootNode.parent.index ≠ r.index := by
        intro hcon
        exact hp0r (Pool.alive_index_inj g1.pool rootNode.parent r pn rootNode hpn hn₀ hcon)
      have hg3p0 : g3.pool.lookup rootNode.parent = some pn1 := by
        rw [hlu3, if_neg hidxp, if_neg hp0idx]
        exact hpn1
      have hg3rootr : g3.root ≠ r := by
        rw [hrootg3]
        exact fun hcon => hrR hcon.symm
      have hg4rootr : g4.root ≠ r := by
        rw [hrootg4]
        exact fun hcon => hrR hcon.symm
      have hrootidx : g.root.index ≠ r.index := by
        intro hcon
        exact hrR (Pool.alive_index_inj g.pool g.root r R rootNode hR hrootN hcon).symm
      -- the root slot on its way to pnA
      have hpnAroot : g1a.pool.lookup g.root = some pnA := by
        have h0 := hpnA
        rw [Pool.lookup_update g1a.pool r _ cnA hcnA g3.root, if_neg hg3rootr] at h0
        rw [← hrootg3]
        exact h0
      have hg3rootval : g3.pool.lookup g.root = some pnA := by
        rw [← hchain3 g.root (fun hcon => hrR hcon.symm)]
        exact hpnAroot
      have hpnAfacts : pnA.children = R.children.erase r ∧ pnA.parent = R.parent ∧
          r ∉ pnA.children := by
        have h0 := hg3rootval
        rw [hlu3, if_neg hrootds, if_neg hrootidx] at h0
        by_cases hp0root : rootNode.parent = g.root
        · rw [hp0root] at hpn1
          rw [hpn1] at h0
          have hpv : pn1 = pnA := Option.some.inj h0
          have hp0nR : p0n = R := by
            rw [hp0root] at hp0n
            rw [hR] at hp0n
            exact (Option.some.inj hp0n).symm
          have hchv : pnA.children = R.children.erase r := by
            rw [← hpv, hpn1c, hpneq, hp0nR]
          refine ⟨hchv, ?_, ?_⟩
          · rw [← hpv, hpn1p, hpneq, hp0nR]
          · rw [hchv]
            intro hmem
            have hcz := List.count_erase_self r R.children
            have hcnt1 : R.children.count r = 1 := by
              rw [← hp0nR]
              exact hp0cnt
            rw [hcnt1] at hcz
            have hz : (R.children.erase r).count r = 0 := by omega
            exact absurd (List.count_eq_zero.mp hz) (fun hq => hq hmem)
        · have hne2 : g.root ≠ rootNode.parent := fun hcon => hp0root hcon.symm
          rw [hUunch g.root (fun hcon => hrR hcon.symm) hne2, hRg1] at h0
          have hpv : R = pnA := Option.some.inj h0
          have hnomem : r ∉ R.children := hnotin g.root R hR hne2
          refine ⟨?_, by rw [← hpv], ?_⟩
          · rw [← hpv, List.erase_of_not_mem hnomem]
          · rw [← hpv]
            exact hnomem
      -- the r slot value
      have hnBvA : nB = { cnA with parent := g3.root } := by
        have h0 := hnB
        rw [hluA r, if_neg (fun hcon => hg3rootr hcon.symm), if_pos rfl] at h0
        exact (Option.some.inj h0).symm
      have hcnBcA : cnB.children = rootNode.children := by
        rw [hcnBc, hnBvA]
        rw [if_neg (fun hcon => hg3rootr hcon)]
        exact hcnAcE
      have hgfrA : gf.pool.lookup r = some { cnB with parent := g4.root } := by
        rw [hluB r, if_neg (fun hcon => hg4rootr hcon.symm), if_pos rfl]
      -- the parent slot value
      have hpnBfacts : pnB.children = pnA.children ∧ pnB.parent = pnA.parent := by
        have hnB2p : nB2.parent ≠ r := by
          rw [hnB2v, hnBv2]
          exact hg3rootr
        have hnB2s : nB2.parent.isSome = true := by
          rw [hnB2v, hnBv2, hrootg3, Handle.isSome_true_iff]
          exact hrne
        rcases hUparB hnB2p hnB2s with ⟨pnb, pnb1, hpnb, hpnb1, hpnb1p, hpnb1c⟩
        have hnB2root : nB2.parent = g.root := by
          rw [hnB2v, hnBv2, hrootg3]
        rw [hnB2root] at hpnb hpnb1
        have hpnbv : pnb = { pnA with children := pnA.children ++ [r] } := by
          have h1 := hpnb
          rw [hluA g.root, if_pos hrootg3.symm] at h1
          exact (Option.some.inj h1).symm
        have h0 := hpnB
        rw [Pool.lookup_update g1b.pool r _ cnB hcnB2 g4.root, if_neg hg4rootr] at h0
        rw [hrootg4, hpnb1] at h0
        have hpnBv : pnB = pnb1 := (Option.some.inj h0).symm
        constructor
        · rw [hpnBv, hpnb1c, hpnbv]
          show (pnA.children ++ [r]).erase r = pnA.children
          rw [List.erase_append_right _ hpnAfacts.2.2]
          simp
        · rw [hpnBv, hpnb1p, hpnbv]
      constructor
      · intro x
        by_cases hxr : x = r
        · rw [hxr, hgfrA, hrootN]
          rfl
        · by_cases hxroot : x = g.root
          · rw [hxroot, hgfrootval, hR]
            rfl
          · by_cases hxp0 : x = rootNode.parent
            · rw [hxp0, hp0n]
              have hp0nr : rootNode.parent ≠ g.root := by
                rw [← hxp0]
                exact hxroot
              rw [hgfother _ (by rw [← hxp0]; exact hxr) hp0nr, hg3p0]
              rfl
            · rw [hgfother x hxr hxroot, hg3other x hxr (fun _ => hxp0)]
      · intro x n n2 hxg hxgf
        by_cases hxr : x = r
        · rw [hxr] at hxg hxgf
          rw [hrootN] at hxg
          have hnR : n = rootNode := (Option.some.inj hxg).symm
          rw [hgfrA] at hxgf
          have hn2v : n2 = { cnB with parent := g4.root } := (Option.some.inj hxgf).symm
          constructor
          · rw [if_pos hxr, hn2v]
            show g4.root = g.root
            exact hrootg4
          · rw [if_neg (fun hcon => hrR (hxr.symm.trans hcon)), hn2v]
            show cnB.children = n.children.erase r
            rw [hcnBcA, hnR, List.erase_of_not_mem hrchild]
        · by_cases hxroot : x = g.root
          · subst hxroot
            rw [hR] at hxg
            have hnR : n = R := (Option.some.inj hxg).symm
            rw [hgfrootval] at hxgf
            have hn2v : n2 = { pnB with children := pnB.children ++ [r] } :=
              (Option.some.inj hxgf).symm
            constructor
            · rw [if_neg hxr, hn2v]
              show pnB.parent = n.parent
              rw [hpnBfacts.2, hpnAfacts.2.1, hnR]
            · rw [if_pos rfl, hn2v]
              show pnB.children ++ [r] = n.children.erase r ++ [r]
              rw [hpnBfacts.1, hpnAfacts.1, hnR]
          · by_cases hxp0 : x = rootNode.parent
            · subst hxp0
              rw [hp0n] at hxg
              have hnv : n = p0n := (Option.some.inj hxg).symm
              rw [hgfother _ hxr hxroot, hg3p0] at hxgf
              have hn2v : n2 = pn1 := (Option.some.inj hxgf).symm
              constructor
              · rw [if_neg hxr, hn2v, hpn1p, hpneq, hnv]
              · rw [if_neg hxroot, hn2v, hpn1c, hpneq, hnv]
            · rw [hgfother x hxr hxroot, hg3other x hxr (fun _ => hxp0), hxg] at hxgf
              have hn2 : n2 = n := (Option.some.inj hxgf).symm
              cases hn2
              constructor
              · rw [if_neg hxr]
              · rw [if_neg hxroot, List.erase_of_not_mem (hnotin x n hxg hxp0)]
  exact ⟨rfl, hrootgf, hmain.1, hmain.2⟩

/-- C8 witness: the round-trip instantiated on the concrete two-node graph
`c8Base`, extracting and re-inserting the pivot node ⟨1,1⟩: both phases
succeed, the returned handle is ⟨1,1⟩ itself, and the root is unchanged. -/
theorem C8_subgraph_roundtrip_witness :
    c8Base.take_reserve_sub_graph ⟨1, 1⟩ = some (c8Mid, c8Sub) ∧
    c8Mid.put_sub_graph_back c8Sub = some (c8Final, c8Handle) ∧
    c8Handle = ⟨1, 1⟩ ∧ c8Final.root = c8Base.root := by
  have hinv : Inv c8Base :=
    (applyOps_inv c8ops GraphM.new c8Base new_inv (by decide) rfl).1
  have htake : c8Base.take_reserve_sub_graph ⟨1, 1⟩ = some (c8Mid, c8Sub) := by rfl
  have hput : c8Mid.put_sub_graph_back c8Sub = some (c8Final, c8Handle) := by rfl
  have hmain := C8_subgraph_roundtrip c8Base ⟨1, 1⟩ c8Mid c8Sub c8Final c8Handle
    hinv htake hput
  exact ⟨htake, hput, hmain.1, hmain.2.1⟩

/-- C2 counterexample: the claim quantifies over EVERY sequence of
`add_node`/`link_nodes`/`unlink_node`/`remove_node` calls, but the
sequence `c2BadOps` — add one node, then `link_nodes(root, new_node)` —
re-parents the graph root: afterwards the root's parent field is ⟨1,1⟩,
not `Handle::NONE`, falsifying the claim's root clause (and with it
"every non-root node ..."'s complement). -/
theorem C2_counterexample :
    applyOps GraphM.new c2BadOps = some c2BadGraph ∧
    (c2BadGraph.pool.lookup c2BadGraph.root).map (fun nd => nd.parent)
      = some ⟨1, 1⟩ ∧
    (⟨1, 1⟩ : Handle) ≠ Handle.NONE :=
  ⟨rfl, by decide, by decide⟩

/-- C2 (amended): for every op sequence from `Graph::new()` in which the
root is never the child argument of `link_nodes`, never the target of
`unlink_node` or `remove_node`, and never among an added node's declared
children: in the resulting graph the root is live with parent field
`Handle::NONE`; every live non-root node occurs exactly once in the
children list of the node its parent field names; and every children-list
entry is a live node whose parent field names its container — so a
non-root node's handle appears in exactly one node's children list,
namely its parent's. -/
theorem C2_hierarchy_invariant (ops : List GraphOp) (g : GraphM)
    (havoid : ∀ op ∈ ops, opAvoidsRoot GraphM.new.root op = true)
    (happ : applyOps GraphM.new ops = some g) :
    (∃ r, g.pool.lookup g.root = some r ∧ r.parent = Handle.NONE) ∧
    (∀ x n, g.pool.lookup x = some n → x ≠ g.root →
      ∃ p, g.pool.lookup n.parent = some p ∧ p.children.count x = 1) ∧
    (∀ q qn, g.pool.lookup q = some qn → ∀ x ∈ qn.children,
      ∃ m, g.pool.lookup x = some m ∧ m.parent = q) := by
  rcases applyOps_inv ops GraphM.new g new_inv havoid happ with ⟨hI, hr⟩
  obtain ⟨hg, hrne, hrnp, hroot, hii, hiii⟩ := hI
  exact ⟨hroot, fun x n hx hxr => hii x n hx hxr (by simp),
    fun q qn hq x hx => (hiii q qn hq x hx).2.2⟩

/-- C2 witness: the amended invariant instantiated on the concrete
root-avoiding sequence `c2ops` (add one pivot node), whose result is
`c2WitnessGraph`. -/
theorem C2_hierarchy_invariant_witness :
    (∀ op ∈ c2ops, opAvoidsRoot GraphM.new.root op = true) ∧
    (∃ r, c2WitnessGraph.pool.lookup c2WitnessGraph.root = some r ∧
      r.parent = Handle.NONE) :=
  ⟨by decide, (C2_hierarchy_invariant c2ops c2WitnessGraph (by decide) rfl).1⟩

end Fyrox
